import Mathlib

/-!
Shader, shader-registry and shader-program lifecycle of `loom/graphics/gfxShader.cpp`.

A shallow embedding of the shader cache / compile / link / bind state machine.

* The GPU driver is an external collaborator.  Every call the code makes on the
  GL context is appended to a trace (`World.gl`), and every value the driver
  hands back (fresh object names, compile and link status, info-log lengths,
  attribute locations) is read from a `Driver`, an arbitrary function of the
  calls made so far.
* `lmSptr<Shader>` / `lmWptr<Shader>` are reference-counted: a `Shader` lives in
  a cell of the shader heap together with its use count, a weak reference is
  expired exactly when the cell is gone, and the destructor runs when the last
  owner lets go.
* `lmAssert` failures and null dereferences end the run; the outcome keeps the
  state reached at the point of failure.
-/

set_option autoImplicit false

namespace GFX

/-! ## Driver interface -/

abbrev GLuint := Nat

abbrev GLint := Int

/-- Bit pattern of a 32-bit float handed to the driver; no arithmetic is done on it. -/
structure GLfloat where
  bits : Nat
  deriving DecidableEq, Repr

/-- The two `GLenum` shader kinds the code passes to `glCreateShader`. -/
inductive ShaderType
  | GL_VERTEX_SHADER
  | GL_FRAGMENT_SHADER
  deriving DecidableEq, Repr

/-- Parameter names queried with `glGetShaderiv`. -/
inductive ShaderParam
  | GL_COMPILE_STATUS
  | GL_INFO_LOG_LENGTH
  deriving DecidableEq, Repr

/-- Parameter names queried with `glGetProgramiv`. -/
inductive ProgramParam
  | GL_LINK_STATUS
  | GL_INFO_LOG_LENGTH
  deriving DecidableEq, Repr

/-- Component type argument of `glVertexAttribPointer`. -/
inductive AttribType
  | GL_FLOAT
  | GL_UNSIGNED_BYTE
  deriving DecidableEq, Repr

/-- Field of `VertexPosColorTex` whose `offsetof` is passed to `glVertexAttribPointer`
(the stride is always `sizeof(VertexPosColorTex)`). -/
inductive VertexField
  | x
  | abgr
  | u
  deriving DecidableEq, Repr

/-- One call on the GL context, with its arguments; calls that create an object or
look up a location also record the value the driver returned. -/
inductive GLCall
  | glCreateShader (type : ShaderType) (ret : GLuint)
  | glShaderSource (shader : GLuint) (source : String)
  | glCompileShader (shader : GLuint)
  | glGetShaderiv (shader : GLuint) (pname : ShaderParam)
  | glGetShaderInfoLog (shader : GLuint) (bufSize : GLint)
  | glDeleteShader (shader : GLuint)
  | glCreateProgram (ret : GLuint)
  | glAttachShader (program shader : GLuint)
  | glDetachShader (program shader : GLuint)
  | glLinkProgram (program : GLuint)
  | glGetProgramiv (program : GLuint) (pname : ProgramParam)
  | glGetProgramInfoLog (program : GLuint) (bufSize : GLint)
  | glDeleteProgram (program : GLuint)
  | glUseProgram (program : GLuint)
  | glGetAttribLocation (program : GLuint) (name : String) (ret : GLint)
  | glGetUniformLocation (program : GLuint) (name : String) (ret : GLint)
  | glEnableVertexAttribArray (index : GLint)
  | glVertexAttribPointer (index : GLint) (size : Nat) (type : AttribType)
      (normalized : Bool) (field : VertexField)
  | glUniform1f (location : GLint) (v0 : GLfloat)
  | glUniform2f (location : GLint) (v0 v1 : GLfloat)
  | glUniform3f (location : GLint) (v0 v1 v2 : GLfloat)
  | glUniform1i (location : GLint) (v0 : GLint)
  | glUniform2i (location : GLint) (v0 v1 : GLint)
  | glUniform3i (location : GLint) (v0 v1 v2 : GLint)
  | glUniform1fv (location : GLint) (count : Nat) (value : List GLfloat)
  | glUniform2fv (location : GLint) (count : Nat) (value : List GLfloat)
  | glUniform3fv (location : GLint) (count : Nat) (value : List GLfloat)
  | glUniform1iv (location : GLint) (count : Nat) (value : List GLint)
  | glUniform2iv (location : GLint) (count : Nat) (value : List GLint)
  | glUniform3iv (location : GLint) (count : Nat) (value : List GLint)
  | glUniformMatrix3fv (location : GLint) (count : Nat) (transpose : Bool)
      (value : List GLfloat)
  | glUniformMatrix4fv (location : GLint) (count : Nat) (transpose : Bool)
      (value : List GLfloat)
  deriving DecidableEq, Repr

/-- The answers of the GPU driver.  Each answer may depend on every call made so far
(the first argument is the trace at the moment of the query). -/
structure Driver where
  createShader : List GLCall → ShaderType → GLuint
  compileStatus : List GLCall → GLuint → Bool
  shaderInfoLogLength : List GLCall → GLuint → GLint
  createProgram : List GLCall → GLuint
  linkStatus : List GLCall → GLuint → Bool
  programInfoLogLength : List GLCall → GLuint → GLint
  attribLocation : List GLCall → GLuint → String → GLint
  uniformLocation : List GLCall → GLuint → String → GLint

/-! ## Data model -/

/-- Address of a `Shader` object (of its shared control block). -/
abbrev ShaderPtr := Nat

/-- Address of a `ShaderProgram` object. -/
abbrev ProgramPtr := Nat

/-- Modelled from the spec: `lmSptr<Shader>`, whose declaration is not among the sources,
is a reference-counted owning pointer (a program shares ownership of its two shaders);
`none` is `nullptr`. -/
abbrev lmSptr := Option ShaderPtr

/-- Modelled from the spec: `lmWptr<Shader>`, whose declaration is not among the sources,
is a non-owning weak reference with an "is the referent still alive" check; `none` is the
empty weak reference. -/
abbrev lmWptr := Option ShaderPtr

/-- The data members of `GFX::Shader` (the header is not among the sources; these are the
members `gfxShader.cpp` initialises, reads and writes). -/
structure Shader where
  id : GLuint
  type : ShaderType
  name : String
  deriving DecidableEq, Repr

/-- A `Shader` together with the number of `lmSptr`s that own it. -/
structure ShaderCell where
  obj : Shader
  useCount : Nat
  deriving DecidableEq, Repr

/-- The data members of `GFX::ShaderProgram` that `gfxShader.cpp` reads or writes
(the model-view-projection matrix is only stored and returned and is left out). -/
structure ShaderProgram where
  programId : GLuint
  vertexShader : lmSptr
  fragmentShader : lmSptr
  fragmentShaderId : GLuint
  vertexShaderId : GLuint
  posAttribLoc : GLint
  posColorLoc : GLint
  posTexCoordLoc : GLint
  textureId : GLuint
  deriving DecidableEq, Repr

/-- Severity of a log line. -/
inductive LogLevel
  | debug
  | info
  | warn
  | error
  deriving DecidableEq, Repr

/-- A line written to the `GFXShader` log group: its level and format string. -/
structure LogEntry where
  level : LogLevel
  format : String
  deriving DecidableEq, Repr

/-- Modelled from the spec: the `lmMap<lmString, lmWptr<GFX::Shader>>` behind
`Shader::liveShaders`, whose declaration is not among the sources, is a mapping from name
to weak reference; it is kept as a list of entries with `count`, `erase`, `[]` and
assignment through `[]` as on an ordered map. -/
abbrev lmMap := List (String × lmWptr)

/-- A record of one `Shader::removeShader(name)` call: the shader whose destructor made
the call, the name, and the weak reference the registry held under that name when the
call was made. -/
structure Removal where
  shader : ShaderPtr
  name : String
  entry : lmWptr
  deriving DecidableEq, Repr

/-- Everything the shader code reads or writes: the driver and the calls made on it,
the log, the asset store and its subscriptions, the shader heap, the static
`liveShaders` map, the program objects and the static `lastBoundShader`.  The last field,
`removals`, is a ghost history of the `removeShader` calls made so far: no code reads
it. -/
structure World where
  driver : Driver
  gl : List GLCall
  log : List LogEntry
  assets : String → Option String
  subscriptions : List (String × ShaderPtr)
  shaders : ShaderPtr → Option ShaderCell
  nextShader : ShaderPtr
  liveShaders : lmMap
  programs : ProgramPtr → Option ShaderProgram
  lastBoundShader : Option ProgramPtr
  removals : List Removal := []

/-- Why a run stopped. -/
inductive Fault
  | assertion (message : String)
  | nullDereference
  | invalidPointer
  deriving DecidableEq, Repr

/-- Result of running an operation: it returned `value` in state `w`, or it stopped
with a fault in state `w` (the state at the point of failure). -/
inductive Outcome (α : Type)
  | ok (value : α) (w : World)
  | fatal (fault : Fault) (w : World)

/-- Sequencing: run `k` on the result of a run that returned. -/
def Outcome.andThen {α β : Type} (r : Outcome α) (k : α → World → Outcome β) : Outcome β :=
  match r with
  | .ok a w => k a w
  | .fatal f w => .fatal f w

/-- The state an outcome ends in. -/
def Outcome.world {α : Type} : Outcome α → World
  | .ok _ w => w
  | .fatal _ w => w

/-- Whether the run returned. -/
def Outcome.returned {α : Type} : Outcome α → Bool
  | .ok _ _ => true
  | .fatal _ _ => false

/-- Modelled from the spec: the `lmAssert(condition, message, ...)` macro, whose
definition is not among the sources.  A violated precondition is an assertion that
terminates execution; a condition that holds lets the run go on. -/
def lmAssert {α : Type} (condition : Bool) (message : String) (w : World)
    (k : World → Outcome α) : Outcome α :=
  if condition then k w else .fatal (.assertion message) w

/-- Modelled from the spec: the `GFX_DEBUG_BREAK` macro, whose definition is not among
the sources.  A failed validation logs the driver diagnostics and signals failure; the
macro is a hook for an attached debugger and leaves the state as it is. -/
def GFX_DEBUG_BREAK (w : World) : World := w

/-- Modelled from the spec: `_onBindDelegate.invoke()`, the post-bind extension hook,
whose delegate type is not among the sources.  Specialised programs use it to push their
own uniforms; on a plain `ShaderProgram` no delegate is registered and the hook does
nothing. -/
def onBindDelegateInvoke (w : World) : World := w

/-! ## Primitive effects -/

/-- Issue one call on the GL context. -/
def glCall (c : GLCall) (w : World) : World :=
  { w with gl := w.gl ++ [c] }

/-- Write one line to the log group (`lmLog`, `lmLogInfo`, `lmLogWarn`, `lmLogError`). -/
def lmLog (level : LogLevel) (format : String) (w : World) : World :=
  { w with log := w.log ++ [⟨level, format⟩] }

/-- Record `loom_asset_subscribe(name, &Shader::reloadCallback, this, false)`. -/
def loom_asset_subscribe (name : String) (this : ShaderPtr) (w : World) : World :=
  { w with subscriptions := w.subscriptions ++ [(name, this)] }

/-- Record `loom_asset_unsubscribe(name, &Shader::reloadCallback, this)`. -/
def loom_asset_unsubscribe (name : String) (this : ShaderPtr) (w : World) : World :=
  { w with subscriptions := w.subscriptions.filter (fun e => e != (name, this)) }

/-- Overwrite the `id` member of the shader at `this`. -/
def setShaderId (this : ShaderPtr) (id : GLuint) (w : World) : World :=
  match w.shaders this with
  | none => w
  | some c =>
    { w with shaders := Function.update w.shaders this (some { c with obj := { c.obj with id := id } }) }

/-- Overwrite the program object at `this`. -/
def setProgram (this : ProgramPtr) (p : ShaderProgram) (w : World) : World :=
  { w with programs := Function.update w.programs this (some p) }

/-- The object an `lmSptr` points to, if it is not null. -/
def deref (sp : lmSptr) (w : World) : Option Shader :=
  match sp with
  | none => none
  | some p => (w.shaders p).map (fun c => c.obj)

/-- Whether a weak reference is expired (`lmWptr::expired`): it is empty or its
referent has been destroyed. -/
def expired (weak : lmWptr) (w : World) : Bool :=
  match weak with
  | none => true
  | some p => (w.shaders p).isNone

/-! ## `lmMap` -/

/-- `m.count(k)`: 1 if the key is present, else 0. -/
def lmMap.count (m : lmMap) (k : String) : Nat :=
  if m.any (fun e => e.1 == k) then 1 else 0

/-- `m.erase(k)`. -/
def lmMap.erase (m : lmMap) (k : String) : lmMap :=
  m.filter (fun e => e.1 != k)

/-- The value read by `m[k]` (an empty weak reference if the key is missing). -/
def lmMap.index (m : lmMap) (k : String) : lmWptr :=
  (m.lookup k).getD none

/-- The map after `m[k] = v`. -/
def lmMap.assign (m : lmMap) (k : String) (v : lmWptr) : lmMap :=
  (k, v) :: lmMap.erase m k

/-! ## Shader registry (`Shader::liveShaders`) -/

/-- `Shader::addShader(name, sp)`.  The by-value `sp` is a copy that is dropped again on
return, so the use count of the shader is the same before and after. -/
def Shader.addShader (name : String) (sp : lmSptr) (w : World) : Outcome Unit :=
  lmAssert (lmMap.count w.liveShaders name == 0) "Shader %s already present in shader list" w
    fun w => .ok () { w with liveShaders := lmMap.assign w.liveShaders name sp }

/-- One more owner of the shader (`weak.lock()`, copying an `lmSptr`). -/
def retain (sp : lmSptr) (w : World) : World :=
  match sp with
  | none => w
  | some p =>
    match w.shaders p with
    | none => w
    | some c =>
      { w with shaders := Function.update w.shaders p (some { c with useCount := c.useCount + 1 }) }

/-- `Shader::getShader(name)`: the returned `lmSptr` is one more owner of the shader. -/
def Shader.getShader (name : String) (w : World) : lmSptr × World :=
  if lmMap.count w.liveShaders name != 0 then
    let weak := lmMap.index w.liveShaders name
    if expired weak w then
      (none, { w with liveShaders := lmMap.erase w.liveShaders name })
    else
      (weak, retain weak w)
  else
    (none, w)

/-- `Shader::removeShader(name)`. -/
def Shader.removeShader (name : String) (w : World) : World :=
  if lmMap.count w.liveShaders name != 0 then
    { w with liveShaders := lmMap.erase w.liveShaders name }
  else
    w

/-! ## Shader -/

/-- `Shader::getSourceFromAsset()`: `loom_asset_lock(name, LATText, 1)` followed by
`loom_asset_unlock(name)`, or a warning and `nullptr` when the lock returns null.  The
asset store is the collaborator `lock(name, kind) -> text|absent` of the spec, read from
`World.assets`. -/
def Shader.getSourceFromAsset (s : Shader) (w : World) : Option String × World :=
  match w.assets s.name with
  | none => (none, lmLog .warn "Unable to lock the asset for shader %s" w)
  | some source => (some source, w)

/-- `Shader::validate()`. -/
def Shader.validate (s : Shader) (w : World) : Bool × World :=
  let status := w.driver.compileStatus w.gl s.id
  let w1 := glCall (.glGetShaderiv s.id .GL_COMPILE_STATUS) w
  let infoLen := w1.driver.shaderInfoLogLength w1.gl s.id
  let w2 := glCall (.glGetShaderiv s.id .GL_INFO_LOG_LENGTH) w1
  let w3 := if infoLen > 1 then glCall (.glGetShaderInfoLog s.id infoLen) w2 else w2
  if status then
    if infoLen > 1 then
      (true, lmLog .info "OpenGL shader %s info: %s" w3)
    else
      (true, lmLog .info "OpenGL shader %s compilation successful" w3)
  else
    if infoLen > 1 then
      (false, GFX_DEBUG_BREAK (lmLog .error "OpenGL shader %s error: %s" w3))
    else
      (false, GFX_DEBUG_BREAK
        (lmLog .error "OpenGL shader %s error: No additional information provided." w3))

/-- `Shader::load(source)`.  `source` is `none` for a null pointer, on which `strlen`
faults. -/
def Shader.load (this : ShaderPtr) (source : Option String) (w : World) : Outcome Bool :=
  match w.shaders this with
  | none => .fatal .invalidPointer w
  | some c =>
    lmAssert (c.obj.id == 0) "Shader already loaded, clean up first" w fun w =>
      let id := w.driver.createShader w.gl c.obj.type
      let w1 := setShaderId this id (glCall (.glCreateShader c.obj.type id) w)
      match source with
      | none => .fatal .nullDereference w1
      | some text =>
        let w2 := glCall (.glCompileShader id) (glCall (.glShaderSource id text) w1)
        match Shader.validate { c.obj with id := id } w2 with
        | (false, w3) => .ok false (setShaderId this 0 (glCall (.glDeleteShader id) w3))
        | (true, w3) => .ok true w3

/-- `lmMakeSptr<Shader>(name, type)`: a new shader object with one owner, on which the
constructor `Shader::Shader(name, type)` has run. -/
def Shader.make (name : String) (type : ShaderType) (w : World) : Outcome ShaderPtr :=
  let this := w.nextShader
  let w0 := { w with
    nextShader := this + 1
    shaders := Function.update w.shaders this
      (some { obj := { id := 0, type := type, name := name }, useCount := 1 }) }
  let w1 := lmLog .debug "Creating shader %s" w0
  if name.length > 0 then
    let (source, w2) := Shader.getSourceFromAsset { id := 0, type := type, name := name } w1
    let w3 := loom_asset_subscribe name this w2
    (Shader.load this source w3).andThen (fun _ w4 => .ok this w4)
  else
    .ok this w1

/-- Ghost step: note in `removals` that the destructor of the shader at `this` is about to
call `removeShader(name)`, and what the registry holds under `name` at that point. -/
def noteRemoval (this : ShaderPtr) (name : String) (w : World) : World :=
  { w with removals := w.removals ++ [⟨this, name, lmMap.index w.liveShaders name⟩] }

/-- The destructor `Shader::~Shader()` on the object at `this`, after which the object
is gone. -/
def Shader.destroy (this : ShaderPtr) (s : Shader) (w : World) : World :=
  let w1 := lmLog .debug "Deleting shader %s" w
  let w2 := if s.id != 0 then glCall (.glDeleteShader s.id) w1 else w1
  let w3 :=
    if s.name.length > 0 then
      Shader.removeShader s.name (noteRemoval this s.name (loom_asset_unsubscribe s.name this w2))
    else
      w2
  { w3 with shaders := Function.update w3.shaders this none }

/-- One owner of the shader lets go (an `lmSptr` is destroyed or overwritten); the last
one runs the destructor. -/
def release (sp : lmSptr) (w : World) : World :=
  match sp with
  | none => w
  | some p =>
    match w.shaders p with
    | none => w
    | some c =>
      if c.useCount ≤ 1 then
        Shader.destroy p c.obj w
      else
        { w with shaders := Function.update w.shaders p (some { c with useCount := c.useCount - 1 }) }

/-- `Shader::reload()` (the body of `Shader::reloadCallback`). -/
def Shader.reload (this : ShaderPtr) (w : World) : Outcome Unit :=
  match w.shaders this with
  | none => .fatal .invalidPointer w
  | some c =>
    let w1 := setShaderId this 0 (glCall (.glDeleteShader c.obj.id) w)
    let (source, w2) := Shader.getSourceFromAsset c.obj w1
    (Shader.load this source w2).andThen (fun _ w3 => .ok () w3)

/-! ## ShaderProgram -/

/-- The constructor `ShaderProgram::ShaderProgram()`: `programId(0)` and two null
`lmSptr`s; the members it does not mention hold whatever `uninit` holds. -/
def ShaderProgram.construct (this : ProgramPtr) (uninit : ShaderProgram) (w : World) : World :=
  setProgram this { uninit with programId := 0, vertexShader := none, fragmentShader := none } w

/-- `ShaderProgram::operator==`. -/
def ShaderProgram.operatorEq (a other : ShaderProgram) : Bool :=
  a.programId == other.programId

/-- `ShaderProgram::operator!=`. -/
def ShaderProgram.operatorNe (a other : ShaderProgram) : Bool :=
  a.programId != other.programId

/-- `ShaderProgram::getProgramId()`. -/
def ShaderProgram.getProgramId (p : ShaderProgram) : GLuint :=
  p.programId

/-- `ShaderProgram::validate()`.  The shader names are read only to fill in the log
line. -/
def ShaderProgram.validate (p : ShaderProgram) (w : World) : Bool × World :=
  let status := w.driver.linkStatus w.gl p.programId
  let w1 := glCall (.glGetProgramiv p.programId .GL_LINK_STATUS) w
  let infoLen := w1.driver.programInfoLogLength w1.gl p.programId
  let w2 := glCall (.glGetProgramiv p.programId .GL_INFO_LOG_LENGTH) w1
  let w3 := if infoLen > 1 then glCall (.glGetProgramInfoLog p.programId infoLen) w2 else w2
  if status then
    if infoLen > 1 then
      (true, lmLog .info "OpenGL program name %s & %s info: %s" w3)
    else
      (true, lmLog .info "OpenGL program name %s & %s linking successful" w3)
  else
    if infoLen > 1 then
      (false, GFX_DEBUG_BREAK (lmLog .error "OpenGL program name %s & %s error: %s" w3))
    else
      (false, GFX_DEBUG_BREAK (lmLog .error
        "OpenGL program name %s & %s error: No additional information provided." w3))

/-- `ShaderProgram::link()`. -/
def ShaderProgram.link (this : ProgramPtr) (w : World) : Outcome Unit :=
  match w.programs this with
  | none => .fatal .invalidPointer w
  | some p =>
    lmAssert (p.programId == 0) "Shader program already linked, clean up first!" w fun w =>
      let programId := w.driver.createProgram w.gl
      let w1 := setProgram this { p with programId := programId } (glCall (.glCreateProgram programId) w)
      match deref p.fragmentShader w1 with
      | none => .fatal .nullDereference w1
      | some fs =>
        let w2 := glCall (.glAttachShader programId fs.id) w1
        match deref p.vertexShader w2 with
        | none => .fatal .nullDereference w2
        | some vs =>
          let w3 := glCall (.glLinkProgram programId) (glCall (.glAttachShader programId vs.id) w2)
          match ShaderProgram.validate { p with programId := programId } w3 with
          | (false, w4) =>
            .ok () (setProgram this { p with programId := 0 } (glCall (.glDeleteProgram programId) w4))
          | (true, w4) =>
            let posAttribLoc := w4.driver.attribLocation w4.gl programId "a_position"
            let w5 := glCall (.glGetAttribLocation programId "a_position" posAttribLoc) w4
            let posColorLoc := w5.driver.attribLocation w5.gl programId "a_color0"
            let w6 := glCall (.glGetAttribLocation programId "a_color0" posColorLoc) w5
            let posTexCoordLoc := w6.driver.attribLocation w6.gl programId "a_texcoord0"
            let w7 := glCall (.glGetAttribLocation programId "a_texcoord0" posTexCoordLoc) w6
            .ok () (setProgram this
              { p with
                programId := programId
                fragmentShaderId := fs.id
                vertexShaderId := vs.id
                posAttribLoc := posAttribLoc
                posColorLoc := posColorLoc
                posTexCoordLoc := posTexCoordLoc } w7)

/-- The `lmSptr` member of a program that holds its shader of kind `slot`:
`vertexShader` for `GL_VERTEX_SHADER`, `fragmentShader` for `GL_FRAGMENT_SHADER`. -/
def ShaderProgram.member (slot : ShaderType) (p : ShaderProgram) : lmSptr :=
  match slot with
  | .GL_VERTEX_SHADER => p.vertexShader
  | .GL_FRAGMENT_SHADER => p.fragmentShader

/-- The program with its `vertexShader` or `fragmentShader` member overwritten. -/
def ShaderProgram.setMember (slot : ShaderType) (sp : lmSptr) (p : ShaderProgram) :
    ShaderProgram :=
  match slot with
  | .GL_VERTEX_SHADER => { p with vertexShader := sp }
  | .GL_FRAGMENT_SHADER => { p with fragmentShader := sp }

/-- The assignments `vertexShader = sp` and `fragmentShader = sp`: the new pointer is
stored, then the owner share of the old one is given up. -/
def ShaderProgram.assignShader (this : ProgramPtr) (slot : ShaderType) (sp : lmSptr)
    (w : World) : Outcome Unit :=
  match w.programs this with
  | none => .fatal .invalidPointer w
  | some p =>
    .ok () (release (ShaderProgram.member slot p)
      (setProgram this (ShaderProgram.setMember slot sp p) w))

/-- `ShaderProgram::load(vss, fss)`; the results of the two `Shader::load` calls are
dropped. -/
def ShaderProgram.load (this : ProgramPtr) (vss fss : Option String) (w : World) : Outcome Unit :=
  (Shader.make "" .GL_VERTEX_SHADER w).andThen fun vs w1 =>
  (ShaderProgram.assignShader this .GL_VERTEX_SHADER (some vs) w1).andThen fun _ w2 =>
  (Shader.load vs vss w2).andThen fun _ w3 =>
  (Shader.make "" .GL_FRAGMENT_SHADER w3).andThen fun fs w4 =>
  (ShaderProgram.assignShader this .GL_FRAGMENT_SHADER (some fs) w4).andThen fun _ w5 =>
  (Shader.load fs fss w5).andThen fun _ w6 =>
  ShaderProgram.link this w6

/-- One half of `loadFromAssets`, which runs the same five lines once for the vertex
shader (`slot = GL_VERTEX_SHADER`, member `vertexShader`) and once for the fragment
shader: look the path up in the registry and store the result in the member; if that is
null, construct a new shader of kind `slot`, store it and register it. -/
def ShaderProgram.resolveShader (this : ProgramPtr) (slot : ShaderType) (path : String)
    (w : World) : Outcome Unit :=
  let (found, w1) := Shader.getShader path w
  (ShaderProgram.assignShader this slot found w1).andThen fun _ w2 =>
  if found.isNone then
    (Shader.make path slot w2).andThen fun s w3 =>
    (ShaderProgram.assignShader this slot (some s) w3).andThen fun _ w4 =>
    Shader.addShader path (some s) w4
  else
    .ok () w2

/-- `ShaderProgram::loadFromAssets(vertexShaderPath, fragmentShaderPath)`. -/
def ShaderProgram.loadFromAssets (this : ProgramPtr) (vertexShaderPath fragmentShaderPath : String)
    (w : World) : Outcome Unit :=
  (ShaderProgram.resolveShader this .GL_VERTEX_SHADER vertexShaderPath w).andThen fun _ w1 =>
  (ShaderProgram.resolveShader this .GL_FRAGMENT_SHADER fragmentShaderPath w1).andThen fun _ w2 =>
  ShaderProgram.link this w2

/-- The part of `bind()` after the staleness check: `glUseProgram`, the vertex attribute
arrays whose cached location is not -1, and the post-bind hook. -/
def ShaderProgram.activate (p : ShaderProgram) (w : World) : World :=
  let w1 := glCall (.glUseProgram p.programId) w
  let w2 :=
    if p.posAttribLoc != -1 then
      glCall (.glVertexAttribPointer p.posAttribLoc 3 .GL_FLOAT false .x)
        (glCall (.glEnableVertexAttribArray p.posAttribLoc) w1)
    else w1
  let w3 :=
    if p.posColorLoc != -1 then
      glCall (.glVertexAttribPointer p.posColorLoc 4 .GL_UNSIGNED_BYTE true .abgr)
        (glCall (.glEnableVertexAttribArray p.posColorLoc) w2)
    else w2
  let w4 :=
    if p.posTexCoordLoc != -1 then
      glCall (.glVertexAttribPointer p.posTexCoordLoc 2 .GL_FLOAT false .u)
        (glCall (.glEnableVertexAttribArray p.posTexCoordLoc) w3)
    else w3
  onBindDelegateInvoke w4

/-- The condition `fragmentShaderId != fragmentShader->getId() ||
vertexShaderId != vertexShader->getId()` of `bind()`, evaluated left to right with
short-circuit; `none` when a null `lmSptr` is dereferenced. -/
def ShaderProgram.stale (p : ShaderProgram) (w : World) : Option Bool :=
  match deref p.fragmentShader w with
  | none => none
  | some fs =>
    if p.fragmentShaderId != fs.id then some true
    else
      match deref p.vertexShader w with
      | none => none
      | some vs => some (p.vertexShaderId != vs.id)

/-- `ShaderProgram::bind()`. -/
def ShaderProgram.bind (this : ProgramPtr) (w : World) : Outcome Unit :=
  match w.programs this with
  | none => .fatal .invalidPointer w
  | some p =>
    let w1 := if p.programId == 0 then lmLog .error "Binding an uninitalized shader!" w else w
    let w2 := { w1 with lastBoundShader := some this }
    match ShaderProgram.stale p w2 with
    | none => .fatal .nullDereference w2
    | some true =>
      let w3 := glCall (.glDeleteProgram p.programId)
        (glCall (.glDetachShader p.programId p.vertexShaderId)
          (glCall (.glDetachShader p.programId p.fragmentShaderId) w2))
      (ShaderProgram.link this (setProgram this { p with programId := 0 } w3)).andThen fun _ w4 =>
      match w4.programs this with
      | none => .fatal .invalidPointer w4
      | some q => .ok () (ShaderProgram.activate q w4)
    | some false => .ok () (ShaderProgram.activate p w2)

/-! ## Uniform setters -/

/-- The message of the `lmAssert(this == lastBoundShader, ...)` that opens a setter. -/
def notBound : String :=
  "You are setting a uniform for a shader that is not currently bound!"

/-- A `Loom2D::Matrix`, given by the floats its `copyToMatrix3f` (9 of them) and
`copyToMatrix4f` (16 of them) write. -/
structure Matrix where
  copyToMatrix3f : List GLfloat
  copyToMatrix4f : List GLfloat
  deriving DecidableEq, Repr

/-- `ShaderProgram::getUniformLocation(name)`. -/
def ShaderProgram.getUniformLocation (p : ShaderProgram) (name : String) (w : World) :
    GLint × World :=
  let loc := w.driver.uniformLocation w.gl p.programId name
  (loc, glCall (.glGetUniformLocation p.programId name loc) w)

/-- `ShaderProgram::setUniform1f`. -/
def ShaderProgram.setUniform1f (this : ProgramPtr) (location : GLint) (v0 : GLfloat) (w : World) :
    Outcome Unit :=
  lmAssert (some this == w.lastBoundShader) notBound w fun w =>
  .ok () (glCall (.glUniform1f location v0) w)

/-- `ShaderProgram::setUniform1fv`; `values` are the elements of the script vector after
conversion, in order.  The function makes no check against `lastBoundShader`. -/
def ShaderProgram.setUniform1fv (_this : ProgramPtr) (location : GLint) (values : List GLfloat)
    (w : World) : Outcome Unit :=
  .ok () (glCall (.glUniform1fv location values.length values) w)

/-- `ShaderProgram::setUniform2f`. -/
def ShaderProgram.setUniform2f (this : ProgramPtr) (location : GLint) (v0 : GLfloat) (v1 : GLfloat) (w : World) :
    Outcome Unit :=
  lmAssert (some this == w.lastBoundShader) notBound w fun w =>
  .ok () (glCall (.glUniform2f location v0 v1) w)

/-- `ShaderProgram::setUniform2fv`; `values` are the elements of the script vector after
conversion, in order. -/
def ShaderProgram.setUniform2fv (this : ProgramPtr) (location : GLint) (values : List GLfloat)
    (w : World) : Outcome Unit :=
  lmAssert (some this == w.lastBoundShader) notBound w fun w =>
  lmAssert (values.length % 2 == 0) "values size must be a multiple of 2" w fun w =>
  lmAssert (values.length % 2 == 0) "values size must be a multiple of 2" w fun w =>
  .ok () (glCall (.glUniform2fv location values.length values) w)

/-- `ShaderProgram::setUniform3f`. -/
def ShaderProgram.setUniform3f (this : ProgramPtr) (location : GLint) (v0 : GLfloat) (v1 : GLfloat) (v2 : GLfloat) (w : World) :
    Outcome Unit :=
  lmAssert (some this == w.lastBoundShader) notBound w fun w =>
  .ok () (glCall (.glUniform3f location v0 v1 v2) w)

/-- `ShaderProgram::setUniform3fv`; `values` are the elements of the script vector after
conversion, in order. -/
def ShaderProgram.setUniform3fv (this : ProgramPtr) (location : GLint) (values : List GLfloat)
    (w : World) : Outcome Unit :=
  lmAssert (some this == w.lastBoundShader) notBound w fun w =>
  lmAssert (values.length % 3 == 0) "values size must be a multiple of 3" w fun w =>
  .ok () (glCall (.glUniform3fv location values.length values) w)

/-- `ShaderProgram::setUniform1i`. -/
def ShaderProgram.setUniform1i (this : ProgramPtr) (location : GLint) (v0 : GLint) (w : World) :
    Outcome Unit :=
  lmAssert (some this == w.lastBoundShader) notBound w fun w =>
  .ok () (glCall (.glUniform1i location v0) w)

/-- `ShaderProgram::setUniform1iv`; `values` are the elements of the script vector after
conversion, in order.  The function makes no check against `lastBoundShader`. -/
def ShaderProgram.setUniform1iv (_this : ProgramPtr) (location : GLint) (values : List GLint)
    (w : World) : Outcome Unit :=
  .ok () (glCall (.glUniform1iv location values.length values) w)

/-- `ShaderProgram::setUniform2i`. -/
def ShaderProgram.setUniform2i (this : ProgramPtr) (location : GLint) (v0 : GLint) (v1 : GLint) (w : World) :
    Outcome Unit :=
  lmAssert (some this == w.lastBoundShader) notBound w fun w =>
  .ok () (glCall (.glUniform2i location v0 v1) w)

/-- `ShaderProgram::setUniform2iv`; `values` are the elements of the script vector after
conversion, in order. -/
def ShaderProgram.setUniform2iv (this : ProgramPtr) (location : GLint) (values : List GLint)
    (w : World) : Outcome Unit :=
  lmAssert (some this == w.lastBoundShader) notBound w fun w =>
  lmAssert (values.length % 2 == 0) "values size must be a multiple of 2" w fun w =>
  .ok () (glCall (.glUniform2iv location values.length values) w)

/-- `ShaderProgram::setUniform3i`. -/
def ShaderProgram.setUniform3i (this : ProgramPtr) (location : GLint) (v0 : GLint) (v1 : GLint) (v2 : GLint) (w : World) :
    Outcome Unit :=
  lmAssert (some this == w.lastBoundShader) notBound w fun w =>
  .ok () (glCall (.glUniform3i location v0 v1 v2) w)

/-- `ShaderProgram::setUniform3iv`; `values` are the elements of the script vector after
conversion, in order. -/
def ShaderProgram.setUniform3iv (this : ProgramPtr) (location : GLint) (values : List GLint)
    (w : World) : Outcome Unit :=
  lmAssert (some this == w.lastBoundShader) notBound w fun w =>
  lmAssert (values.length % 3 == 0) "values size must be a multiple of 3" w fun w =>
  .ok () (glCall (.glUniform3iv location values.length values) w)

/-- `ShaderProgram::setUniformMatrix3f`. -/
def ShaderProgram.setUniformMatrix3f (this : ProgramPtr) (location : GLint) (transpose : Bool)
    (value : Matrix) (w : World) : Outcome Unit :=
  lmAssert (some this == w.lastBoundShader) notBound w fun w =>
  .ok () (glCall (.glUniformMatrix3fv location 1 transpose value.copyToMatrix3f) w)

/-- `ShaderProgram::setUniformMatrix3fv`; `mats` are the matrices of the script vector,
in order, each written into its own run of 9 floats. -/
def ShaderProgram.setUniformMatrix3fv (this : ProgramPtr) (location : GLint) (transpose : Bool)
    (mats : List Matrix) (w : World) : Outcome Unit :=
  lmAssert (some this == w.lastBoundShader) notBound w fun w =>
    .ok () (glCall (.glUniformMatrix3fv location mats.length transpose
      (mats.map (fun m => m.copyToMatrix3f)).flatten) w)

/-- `ShaderProgram::setUniformMatrix4f`. -/
def ShaderProgram.setUniformMatrix4f (this : ProgramPtr) (location : GLint) (transpose : Bool)
    (value : Matrix) (w : World) : Outcome Unit :=
  lmAssert (some this == w.lastBoundShader) notBound w fun w =>
  .ok () (glCall (.glUniformMatrix4fv location 1 transpose value.copyToMatrix4f) w)

/-- `ShaderProgram::setUniformMatrix4fv`; `mats` are the matrices of the script vector,
in order, each written into its own run of 16 floats. -/
def ShaderProgram.setUniformMatrix4fv (this : ProgramPtr) (location : GLint) (transpose : Bool)
    (mats : List Matrix) (w : World) : Outcome Unit :=
  lmAssert (some this == w.lastBoundShader) notBound w fun w =>
    .ok () (glCall (.glUniformMatrix4fv location mats.length transpose
      (mats.map (fun m => m.copyToMatrix4f)).flatten) w)

/-- A call of one of the sixteen uniform setters, with its arguments. -/
inductive UniformCall
  | setUniform1f (location : GLint) (v0 : GLfloat)
  | setUniform1fv (location : GLint) (values : List GLfloat)
  | setUniform2f (location : GLint) (v0 v1 : GLfloat)
  | setUniform2fv (location : GLint) (values : List GLfloat)
  | setUniform3f (location : GLint) (v0 v1 v2 : GLfloat)
  | setUniform3fv (location : GLint) (values : List GLfloat)
  | setUniform1i (location : GLint) (v0 : GLint)
  | setUniform1iv (location : GLint) (values : List GLint)
  | setUniform2i (location : GLint) (v0 v1 : GLint)
  | setUniform2iv (location : GLint) (values : List GLint)
  | setUniform3i (location : GLint) (v0 v1 v2 : GLint)
  | setUniform3iv (location : GLint) (values : List GLint)
  | setUniformMatrix3f (location : GLint) (transpose : Bool) (value : Matrix)
  | setUniformMatrix3fv (location : GLint) (transpose : Bool) (mats : List Matrix)
  | setUniformMatrix4f (location : GLint) (transpose : Bool) (value : Matrix)
  | setUniformMatrix4fv (location : GLint) (transpose : Bool) (mats : List Matrix)
  deriving DecidableEq, Repr

/-- Run the setter a `UniformCall` names on the program at `this`. -/
def UniformCall.run (this : ProgramPtr) (c : UniformCall) (w : World) : Outcome Unit :=
  match c with
  | .setUniform1f l v0 => ShaderProgram.setUniform1f this l v0 w
  | .setUniform1fv l vs => ShaderProgram.setUniform1fv this l vs w
  | .setUniform2f l v0 v1 => ShaderProgram.setUniform2f this l v0 v1 w
  | .setUniform2fv l vs => ShaderProgram.setUniform2fv this l vs w
  | .setUniform3f l v0 v1 v2 => ShaderProgram.setUniform3f this l v0 v1 v2 w
  | .setUniform3fv l vs => ShaderProgram.setUniform3fv this l vs w
  | .setUniform1i l v0 => ShaderProgram.setUniform1i this l v0 w
  | .setUniform1iv l vs => ShaderProgram.setUniform1iv this l vs w
  | .setUniform2i l v0 v1 => ShaderProgram.setUniform2i this l v0 v1 w
  | .setUniform2iv l vs => ShaderProgram.setUniform2iv this l vs w
  | .setUniform3i l v0 v1 v2 => ShaderProgram.setUniform3i this l v0 v1 v2 w
  | .setUniform3iv l vs => ShaderProgram.setUniform3iv this l vs w
  | .setUniformMatrix3f l t m => ShaderProgram.setUniformMatrix3f this l t m w
  | .setUniformMatrix3fv l t ms => ShaderProgram.setUniformMatrix3fv this l t ms w
  | .setUniformMatrix4f l t m => ShaderProgram.setUniformMatrix4f this l t m w
  | .setUniformMatrix4fv l t ms => ShaderProgram.setUniformMatrix4fv this l t ms w

/-! ## Trace vocabulary and state relations used in the statements -/

/-- Calls that only ask the driver about a program object. -/
def GLCall.isProgramQuery : GLCall → Bool
  | .glGetProgramiv _ _ => true
  | .glGetProgramInfoLog _ _ => true
  | _ => false

/-- Calls that only ask the driver about a shader object. -/
def GLCall.isShaderQuery : GLCall → Bool
  | .glGetShaderiv _ _ => true
  | .glGetShaderInfoLog _ _ => true
  | _ => false

/-- The queries `ShaderProgram::validate()` sends to the driver when the trace so far is
`tr` and the program object is `programId`. -/
def ShaderProgram.validateQueries (d : Driver) (tr : List GLCall) (programId : GLuint) :
    List GLCall :=
  [.glGetProgramiv programId .GL_LINK_STATUS, .glGetProgramiv programId .GL_INFO_LOG_LENGTH] ++
    if d.programInfoLogLength (tr ++ [.glGetProgramiv programId .GL_LINK_STATUS]) programId > 1 then
      [.glGetProgramInfoLog programId
        (d.programInfoLogLength (tr ++ [.glGetProgramiv programId .GL_LINK_STATUS]) programId)]
    else []

/-- The queries `Shader::validate()` sends to the driver when the trace so far is `tr`
and the shader object is `id`. -/
def Shader.validateQueries (d : Driver) (tr : List GLCall) (id : GLuint) : List GLCall :=
  [.glGetShaderiv id .GL_COMPILE_STATUS, .glGetShaderiv id .GL_INFO_LOG_LENGTH] ++
    if d.shaderInfoLogLength (tr ++ [.glGetShaderiv id .GL_COMPILE_STATUS]) id > 1 then
      [.glGetShaderInfoLog id
        (d.shaderInfoLogLength (tr ++ [.glGetShaderiv id .GL_COMPILE_STATUS]) id)]
    else []

/-- The calls `link()` makes up to and including `glLinkProgram`, when the driver named
the new program object `h`. -/
def ShaderProgram.linkCalls (h : GLuint) (fs vs : Shader) : List GLCall :=
  [.glCreateProgram h, .glAttachShader h fs.id, .glAttachShader h vs.id, .glLinkProgram h]

/-- The state `w2` differs from `w` at most in the GL trace, the log and the program
objects. -/
def World.frame (w w2 : World) : Prop :=
  w2.driver = w.driver ∧ w2.shaders = w.shaders ∧ w2.liveShaders = w.liveShaders ∧
  w2.lastBoundShader = w.lastBoundShader ∧ w2.nextShader = w.nextShader ∧
  w2.assets = w.assets ∧ w2.subscriptions = w.subscriptions

/-- The trace when `ShaderProgram::validate()` has returned inside `link()`: the trace
`tr` before the call, the calls up to `glLinkProgram` and the status queries. -/
def ShaderProgram.linkTrace (d : Driver) (tr : List GLCall) (fs vs : Shader) : List GLCall :=
  tr ++ ShaderProgram.linkCalls (d.createProgram tr) fs vs ++
    ShaderProgram.validateQueries d (tr ++ ShaderProgram.linkCalls (d.createProgram tr) fs vs)
      (d.createProgram tr)

/-- The answer of the driver to `glGetAttribLocation(h, "a_position")` after trace `tr`. -/
def ShaderProgram.answerPosition (d : Driver) (tr : List GLCall) (h : GLuint) : GLint :=
  d.attribLocation tr h "a_position"

/-- The answer to the `glGetAttribLocation(h, "a_color0")` that follows. -/
def ShaderProgram.answerColor (d : Driver) (tr : List GLCall) (h : GLuint) : GLint :=
  d.attribLocation
    (tr ++ [.glGetAttribLocation h "a_position" (ShaderProgram.answerPosition d tr h)]) h "a_color0"

/-- The answer to the `glGetAttribLocation(h, "a_texcoord0")` that follows. -/
def ShaderProgram.answerTexCoord (d : Driver) (tr : List GLCall) (h : GLuint) : GLint :=
  d.attribLocation
    (tr ++ [.glGetAttribLocation h "a_position" (ShaderProgram.answerPosition d tr h),
            .glGetAttribLocation h "a_color0" (ShaderProgram.answerColor d tr h)]) h "a_texcoord0"

/-- The three attribute-location lookups of a successful `link()`, with their answers. -/
def ShaderProgram.attribCalls (d : Driver) (tr : List GLCall) (h : GLuint) : List GLCall :=
  [.glGetAttribLocation h "a_position" (ShaderProgram.answerPosition d tr h),
   .glGetAttribLocation h "a_color0" (ShaderProgram.answerColor d tr h),
   .glGetAttribLocation h "a_texcoord0" (ShaderProgram.answerTexCoord d tr h)]

/-- The shader object a call creates, if it is a `glCreateShader`. -/
def GLCall.createdShader : GLCall → Option GLuint
  | .glCreateShader _ ret => some ret
  | _ => none

/-- The shader object a call deletes, if it is a `glDeleteShader`. -/
def GLCall.deletedShader : GLCall → Option GLuint
  | .glDeleteShader shader => some shader
  | _ => none

/-- The program object a call creates, if it is a `glCreateProgram`. -/
def GLCall.createdProgram : GLCall → Option GLuint
  | .glCreateProgram ret => some ret
  | _ => none

/-- The program object a call deletes, if it is a `glDeleteProgram`. -/
def GLCall.deletedProgram : GLCall → Option GLuint
  | .glDeleteProgram program => some program
  | _ => none

/-- The calls `Shader::load` makes up to and including `glCompileShader`, when the driver
named the new shader object `h`. -/
def Shader.loadCalls (type : ShaderType) (h : GLuint) (text : String) : List GLCall :=
  [.glCreateShader type h, .glShaderSource h text, .glCompileShader h]

/-- The trace when `Shader::validate()` has returned inside `load`. -/
def Shader.loadTrace (d : Driver) (tr : List GLCall) (type : ShaderType) (text : String) :
    List GLCall :=
  tr ++ Shader.loadCalls type (d.createShader tr type) text ++
    Shader.validateQueries d (tr ++ Shader.loadCalls type (d.createShader tr type) text)
      (d.createShader tr type)

/-- The compile status the driver reports to `validate()` inside `load`. -/
def Shader.loadStatus (d : Driver) (tr : List GLCall) (type : ShaderType) (text : String) :
    Bool :=
  d.compileStatus (tr ++ Shader.loadCalls type (d.createShader tr type) text)
    (d.createShader tr type)

/-- The state `w2` differs from `w` at most in the GL trace, the log and the shader
objects. -/
def World.frameShaders (w w2 : World) : Prop :=
  w2.driver = w.driver ∧ w2.programs = w.programs ∧ w2.liveShaders = w.liveShaders ∧
  w2.lastBoundShader = w.lastBoundShader ∧ w2.nextShader = w.nextShader ∧
  w2.assets = w.assets ∧ w2.subscriptions = w.subscriptions

/-- The calls of `bind()` that take a stale program object apart before the re-link. -/
def ShaderProgram.unlinkCalls (p : ShaderProgram) : List GLCall :=
  [.glDetachShader p.programId p.fragmentShaderId,
   .glDetachShader p.programId p.vertexShaderId,
   .glDeleteProgram p.programId]

/-- The calls of `ShaderProgram.activate`. -/
def ShaderProgram.activateCalls (p : ShaderProgram) : List GLCall :=
  [.glUseProgram p.programId] ++
    (if p.posAttribLoc != -1 then
      [.glEnableVertexAttribArray p.posAttribLoc,
       .glVertexAttribPointer p.posAttribLoc 3 .GL_FLOAT false .x]
    else []) ++
    (if p.posColorLoc != -1 then
      [.glEnableVertexAttribArray p.posColorLoc,
       .glVertexAttribPointer p.posColorLoc 4 .GL_UNSIGNED_BYTE true .abgr]
    else []) ++
    (if p.posTexCoordLoc != -1 then
      [.glEnableVertexAttribArray p.posTexCoordLoc,
       .glVertexAttribPointer p.posTexCoordLoc 2 .GL_FLOAT false .u]
    else [])

/-- Whether a call is a `glLinkProgram`. -/
def GLCall.isLinkProgram : GLCall → Bool
  | .glLinkProgram _ => true
  | _ => false

/-- Whether a call is a `glUseProgram`. -/
def GLCall.isUseProgram : GLCall → Bool
  | .glUseProgram _ => true
  | _ => false

/-- The operations of `ShaderProgram` that can change the linked-program handle of an
existing program object. -/
inductive ProgramOp
  | link
  | load (vss fss : Option String)
  | loadFromAssets (vertexShaderPath fragmentShaderPath : String)
  | bind
  deriving DecidableEq, Repr

/-- Run the operation a `ProgramOp` names on the program at `this`. -/
def ProgramOp.run (this : ProgramPtr) (op : ProgramOp) (w : World) : Outcome Unit :=
  match op with
  | .link => ShaderProgram.link this w
  | .load vss fss => ShaderProgram.load this vss fss w
  | .loadFromAssets v f => ShaderProgram.loadFromAssets this v f w
  | .bind => ShaderProgram.bind this w

/-- The state in which an operation calls `link()`, when it gets that far: the state
`link()` itself is called in; for `load` and `loadFromAssets` the state their lines before
the closing `link()` leave behind; for `bind()` the state after the stale program object
has been deleted and `programId` set to 0 (`none` for a `bind()` that finds the cached
shader handles up to date, and for a run that stops before). -/
def ProgramOp.linkState (this : ProgramPtr) (op : ProgramOp) (w : World) : Option World :=
  match op with
  | .link => some w
  | .load vss fss =>
    match
      ((Shader.make "" .GL_VERTEX_SHADER w).andThen fun vs w1 =>
       (ShaderProgram.assignShader this .GL_VERTEX_SHADER (some vs) w1).andThen fun _ w2 =>
       (Shader.load vs vss w2).andThen fun _ w3 =>
       (Shader.make "" .GL_FRAGMENT_SHADER w3).andThen fun fs w4 =>
       (ShaderProgram.assignShader this .GL_FRAGMENT_SHADER (some fs) w4).andThen fun _ w5 =>
       (Shader.load fs fss w5).andThen fun _ w6 => Outcome.ok () w6) with
    | .ok _ w6 => some w6
    | .fatal _ _ => none
  | .loadFromAssets vertexShaderPath fragmentShaderPath =>
    match
      ((ShaderProgram.resolveShader this .GL_VERTEX_SHADER vertexShaderPath w).andThen
        fun _ w1 => ShaderProgram.resolveShader this .GL_FRAGMENT_SHADER fragmentShaderPath w1)
      with
    | .ok _ w2 => some w2
    | .fatal _ _ => none
  | .bind =>
    match w.programs this with
    | none => none
    | some p =>
      let w1 := if p.programId == 0 then lmLog .error "Binding an uninitalized shader!" w else w
      let w2 := { w1 with lastBoundShader := some this }
      match ShaderProgram.stale p w2 with
      | some true =>
        some (setProgram this { p with programId := 0 }
          (glCall (.glDeleteProgram p.programId)
            (glCall (.glDetachShader p.programId p.vertexShaderId)
              (glCall (.glDetachShader p.programId p.fragmentShaderId) w2))))
      | _ => none

/-- The number of entries a map holds under key `k`. -/
def lmMap.entries (m : lmMap) (k : String) : Nat :=
  (m.filter (fun e => e.1 == k)).length

/-- The number of entries of the registry under key `k` whose referent is alive. -/
def World.liveEntries (w : World) (k : String) : Nat :=
  (w.liveShaders.filter (fun e => e.1 == k && !expired e.2 w)).length

/-- No shader object lives at or beyond the next address to be handed out. -/
def World.heapOk (w : World) : Prop :=
  ∀ q, w.nextShader ≤ q → w.shaders q = none

/-- Whether a call is a `glCreateShader` of kind `t`. -/
def GLCall.createsKind (t : ShaderType) : GLCall → Bool
  | .glCreateShader type _ => type == t
  | _ => false

/-- Whether a call is a `glCompileShader`. -/
def GLCall.isCompileShader : GLCall → Bool
  | .glCompileShader _ => true
  | _ => false

/-- The number of `glCreateShader` calls of kind `t` in a trace. -/
def countCreates (t : ShaderType) (tr : List GLCall) : Nat :=
  (tr.filter (GLCall.createsKind t)).length

/-- The number of `glCompileShader` calls in a trace. -/
def countCompiles (tr : List GLCall) : Nat :=
  (tr.filter GLCall.isCompileShader).length

/-- What every step of `loadFromAssets` keeps: the driver and the asset store, shader
objects that are alive (their members, not their use count), and registry entries whose
referent is alive. -/
def World.keeps (w w2 : World) : Prop :=
  w2.driver = w.driver ∧ w2.assets = w.assets ∧ w.nextShader ≤ w2.nextShader ∧
  (∀ o c0, w.shaders o = some c0 → ∃ c1, w2.shaders o = some c1 ∧ c1.obj = c0.obj) ∧
  (∀ k s0, lmMap.index w.liveShaders k = some s0 → (w.shaders s0).isSome = true →
    lmMap.index w2.liveShaders k = some s0 ∧
    lmMap.entries w2.liveShaders k = lmMap.entries w.liveShaders k)

/-! ## Worked examples -/

/-- A driver for worked examples: object names count the calls made so far, a shader
compiles unless the text submitted for it is `"invalid"`, linking succeeds if `links`
says so and no shader text `"varying vec2 v_other;"` (whose interface does not match the
example vertex shader) has been submitted, and the three vertex attributes sit at
locations 0, 1 and 2. -/
def exampleDriver (links : Bool) : Driver where
  createShader := fun tr _ => tr.length + 1
  compileStatus := fun tr id => !(tr.contains (.glShaderSource id "invalid"))
  shaderInfoLogLength := fun _ _ => 0
  createProgram := fun tr => tr.length + 1
  linkStatus := fun tr _ => links && !(tr.any fun c =>
    match c with
    | .glShaderSource _ text => text == "varying vec2 v_other;"
    | _ => false)
  programInfoLogLength := fun _ _ => 0
  attribLocation := fun _ _ name =>
    if name == "a_position" then 0 else if name == "a_color0" then 1 else 2
  uniformLocation := fun _ _ _ => 0

/-- The state at start-up: nothing created, nothing registered, nothing bound. -/
def World.init (d : Driver) (assets : String → Option String) : World where
  driver := d
  gl := []
  log := []
  assets := assets
  subscriptions := []
  shaders := fun _ => none
  nextShader := 0
  liveShaders := []
  programs := fun _ => none
  lastBoundShader := none

/-- An asset store holding a vertex and a fragment shader text. -/
def exampleAssets : String → Option String := fun name =>
  if name == "a.vert" then some "attribute vec4 a_position;"
  else if name == "a.frag" then some "varying vec4 v_color0;"
  else none

/-- Member values of a program object before its constructor has run. -/
def exampleUninit : ShaderProgram where
  programId := 77
  vertexShader := none
  fragmentShader := none
  fragmentShaderId := 0
  vertexShaderId := 0
  posAttribLoc := -1
  posColorLoc := -1
  posTexCoordLoc := -1
  textureId := 0

/-- A freshly constructed program at address 0 in the start-up state. -/
def exampleFresh (links : Bool) : World :=
  ShaderProgram.construct 0 exampleUninit (World.init (exampleDriver links) exampleAssets)

/-- The program at address 0 after both halves of
`loadFromAssets("a.vert", "a.frag")` that come before the link. -/
def exampleAttached (links : Bool) : World :=
  ((ShaderProgram.resolveShader 0 .GL_VERTEX_SHADER "a.vert" (exampleFresh links)).andThen
    fun _ w1 => ShaderProgram.resolveShader 0 .GL_FRAGMENT_SHADER "a.frag" w1).world

/-- The program at address 0 after `link()` on `exampleAttached`. -/
def exampleLinked (links : Bool) : World :=
  (ShaderProgram.link 0 (exampleAttached links)).world

/-- The state after `lmMakeSptr<Shader>("", GL_VERTEX_SHADER)` at start-up: one anonymous,
uncompiled vertex shader at address 0. -/
def exampleAnonymous : World :=
  (Shader.make "" .GL_VERTEX_SHADER (World.init (exampleDriver true) exampleAssets)).world

/-- The members of the program at address 0 in `exampleAttached`. -/
def exampleProgram : ShaderProgram :=
  { exampleUninit with programId := 0, vertexShader := some 0, fragmentShader := some 1 }

/-- The compiled vertex shader of `exampleAttached`. -/
def exampleVertex : Shader := ⟨1, .GL_VERTEX_SHADER, "a.vert"⟩

/-- The compiled fragment shader of `exampleAttached`. -/
def exampleFragment : Shader := ⟨6, .GL_FRAGMENT_SHADER, "a.frag"⟩

/-- Two programs at addresses 0 and 1, both loaded from `"a.vert"` and `"a.frag"`, with
the program at address 1 bound last. -/
def exampleTwoPrograms : World :=
  ((ShaderProgram.loadFromAssets 0 "a.vert" "a.frag"
      (ShaderProgram.construct 1 exampleUninit (exampleFresh true))).andThen fun _ w1 =>
    (ShaderProgram.loadFromAssets 1 "a.vert" "a.frag" w1).andThen fun _ w2 =>
    ShaderProgram.bind 1 w2).world

/-- The asset store after the asset `name` has been replaced by `text`. -/
def World.changeAsset (name text : String) (w : World) : World :=
  { w with assets := fun n => if n == name then some text else w.assets n }

/-- The linked example program after the fragment shader asset has been replaced by a
text that compiles but no longer links with the vertex shader, and the reload callback
has run on the fragment shader. -/
def exampleReloaded : World :=
  (Shader.reload 1 (World.changeAsset "a.frag" "varying vec2 v_other;" (exampleLinked true))).world

/-- The linked example program after the fragment shader asset has been replaced by
another text that compiles and links, and the reload callback has run. -/
def exampleReloadedGood : World :=
  (Shader.reload 1 (World.changeAsset "a.frag" "varying vec4 v_color1;" (exampleLinked true))).world

/-- The members of the program at address 0 in `exampleLinked true`. -/
def exampleLinkedProgram : ShaderProgram := ⟨11, some 0, some 1, 6, 1, 0, 1, 2, 0⟩

/-- The fragment shader of the example after its reload: a new compiled handle. -/
def exampleReloadedFragment : Shader := ⟨21, .GL_FRAGMENT_SHADER, "a.frag"⟩

/-- The fresh example program after `load` with a vertex text the driver refuses to
compile and a fragment text it compiles. -/
def exampleBadVertex : World :=
  (ShaderProgram.load 0 (some "invalid") (some "varying vec4 v_color0;")
    (exampleFresh true)).world

/-- The members of a program right after its constructor has run on `exampleUninit`. -/
def exampleFreshProgram : ShaderProgram :=
  { exampleUninit with programId := 0, vertexShader := none, fragmentShader := none }

/-- Two freshly constructed programs, at addresses 0 and 1, in the start-up state. -/
def exampleTwoFresh : World :=
  ShaderProgram.construct 1 exampleUninit (exampleFresh true)

/-- The two fresh programs after `loadFromAssets("", "a.frag")` on each of them. -/
def exampleEmptyName : World :=
  ((ShaderProgram.loadFromAssets 0 "" "a.frag" exampleTwoFresh).andThen fun _ w1 =>
    ShaderProgram.loadFromAssets 1 "" "a.frag" w1).world

/-- The fault an outcome stopped with, if it did not return. -/
def Outcome.fault {α : Type} : Outcome α → Option Fault
  | .ok _ _ => none
  | .fatal f _ => some f

/-- The asset store after the asset `name` has been removed (or can no longer be
locked). -/
def World.removeAsset (name : String) (w : World) : World :=
  { w with assets := fun n => if n == name then none else w.assets n }

/-- A driver as `exampleDriver true`, except that linking fails exactly for a program to
which the shader name 0 (no shader object) has been attached. -/
def strictDriver : Driver :=
  { exampleDriver true with
    linkStatus := fun tr id => !(tr.contains (.glAttachShader id 0)) }

/-- A fresh program after `loadFromAssets("a.vert", "a.frag")` under `strictDriver` while
the fragment asset holds a text that does not compile: the fragment shader has handle 0
and the link has failed. -/
def exampleBrokenFragment : World :=
  (ShaderProgram.loadFromAssets 0 "a.vert" "a.frag"
    (ShaderProgram.construct 0 exampleUninit
      (World.changeAsset "a.frag" "invalid" (World.init strictDriver exampleAssets)))).world

/-- The state `exampleBrokenFragment` after the fragment asset has been repaired and the
reload callback has run on the fragment shader. -/
def exampleRepaired : World :=
  (Shader.reload 1
    (World.changeAsset "a.frag" "varying vec4 v_color0;" exampleBrokenFragment)).world

/-- The fragment shader of `exampleRepaired`. -/
def exampleRepairedFragment : Shader := ⟨20, .GL_FRAGMENT_SHADER, "a.frag"⟩

/-- The shader object `id` is a live compiled object at the end of trace `tr`: the trace
holds the calls of a `Shader::load` that created it, the driver reported its compilation
as successful, and no `glDeleteShader` has been issued on it since. -/
def Shader.liveCompiled (d : Driver) (tr : List GLCall) (id : GLuint) : Prop :=
  ∃ pre type text post, tr = pre ++ Shader.loadCalls type id text ++ post ∧
    d.compileStatus (pre ++ Shader.loadCalls type id text) id = true ∧
    ∀ c ∈ post, GLCall.deletedShader c ≠ some id

/-- The shader names in use at the end of a trace: created and not deleted since. -/
def namesInUse (tr : List GLCall) : List GLuint :=
  tr.foldl (fun acc c =>
    match c with
    | .glCreateShader _ ret => ret :: acc
    | .glDeleteShader shader => acc.filter (fun n => n != shader)
    | _ => acc) []

/-- A driver as `exampleDriver true`, except that `glCreateShader` hands out the smallest
positive name that is not in use, so that the name of a deleted object is given out
again. -/
def recyclingDriver : Driver :=
  { exampleDriver true with
    createShader := fun tr _ =>
      (((List.range (tr.length + 2)).tail).find? (fun n => !(namesInUse tr).contains n)).getD 0 }

/-- The named fragment shader `"a.frag"`, constructed at start-up under
`recyclingDriver`, after its asset has been replaced by another text that compiles. -/
def exampleRecycled : World :=
  World.changeAsset "a.frag" "varying vec4 v_color1;"
    (Shader.make "a.frag" .GL_FRAGMENT_SHADER (World.init recyclingDriver exampleAssets)).world

/-- Destruction of the members of a program object, which follows the body of the
destructor: the two `lmSptr` members give up their owner share, in reverse order of
declaration, and the object is gone.  The class declaration is not among the sources;
`vertexDeclaredFirst` says which of `vertexShader` and `fragmentShader` is declared
first. -/
def ShaderProgram.destroyMembers (this : ProgramPtr) (vertexDeclaredFirst : Bool) (w : World) :
    World :=
  match w.programs this with
  | none => w
  | some p =>
    let w1 :=
      if vertexDeclaredFirst then release p.vertexShader (release p.fragmentShader w)
      else release p.fragmentShader (release p.vertexShader w)
    { w1 with programs := Function.update w1.programs this none }

/-- The destructor `ShaderProgram::~ShaderProgram()` on the object at `this`, with the
destruction of the members that follows it. -/
def ShaderProgram.destroy (this : ProgramPtr) (vertexDeclaredFirst : Bool) (w : World) :
    Outcome Unit :=
  match w.programs this with
  | none => .fatal .invalidPointer w
  | some p =>
    if p.programId == 0 then
      .ok () (ShaderProgram.destroyMembers this vertexDeclaredFirst w)
    else
      match deref p.vertexShader w with
      | none => .fatal .nullDereference w
      | some vs =>
        let w1 := glCall (.glDetachShader p.programId vs.id) w
        match deref p.fragmentShader w1 with
        | none => .fatal .nullDereference w1
        | some fs =>
          let w2 := glCall (.glDetachShader p.programId fs.id) w1
          (ShaderProgram.assignShader this .GL_VERTEX_SHADER none w2).andThen fun _ w3 =>
          (ShaderProgram.assignShader this .GL_FRAGMENT_SHADER none w3).andThen fun _ w4 =>
          .ok () (ShaderProgram.destroyMembers this vertexDeclaredFirst
            (glCall (.glDeleteProgram p.programId) w4))

/-- The shader handles attached to the program object `h` at its last link: the
`glAttachShader(h, _)` calls of the trace since the last `glCreateProgram` that returned
`h`. -/
def ShaderProgram.attachedAtLastLink (h : GLuint) (tr : List GLCall) : List GLuint :=
  tr.foldl (fun acc c =>
    match c with
    | .glCreateProgram ret => if ret == h then [] else acc
    | .glAttachShader program shader => if program == h then acc ++ [shader] else acc
    | _ => acc) []

/-- The shader a call detaches from the program object `h`, if it is such a call. -/
def GLCall.detachedFrom (h : GLuint) : GLCall → Option GLuint
  | .glDetachShader program shader => if program == h then some shader else none
  | _ => none

/-- Whether a call is a `glDetachShader`. -/
def GLCall.isDetachShader : GLCall → Bool
  | .glDetachShader _ _ => true
  | _ => false

/-- Whether a call is a `glDeleteShader`. -/
def GLCall.isDeleteShader : GLCall → Bool
  | .glDeleteShader _ => true
  | _ => false

/-- The driver calls made when the owner share `sp` is given up in a state with shader
heap `heap`: the `glDeleteShader` of the destructor, if this was the last owner of a
shader with a nonzero handle. -/
def releaseCalls (sp : lmSptr) (heap : ShaderPtr → Option ShaderCell) : List GLCall :=
  match sp with
  | none => []
  | some p =>
    match heap p with
    | none => []
    | some c => if c.useCount ≤ 1 ∧ c.obj.id ≠ 0 then [.glDeleteShader c.obj.id] else []

/-- The shader heap after the owner share `sp` has been given up. -/
def releaseHeap (sp : lmSptr) (heap : ShaderPtr → Option ShaderCell) :
    ShaderPtr → Option ShaderCell :=
  match sp with
  | none => heap
  | some p =>
    match heap p with
    | none => heap
    | some c =>
      if c.useCount ≤ 1 then Function.update heap p none
      else Function.update heap p (some { c with useCount := c.useCount - 1 })

/-! ## Tile keys (`lmModestMaps.cpp`) -/

/-- The terminator of a C string. -/
def NUL : Char := Char.ofNat 0

/-- `buf[i] = c` on a character buffer; `none` when `i` is outside the buffer. -/
def writeAt (buf : List Char) (i : Int) (c : Char) : Option (List Char) :=
  if 0 ≤ i ∧ i < buf.length then some (buf.set i.toNat c) else none

/-- `buf[i]` on a character buffer; `none` when `i` is outside the buffer. -/
def readAt (buf : List Char) (i : Int) : Option Char :=
  if 0 ≤ i then buf[i.toNat]? else none

/-- `memset(buf, c, n)`; `none` when the buffer holds fewer than `n` characters. -/
def memset (buf : List Char) (c : Char) (n : Int) : Option (List Char) :=
  if 0 ≤ n ∧ n ≤ buf.length then some (List.replicate n.toNat c ++ buf.drop n.toNat) else none

/-- `strlen(buf)`; `none` when the buffer holds no terminator. -/
def strlen (buf : List Char) : Option Nat :=
  if buf.findIdx (fun c => c == NUL) < buf.length then some (buf.findIdx (fun c => c == NUL))
  else none

/-- The `while (numberToConvert > 0)` loop of `convertToBinary`, on the state
`(numberToConvert, numBits, binString)`; `%` and `/` are those of C, which truncate.
`none` when the loop is not done within `fuel` iterations or writes outside the buffer. -/
def convertToBinaryLoop : Nat → Int → Int → List Char → Option (Int × List Char)
  | 0, numberToConvert, numBits, binString =>
    if numberToConvert > 0 then none else some (numBits, binString)
  | fuel + 1, numberToConvert, numBits, binString =>
    if numberToConvert > 0 then
      let remainder := Int.tmod numberToConvert 2
      (writeAt binString (numBits - 1) (if remainder == 0 then '0' else '1')).bind fun b =>
        convertToBinaryLoop fuel (Int.tdiv numberToConvert 2) (numBits - 1) b
    else some (numBits, binString)

/-- `ModestMaps::convertToBinary(numberToConvert, binString)` on a buffer with the
contents `binString`: the contents of the buffer afterwards. -/
def convertToBinary (fuel : Nat) (numberToConvert : Int) (binString : List Char) :
    Option (List Char) :=
  let negative := decide (numberToConvert < 0)
  let n := if numberToConvert < 0 then numberToConvert + 2 ^ 30 else numberToConvert
  (writeAt binString 32 NUL).bind fun b1 =>
  (convertToBinaryLoop fuel n 32 b1).bind fun r =>
  if r.1 > 0 then memset r.2 (if negative then '1' else '0') r.1 else some r.2

/-- The `while (wrappedColumn < 0)` loop of `getMSProviderZoomString`; `none` when it is
not done within `fuel` iterations. -/
def wrapColumn : Nat → Int → Int → Option Int
  | 0, wrappedColumn, _ => if wrappedColumn < 0 then none else some wrappedColumn
  | fuel + 1, wrappedColumn, zoomExp =>
    if wrappedColumn < 0 then wrapColumn fuel (wrappedColumn + zoomExp) zoomExp
    else some wrappedColumn

/-- The `for` loop of `getMSProviderZoomString` from index `i` on, with `count` iterations
to go: the characters written to `zoomString[i]`, `zoomString[i + 1]`, ... -/
def zoomStringLoop (rowBinaryString colBinaryString : List Char) (rowOffset colOffset : Int) :
    Nat → Nat → Option (List Char)
  | 0, _ => some []
  | count + 1, i =>
    (readAt colBinaryString (i + colOffset)).bind fun value =>
    (readAt rowBinaryString (i + rowOffset)).bind fun r =>
    (zoomStringLoop rowBinaryString colBinaryString rowOffset colOffset count (i + 1)).map
      fun rest => (if r == '1' then (if value == '1' then '3' else '2') else value) :: rest

/-- The C string a character buffer holds: the characters before the first terminator. -/
def cString (buf : List Char) : List Char :=
  buf.takeWhile (fun c => c != NUL)

/-- `ModestMaps::getMSProviderZoomString(col, row, zoom)` for integer-valued `col` and
`row` and `zoom ≥ 0`, with the static buffers `_rowBinaryString` and `_colBinaryString`
holding `rowBuf` and `colBuf` at entry.  The `float`s are carried as integers: `pow(2,
zoom)` is a power of two, `fmod` is exact and is the truncating remainder, and with
`zoom ≤ 24` the sum `wrappedColumn + zoomExp` and the conversions to `int` are exact.
The result is the string in the `malloc`ed buffer. -/
def getMSProviderZoomString (fuel : Nat) (col row : Int) (zoom : Nat)
    (rowBuf colBuf : List Char) : Option (List Char) :=
  let zoomExp : Int := 2 ^ zoom
  (wrapColumn fuel (Int.tmod col zoomExp) zoomExp).bind fun col =>
  (convertToBinary fuel row rowBuf).bind fun rowBinaryString =>
  (convertToBinary fuel col colBuf).bind fun colBinaryString =>
  (strlen rowBinaryString).bind fun rowLen =>
  (strlen colBinaryString).bind fun colLen =>
  (zoomStringLoop rowBinaryString colBinaryString ((rowLen : Int) - zoom) ((colLen : Int) - zoom)
    zoom 0).map fun zoomString => cString (zoomString ++ [NUL])

/-- Bit `k` of `n`, as 0 or 1. -/
def bitOf (n k : Nat) : Nat :=
  n / 2 ^ k % 2

/-- The 32-digit zero-padded binary representation of `n`, most significant digit
first. -/
def binary32 (n : Nat) : List Char :=
  (List.range 32).map fun j => if bitOf n (31 - j) = 1 then '1' else '0'

/-- The digit `c + 2 * r` as a character. -/
def zoomDigit (c r : Nat) : Char :=
  Char.ofNat (48 + c + 2 * r)

/-- A buffer of 33 characters, as the static `_rowBinaryString` and `_colBinaryString`
before their first use. -/
def exampleBuffer : List Char := List.replicate 33 NUL

/-! ## WAV loader (`wavloader.cpp`) -/

/-- The fields of `wav_info` that `load_wav` fills in (the declaration, in `wavloader.h`,
is not among the sources); the values are kept as natural numbers. -/
structure wav_info where
  numChannels : Nat
  samplesPerSecond : Nat
  sampleSize : Nat
  sampleDataSize : Nat
  deriving DecidableEq, Repr

/-- What a run of `load_wav` has done so far: the `wav_info` behind `outInfo` and the
bytes behind `outData` (`none` for a null pointer), the ranges `(offset, length)` of
`inData` it has read or set out to read, the length of each `memcpy` it has called, and
the error lines logged. -/
structure WavRun where
  outInfo : Option wav_info
  outData : Option (List Nat)
  reads : List (Nat × Nat)
  copied : List Nat
  log : List String
  deriving DecidableEq, Repr

/-- How a run of `load_wav` ends: it returns a value, or it reads `inData` outside the
buffer, which has no defined behaviour; the last entry of `reads` is then the read that
left the buffer. -/
inductive WavResult
  | returned (value : Bool) (run : WavRun)
  | outOfBounds (run : WavRun)
  deriving DecidableEq, Repr

/-- The value returned, if the run returned. -/
def WavResult.value : WavResult → Option Bool
  | .returned value _ => some value
  | .outOfBounds _ => none

/-- What the run did. -/
def WavResult.run : WavResult → WavRun
  | .returned _ run => run
  | .outOfBounds run => run

/-- Whether the `len` bytes at offset `o` all lie inside the buffer `bytes`. -/
def inBounds (bytes : List Nat) (o len : Nat) : Bool :=
  decide (o + len ≤ bytes.length)

/-- The contents of a buffer as a function of the offset (0 past its end; no read the
model lets through gets there). -/
def bufferOf (bytes : List Nat) : Nat → Nat :=
  fun o => bytes.getD o 0

/-- The byte (`uint8_t`) at offset `o` of the memory `mem` that `inData` points to. -/
def byteAt (mem : Nat → Nat) (o : Nat) : Nat :=
  mem o % 256

/-- Modelled from the spec: a `uint16_t` field copied out of the buffer at offset `o` and
passed through `convertLEndianToHost` (`utEndian.h`, not among the sources) is the number
its two bytes spell in little-endian order. -/
def u16le (mem : Nat → Nat) (o : Nat) : Nat :=
  byteAt mem o + 256 * byteAt mem (o + 1)

/-- Modelled from the spec: a `uint32_t` field copied out of the buffer at offset `o` and
passed through `convertLEndianToHost` is the number its four bytes spell in little-endian
order. -/
def u32le (mem : Nat → Nat) (o : Nat) : Nat :=
  byteAt mem o + 256 * byteAt mem (o + 1) + 65536 * byteAt mem (o + 2) +
    16777216 * byteAt mem (o + 3)

/-- `static_cast<int32_t>(n)` of an unsigned value: reduction modulo `2^32` into the range
of `int32_t`. -/
def toInt32 (n : Nat) : Int :=
  if n % 2 ^ 32 < 2 ^ 31 then ((n % 2 ^ 32 : Nat) : Int) else ((n % 2 ^ 32 : Nat) : Int) - 2 ^ 32

/-- Whether the four bytes at offset `o` are the characters `a b c d`. -/
def tagAt (mem : Nat → Nat) (o : Nat) (a b c d : Char) : Bool :=
  byteAt mem o == a.toNat && byteAt mem (o + 1) == b.toNat &&
  byteAt mem (o + 2) == c.toNat && byteAt mem (o + 3) == d.toNat

/-- `sizeof(chunk_header) + chunkDataSize`, computed in `size_t`, which is taken to be 64
bits wide. -/
def chunkSpan (chunkDataSize : Nat) : Nat :=
  (8 + chunkDataSize) % 2 ^ 64

/-- The `while` loop of `load_wav` on the buffer `bytes`, with the cursor at offset
`cursor` from `inData`; `riffSize` is `riff.header.chunkDataSize`.  Each read of the buffer
is noted in `reads` and ends the run when it is not inside the buffer: the 8-byte copy of
the chunk header, the 16-byte copy of the `fmt ` body, and the `memcpy` of `chunkDataSize`
bytes out of a `data` chunk.  `none` when the loop is not done within `fuel` iterations. -/
def walkChunks (bytes : List Nat) (inDataLen : Int) (riffSize : Nat) :
    Nat → Nat → WavRun → Option WavResult
  | 0, cursor, run =>
    if (cursor : Int) < inDataLen ∧ cursor < riffSize then none else some (.returned true run)
  | fuel + 1, cursor, run =>
    if (cursor : Int) < inDataLen ∧ cursor < riffSize then
      let run1 := { run with reads := run.reads ++ [(cursor, 8)] }
      if !inBounds bytes cursor 8 then some (.outOfBounds run1) else
      let chunkDataSize := u32le (bufferOf bytes) (cursor + 4)
      if tagAt (bufferOf bytes) cursor 'f' 'm' 't' ' ' then
        let run2 := { run1 with reads := run1.reads ++ [(cursor + 8, 16)] }
        if !inBounds bytes (cursor + 8) 16 then some (.outOfBounds run2) else
        let compressionType := u16le (bufferOf bytes) (cursor + 8)
        if compressionType != 1 then
          some (.returned false { run2 with
            log := run2.log ++ ["Unsupported wav format: 0x%2x. Recommend 8 or 16-bit PCM"] })
        else
          let run3 := { run2 with
            outInfo := run2.outInfo.map fun (info : wav_info) =>
              { info with
                numChannels := u16le (bufferOf bytes) (cursor + 8 + 2)
                samplesPerSecond := u32le (bufferOf bytes) (cursor + 8 + 4)
                sampleSize := u16le (bufferOf bytes) (cursor + 8 + 14) } }
          walkChunks bytes inDataLen riffSize fuel (cursor + chunkSpan chunkDataSize) run3
      else if tagAt (bufferOf bytes) cursor 'd' 'a' 't' 'a' then
        let run2 := { run1 with
          outInfo := run1.outInfo.map fun (info : wav_info) =>
            { info with sampleDataSize := chunkDataSize } }
        match run2.outData with
        | none =>
          walkChunks bytes inDataLen riffSize fuel (cursor + chunkSpan chunkDataSize) run2
        | some out =>
          let run3 := { run2 with
            reads := run2.reads ++ [(cursor + 8, chunkDataSize)]
            copied := run2.copied ++ [chunkDataSize] }
          if !inBounds bytes (cursor + 8) chunkDataSize then some (.outOfBounds run3) else
          walkChunks bytes inDataLen riffSize fuel (cursor + chunkSpan chunkDataSize)
            { run3 with
              outData := some
                ((List.range chunkDataSize).map (fun i => byteAt (bufferOf bytes) (cursor + 8 + i))
                  ++ out.drop chunkDataSize) }
      else
        walkChunks bytes inDataLen riffSize fuel (cursor + chunkSpan chunkDataSize) run1
    else some (.returned true run)

/-- `load_wav(inData, inDataLen, outData, outInfo)`.  `inData` is `none` for a null
pointer and otherwise the bytes of the buffer it points to, and `inDataLen` is the length
the caller passes (for "a buffer of length `inDataLen`" the two agree); `outData` and
`outInfo` are `none` for null pointers and otherwise what they point to.  The first read
is the 12-byte copy of the RIFF header, before any check.  The result is how the run ends;
`none` when the chunk walk is not done within `fuel` iterations. -/
def load_wav (fuel : Nat) (inData : Option (List Nat)) (inDataLen : Int)
    (outData : Option (List Nat)) (outInfo : Option wav_info) : Option WavResult :=
  let run : WavRun := ⟨outInfo, outData, [], [], []⟩
  match inData with
  | none =>
    some (.returned false { run with log := ["No input data passed to wav loader"] })
  | some bytes =>
    let run1 := { run with reads := [(0, 12)] }
    if !inBounds bytes 0 12 then some (.outOfBounds run1)
    else if !tagAt (bufferOf bytes) 0 'R' 'I' 'F' 'F' then
      some (.returned false { run1 with log := ["Bad wav file format"] })
    else if !tagAt (bufferOf bytes) 8 'W' 'A' 'V' 'E' then
      some (.returned false { run1 with log := ["Bad wav file format"] })
    else
      let riffSize := u32le (bufferOf bytes) 4
      if inDataLen < toInt32 (chunkSpan riffSize) then
        some (.returned false { run1 with log := ["Not enough data in wav buffer"] })
      else
        walkChunks bytes inDataLen riffSize fuel 12 run1

/-- The offset of the `k`-th chunk of the chunk walk: the first chunk follows the 12-byte
RIFF header, and each chunk is followed by the next after its 8-byte header and its
data. -/
def chunkOffset (mem : Nat → Nat) : Nat → Nat
  | 0 => 12
  | k + 1 => chunkOffset mem k + 8 + u32le mem (chunkOffset mem k + 4)

/-- The conditions under which `load_wav` is said to return `false`: a null input
pointer; bytes 0..3 other than `RIFF`; bytes 8..11 other than `WAVE`; `inDataLen` less
than 8 plus the RIFF `chunkDataSize` (as an `int32_t`); or a chunk met by the walk that is
a `fmt ` chunk with a compression type other than 1. -/
def wavRejected (inData : Option (List Nat)) (inDataLen : Int) : Prop :=
  match inData with
  | none => True
  | some bytes =>
    tagAt (bufferOf bytes) 0 'R' 'I' 'F' 'F' = false ∨
    tagAt (bufferOf bytes) 8 'W' 'A' 'V' 'E' = false ∨
    inDataLen < toInt32 (8 + u32le (bufferOf bytes) 4) ∨
    ∃ k, (chunkOffset (bufferOf bytes) k : Int) < inDataLen ∧
      chunkOffset (bufferOf bytes) k < u32le (bufferOf bytes) 4 ∧
      tagAt (bufferOf bytes) (chunkOffset (bufferOf bytes) k) 'f' 'm' 't' ' ' = true ∧
      u16le (bufferOf bytes) (chunkOffset (bufferOf bytes) k + 8) ≠ 1

/-- A 24-byte input: the RIFF header with `chunkDataSize` 16 and one `data` chunk that
declares 100 bytes of samples and holds 4. -/
def exampleShortData : List Nat :=
  [82, 73, 70, 70, 16, 0, 0, 0, 87, 65, 86, 69,
   100, 97, 116, 97, 100, 0, 0, 0, 1, 2, 3, 4]

/-- A 24-byte input: the RIFF header with `chunkDataSize` 16 and the header of a `fmt `
chunk whose body starts 4 bytes before the end of the buffer. -/
def exampleShortFmt : List Nat :=
  [82, 73, 70, 70, 16, 0, 0, 0, 87, 65, 86, 69,
   102, 109, 116, 32, 16, 0, 0, 0, 1, 0, 2, 0]

/-- A 48-byte PCM file: a `fmt ` chunk (PCM, 2 channels, 44100 Hz, 16 bits) and a `data`
chunk of 4 bytes. -/
def examplePcm : List Nat :=
  [82, 73, 70, 70, 40, 0, 0, 0, 87, 65, 86, 69,
   102, 109, 116, 32, 16, 0, 0, 0, 1, 0, 2, 0, 68, 172, 0, 0, 16, 177, 2, 0, 4, 0, 16, 0,
   100, 97, 116, 97, 4, 0, 0, 0, 1, 2, 3, 4]

/-! ## Registry invariant -/

/-- Every live shader with a non-empty name is registered under its name exactly once,
and the entry refers to it. -/
def World.registered (w : World) : Prop :=
  ∀ s c, w.shaders s = some c → c.obj.name.length > 0 →
    lmMap.index w.liveShaders c.obj.name = some s ∧
    lmMap.entries w.liveShaders c.obj.name = 1

/-- Every `removeShader` call made so far found, under the name it was given, the entry
of the shader whose destructor made the call, and that shader is gone. -/
def World.removalsOwn (w : World) : Prop :=
  ∀ r ∈ w.removals, r.entry = some r.shader ∧ r.shader < w.nextShader ∧
    w.shaders r.shader = none

/-- The registry invariant. -/
def World.registryOk (w : World) : Prop :=
  World.heapOk w ∧ World.registered w ∧ World.removalsOwn w

/-- The state `w2` has the same registry, the same removal history and the same live
shaders with the same names as `w`. -/
def World.sameNames (w w2 : World) : Prop :=
  w2.liveShaders = w.liveShaders ∧ w2.nextShader = w.nextShader ∧
  w2.removals = w.removals ∧
  ∀ s, (w2.shaders s).map (fun c => c.obj.name) = (w.shaders s).map (fun c => c.obj.name)

/-- One step of a run: an operation of `gfxShader.cpp` that returns, or a change of the
asset store. -/
inductive Step : World → World → Prop
  | construct (w : World) (this : ProgramPtr) (uninit : ShaderProgram) :
      w.programs this = none → Step w (ShaderProgram.construct this uninit w)
  | program (w w2 : World) (this : ProgramPtr) (op : ProgramOp) :
      ProgramOp.run this op w = .ok () w2 → Step w w2
  | uniform (w w2 : World) (this : ProgramPtr) (c : UniformCall) :
      UniformCall.run this c w = .ok () w2 → Step w w2
  | reload (w w2 : World) (s : ShaderPtr) :
      Shader.reload s w = .ok () w2 → Step w w2
  | destroy (w w2 : World) (this : ProgramPtr) (vertexDeclaredFirst : Bool) :
      ShaderProgram.destroy this vertexDeclaredFirst w = .ok () w2 → Step w w2
  | changeAsset (w : World) (name text : String) : Step w (World.changeAsset name text w)
  | removeAsset (w : World) (name : String) : Step w (World.removeAsset name w)

/-- The states a run can be in between two operations, from start-up with any driver and
any asset store. -/
def Reachable (w : World) : Prop :=
  ∃ d assets, Relation.ReflTransGen Step (World.init d assets) w

/-- No live shader has the name `n`. -/
def World.unnamed (n : String) (w : World) : Prop :=
  ∀ s c, w.shaders s = some c → c.obj.name ≠ n

/-- Two programs after `loadFromAssets("a.vert", "a.frag")` on the first,
`loadFromAssets("a.vert", "a.vert")` on the second and the teardown of the first: the
shader `"a.frag"` has been destroyed and the shader `"a.vert"` lives on in the second
program. -/
def exampleSurvivor : World :=
  (ShaderProgram.destroy 0 true
    (ProgramOp.run 1 (.loadFromAssets "a.vert" "a.vert")
      (ProgramOp.run 0 (.loadFromAssets "a.vert" "a.frag")
        exampleTwoFresh).world).world).world

/-! ## Runs of registry operations -/

/-- What the rest of the program may do between `addShader n s` and a later
`getShader n`: register another name (`add`; registering `n` itself is refused while its
entry is there), look any name up, `n` included (`get`), give up an owner share of any
shader, `s` included, which runs the destructor and its `removeShader` when it was the last
(`release`), or anything that leaves the registry alone and does not bring `s` back once
it is gone (`other`: GL calls, compiling, linking, further owners, new shaders at other
addresses).  For `release` the contract of `removeShader` is assumed: it is called only
from the destructor of a shader, at which point the reference registered under that
shader's name is expired, so it is the reference to the dying shader or to one already
gone. -/
inductive RegistryStep (n : String) (s : ShaderPtr) : World → World → Prop
  | add (w w2 : World) (k : String) (sp : lmSptr) :
      k ≠ n → Shader.addShader k sp w = .ok () w2 → RegistryStep n s w w2
  | get (w : World) (k : String) : RegistryStep n s w (Shader.getShader k w).2
  | release (w : World) (sp : lmSptr) :
      (∀ p c, sp = some p → w.shaders p = some c → c.useCount ≤ 1 →
        c.obj.name.length > 0 →
        ∀ t, lmMap.index w.liveShaders c.obj.name = some t → t = p ∨ w.shaders t = none) →
      RegistryStep n s w (release sp w)
  | other (w w2 : World) :
      w2.liveShaders = w.liveShaders → (w.shaders s = none → w2.shaders s = none) →
      RegistryStep n s w w2

/-- The entry of `n` is the reference to `s` for as long as `s` is alive, and is either
that reference or missing afterwards. -/
def World.entryOf (n : String) (s : ShaderPtr) (w : World) : Prop :=
  (w.shaders s ≠ none → lmMap.index w.liveShaders n = some s) ∧
  (lmMap.index w.liveShaders n = some s ∨ lmMap.count w.liveShaders n = 0)

/-! # Theorems -/

/-! ## Lemmas on `lmMap` -/

theorem lmMap.count_erase_self (m : lmMap) (k : String) :
    lmMap.count (lmMap.erase m k) k = 0 := by
  simp [lmMap.count, lmMap.erase]

theorem lmMap.count_assign_self (m : lmMap) (k : String) (v : lmWptr) :
    lmMap.count (lmMap.assign m k v) k = 1 := by
  simp [lmMap.count, lmMap.assign]

theorem lmMap.index_assign_self (m : lmMap) (k : String) (v : lmWptr) :
    lmMap.index (lmMap.assign m k v) k = v := by
  simp [lmMap.index, lmMap.assign, List.lookup]

theorem lmMap.count_le_one (m : lmMap) (k : String) : lmMap.count m k ≤ 1 := by
  unfold lmMap.count
  split <;> simp

theorem lmMap.count_eq_zero_iff (m : lmMap) (k : String) :
    lmMap.count m k = 0 ↔ ∀ e ∈ m, e.1 ≠ k := by
  unfold lmMap.count
  split
  · rename_i h
    simp only [List.any_eq_true, beq_iff_eq] at h
    obtain ⟨e, he, hk⟩ := h
    simp only [one_ne_zero, false_iff, not_forall]
    exact ⟨e, he, fun hne => hne hk⟩
  · rename_i h
    simp only [List.any_eq_true, beq_iff_eq, not_exists, not_and] at h
    simpa using h

theorem lmMap.index_erase (m : lmMap) (k n : String) :
    lmMap.index (lmMap.erase m k) n = if k = n then none else lmMap.index m n := by
  induction m with
  | nil => simp [lmMap.index, lmMap.erase]
  | cons e m ih =>
    obtain ⟨a, b⟩ := e
    simp only [lmMap.index, lmMap.erase] at ih ⊢
    by_cases hak : a = k
    · subst hak
      by_cases han : a = n
      · subst han
        simpa using ih
      · have : (n == a) = false := by simpa using fun h => han h.symm
        simp [List.filter_cons, List.lookup_cons, this, han] at ih ⊢
        simpa [han] using ih
    · by_cases hkn : k = n
      · subst hkn
        have : (k == a) = false := by simpa using fun h => hak h.symm
        simp [List.filter_cons, List.lookup_cons, hak, this] at ih ⊢
        simpa using ih
      · by_cases han : a = n
        · subst han
          simp [List.filter_cons, List.lookup_cons, hak, hkn]
        · have : (n == a) = false := by simpa using fun h => han h.symm
          simp [List.filter_cons, List.lookup_cons, hak, this, hkn] at ih ⊢
          simpa [hkn] using ih

/-! ## Frame lemmas -/

@[simp] theorem deref_glCall (sp : lmSptr) (c : GLCall) (w : World) :
    deref sp (glCall c w) = deref sp w := by
  cases sp <;> rfl

@[simp] theorem deref_lmLog (sp : lmSptr) (l : LogLevel) (f : String) (w : World) :
    deref sp (lmLog l f w) = deref sp w := by
  cases sp <;> rfl

@[simp] theorem deref_setProgram (sp : lmSptr) (this : ProgramPtr) (p : ShaderProgram)
    (w : World) : deref sp (setProgram this p w) = deref sp w := by
  cases sp <;> rfl

@[simp] theorem programs_glCall (c : GLCall) (w : World) :
    (glCall c w).programs = w.programs := rfl

@[simp] theorem programs_lmLog (l : LogLevel) (f : String) (w : World) :
    (lmLog l f w).programs = w.programs := rfl

@[simp] theorem gl_glCall (c : GLCall) (w : World) : (glCall c w).gl = w.gl ++ [c] := rfl

@[simp] theorem gl_lmLog (l : LogLevel) (f : String) (w : World) : (lmLog l f w).gl = w.gl := rfl

@[simp] theorem gl_setProgram (this : ProgramPtr) (p : ShaderProgram) (w : World) :
    (setProgram this p w).gl = w.gl := rfl

@[simp] theorem driver_glCall (c : GLCall) (w : World) : (glCall c w).driver = w.driver := rfl

@[simp] theorem driver_lmLog (l : LogLevel) (f : String) (w : World) :
    (lmLog l f w).driver = w.driver := rfl

@[simp] theorem driver_setProgram (this : ProgramPtr) (p : ShaderProgram) (w : World) :
    (setProgram this p w).driver = w.driver := rfl

@[simp] theorem programs_setProgram_same (this : ProgramPtr) (p : ShaderProgram) (w : World) :
    (setProgram this p w).programs this = some p := by
  simp [setProgram]

theorem programs_setProgram_other (this other : ProgramPtr) (p : ShaderProgram) (w : World)
    (h : other ≠ this) : (setProgram this p w).programs other = w.programs other := by
  simp [setProgram, Function.update_noteq h]

theorem ShaderProgram.program_validateQueries_isQuery (d : Driver) (tr : List GLCall) (h : GLuint) :
    ∀ c ∈ ShaderProgram.validateQueries d tr h, GLCall.isProgramQuery c = true := by
  unfold ShaderProgram.validateQueries
  split_ifs <;> simp [GLCall.isProgramQuery]

@[simp] theorem ShaderProgram.program_validate_fst (p : ShaderProgram) (w : World) :
    (ShaderProgram.validate p w).1 = w.driver.linkStatus w.gl p.programId := by
  unfold ShaderProgram.validate
  simp only []
  split_ifs <;> simp_all

@[simp] theorem ShaderProgram.program_validate_gl (p : ShaderProgram) (w : World) :
    (ShaderProgram.validate p w).2.gl =
      w.gl ++ ShaderProgram.validateQueries w.driver w.gl p.programId := by
  unfold ShaderProgram.validate ShaderProgram.validateQueries
  simp only []
  split_ifs <;> simp_all [glCall, lmLog, GFX_DEBUG_BREAK]

@[simp] theorem ShaderProgram.program_validate_driver (p : ShaderProgram) (w : World) :
    (ShaderProgram.validate p w).2.driver = w.driver := by
  unfold ShaderProgram.validate
  simp only []
  split_ifs <;> rfl

@[simp] theorem ShaderProgram.program_validate_programs (p : ShaderProgram) (w : World) :
    (ShaderProgram.validate p w).2.programs = w.programs := by
  unfold ShaderProgram.validate
  simp only []
  split_ifs <;> rfl

@[simp] theorem ShaderProgram.program_validate_shaders (p : ShaderProgram) (w : World) :
    (ShaderProgram.validate p w).2.shaders = w.shaders := by
  unfold ShaderProgram.validate
  simp only []
  split_ifs <;> rfl

@[simp] theorem ShaderProgram.program_validate_liveShaders (p : ShaderProgram) (w : World) :
    (ShaderProgram.validate p w).2.liveShaders = w.liveShaders := by
  unfold ShaderProgram.validate
  simp only []
  split_ifs <;> rfl

@[simp] theorem ShaderProgram.program_validate_lastBoundShader (p : ShaderProgram) (w : World) :
    (ShaderProgram.validate p w).2.lastBoundShader = w.lastBoundShader := by
  unfold ShaderProgram.validate
  simp only []
  split_ifs <;> rfl

@[simp] theorem ShaderProgram.program_validate_nextShader (p : ShaderProgram) (w : World) :
    (ShaderProgram.validate p w).2.nextShader = w.nextShader := by
  unfold ShaderProgram.validate
  simp only []
  split_ifs <;> rfl

@[simp] theorem ShaderProgram.program_validate_assets (p : ShaderProgram) (w : World) :
    (ShaderProgram.validate p w).2.assets = w.assets := by
  unfold ShaderProgram.validate
  simp only []
  split_ifs <;> rfl

@[simp] theorem ShaderProgram.program_validate_subscriptions (p : ShaderProgram) (w : World) :
    (ShaderProgram.validate p w).2.subscriptions = w.subscriptions := by
  unfold ShaderProgram.validate
  simp only []
  split_ifs <;> rfl

theorem Shader.shader_validateQueries_isQuery (d : Driver) (tr : List GLCall) (h : GLuint) :
    ∀ c ∈ Shader.validateQueries d tr h, GLCall.isShaderQuery c = true := by
  unfold Shader.validateQueries
  split_ifs <;> simp [GLCall.isShaderQuery]

@[simp] theorem Shader.shader_validate_fst (s : Shader) (w : World) :
    (Shader.validate s w).1 = w.driver.compileStatus w.gl s.id := by
  unfold Shader.validate
  simp only []
  split_ifs <;> simp_all

@[simp] theorem Shader.shader_validate_gl (s : Shader) (w : World) :
    (Shader.validate s w).2.gl = w.gl ++ Shader.validateQueries w.driver w.gl s.id := by
  unfold Shader.validate Shader.validateQueries
  simp only []
  split_ifs <;> simp_all [glCall, lmLog, GFX_DEBUG_BREAK]

@[simp] theorem Shader.shader_validate_driver (s : Shader) (w : World) :
    (Shader.validate s w).2.driver = w.driver := by
  unfold Shader.validate
  simp only []
  split_ifs <;> rfl

@[simp] theorem Shader.shader_validate_programs (s : Shader) (w : World) :
    (Shader.validate s w).2.programs = w.programs := by
  unfold Shader.validate
  simp only []
  split_ifs <;> rfl

@[simp] theorem Shader.shader_validate_shaders (s : Shader) (w : World) :
    (Shader.validate s w).2.shaders = w.shaders := by
  unfold Shader.validate
  simp only []
  split_ifs <;> rfl

@[simp] theorem Shader.shader_validate_liveShaders (s : Shader) (w : World) :
    (Shader.validate s w).2.liveShaders = w.liveShaders := by
  unfold Shader.validate
  simp only []
  split_ifs <;> rfl

@[simp] theorem Shader.shader_validate_lastBoundShader (s : Shader) (w : World) :
    (Shader.validate s w).2.lastBoundShader = w.lastBoundShader := by
  unfold Shader.validate
  simp only []
  split_ifs <;> rfl

@[simp] theorem Shader.shader_validate_nextShader (s : Shader) (w : World) :
    (Shader.validate s w).2.nextShader = w.nextShader := by
  unfold Shader.validate
  simp only []
  split_ifs <;> rfl

@[simp] theorem Shader.shader_validate_assets (s : Shader) (w : World) :
    (Shader.validate s w).2.assets = w.assets := by
  unfold Shader.validate
  simp only []
  split_ifs <;> rfl

@[simp] theorem Shader.shader_validate_subscriptions (s : Shader) (w : World) :
    (Shader.validate s w).2.subscriptions = w.subscriptions := by
  unfold Shader.validate
  simp only []
  split_ifs <;> rfl

@[simp] theorem deref_validateProgram (sp : lmSptr) (p : ShaderProgram) (w : World) :
    deref sp (ShaderProgram.validate p w).2 = deref sp w := by
  cases sp <;> simp [deref]

/-! ## Linking -/

theorem ShaderProgram.program_validate_eq (p : ShaderProgram) (w : World) :
    ShaderProgram.validate p w =
      (w.driver.linkStatus w.gl p.programId, (ShaderProgram.validate p w).2) := by
  rw [← ShaderProgram.program_validate_fst]

theorem Shader.shader_validate_eq (s : Shader) (w : World) :
    Shader.validate s w = (w.driver.compileStatus w.gl s.id, (Shader.validate s w).2) := by
  rw [← Shader.shader_validate_fst]

/-- What `link()` does on an unlinked program with two attached shaders. -/
theorem ShaderProgram.link_spec (w : World) (this : ProgramPtr) (p : ShaderProgram)
    (fs vs : Shader) (hp : w.programs this = some p) (h0 : p.programId = 0)
    (hfs : deref p.fragmentShader w = some fs) (hvs : deref p.vertexShader w = some vs) :
    ∃ w2, ShaderProgram.link this w = .ok () w2 ∧ World.frame w w2 ∧
      (∀ o, o ≠ this → w2.programs o = w.programs o) ∧
      (w.driver.linkStatus (w.gl ++ ShaderProgram.linkCalls (w.driver.createProgram w.gl) fs vs)
          (w.driver.createProgram w.gl) = false →
        w2.programs this = some p ∧
        w2.gl = ShaderProgram.linkTrace w.driver w.gl fs vs ++
          [.glDeleteProgram (w.driver.createProgram w.gl)]) ∧
      (w.driver.linkStatus (w.gl ++ ShaderProgram.linkCalls (w.driver.createProgram w.gl) fs vs)
          (w.driver.createProgram w.gl) = true →
        w2.programs this = some
          { p with
            programId := w.driver.createProgram w.gl
            fragmentShaderId := fs.id
            vertexShaderId := vs.id
            posAttribLoc := ShaderProgram.answerPosition w.driver
              (ShaderProgram.linkTrace w.driver w.gl fs vs) (w.driver.createProgram w.gl)
            posColorLoc := ShaderProgram.answerColor w.driver
              (ShaderProgram.linkTrace w.driver w.gl fs vs) (w.driver.createProgram w.gl)
            posTexCoordLoc := ShaderProgram.answerTexCoord w.driver
              (ShaderProgram.linkTrace w.driver w.gl fs vs) (w.driver.createProgram w.gl) } ∧
        w2.gl = ShaderProgram.linkTrace w.driver w.gl fs vs ++
          ShaderProgram.attribCalls w.driver (ShaderProgram.linkTrace w.driver w.gl fs vs)
            (w.driver.createProgram w.gl)) := by
  have h0b : (p.programId == 0) = true := by simp [h0]
  have hpp : ({ p with programId := 0 } : ShaderProgram) = p := by
    cases p; simp_all
  unfold ShaderProgram.link
  simp only [hp, lmAssert, h0b, if_true, deref_setProgram, deref_glCall, hfs, hvs]
  rw [ShaderProgram.program_validate_eq]
  cases hst : w.driver.linkStatus (w.gl ++ ShaderProgram.linkCalls (w.driver.createProgram w.gl) fs vs)
      (w.driver.createProgram w.gl)
  · simp [ShaderProgram.linkCalls] at hst
    simp [hst, hpp]
    refine ⟨?_, ?_, ?_⟩
    · simp [World.frame, setProgram, glCall]
    · intro o ho
      simp [setProgram, Function.update_noteq ho, glCall]
    · simp [ShaderProgram.linkTrace, ShaderProgram.linkCalls, setProgram, glCall]
  · simp [ShaderProgram.linkCalls] at hst
    simp [hst]
    refine ⟨?_, ?_, ?_, ?_⟩
    · simp [World.frame, setProgram, glCall]
    · intro o ho
      simp [setProgram, Function.update_noteq ho, glCall]
    · simp [ShaderProgram.linkTrace, ShaderProgram.linkCalls, ShaderProgram.answerPosition,
        ShaderProgram.answerColor, ShaderProgram.answerTexCoord, setProgram, glCall]
    · simp [ShaderProgram.linkTrace, ShaderProgram.linkCalls, ShaderProgram.attribCalls,
        ShaderProgram.answerPosition, ShaderProgram.answerColor, ShaderProgram.answerTexCoord,
        setProgram, glCall]

/-! ## Compiling -/

/-- What `Shader::load` does on an uncompiled shader and a non-null source text. -/
theorem Shader.load_spec (w : World) (this : ShaderPtr) (c : ShaderCell) (text : String)
    (hc : w.shaders this = some c) (h0 : c.obj.id = 0) :
    ∃ w2, Shader.load this (some text) w =
        .ok (Shader.loadStatus w.driver w.gl c.obj.type text) w2 ∧
      World.frameShaders w w2 ∧
      (∀ o, o ≠ this → w2.shaders o = w.shaders o) ∧
      (Shader.loadStatus w.driver w.gl c.obj.type text = false →
        w2.shaders this = some c ∧
        w2.gl = Shader.loadTrace w.driver w.gl c.obj.type text ++
          [.glDeleteShader (w.driver.createShader w.gl c.obj.type)]) ∧
      (Shader.loadStatus w.driver w.gl c.obj.type text = true →
        w2.shaders this =
          some { c with obj := { c.obj with id := w.driver.createShader w.gl c.obj.type } } ∧
        w2.gl = Shader.loadTrace w.driver w.gl c.obj.type text) := by
  have h0b : (c.obj.id == 0) = true := by simp [h0]
  have hcc : ({ c with obj := { c.obj with id := 0 } } : ShaderCell) = c := by
    cases c with
    | mk obj n => cases obj; simp_all
  unfold Shader.load
  simp only [hc, lmAssert, h0b, if_true]
  rw [Shader.shader_validate_eq]
  cases hst : Shader.loadStatus w.driver w.gl c.obj.type text
  · simp [Shader.loadStatus, Shader.loadCalls] at hst
    simp [hst, setShaderId, glCall, hc]
    refine ⟨?_, ?_, ?_, ?_⟩
    · simp [World.frameShaders]
    · intro o ho
      simp [Function.update_noteq ho]
    · exact hcc
    · simp [Shader.loadTrace, Shader.loadCalls]
  · simp [Shader.loadStatus, Shader.loadCalls] at hst
    simp [hst, setShaderId, glCall, hc]
    refine ⟨?_, ?_, ?_⟩
    · simp [World.frameShaders]
    · intro o ho
      simp [Function.update_noteq ho]
    · simp [Shader.loadTrace, Shader.loadCalls]

theorem Shader.shader_validateQueries_created (d : Driver) (tr : List GLCall) (h : GLuint) :
    (Shader.validateQueries d tr h).filterMap GLCall.createdShader = [] := by
  unfold Shader.validateQueries
  split_ifs <;> simp [GLCall.createdShader]

theorem Shader.shader_validateQueries_deleted (d : Driver) (tr : List GLCall) (h : GLuint) :
    (Shader.validateQueries d tr h).filterMap GLCall.deletedShader = [] := by
  unfold Shader.validateQueries
  split_ifs <;> simp [GLCall.deletedShader]

theorem ShaderProgram.program_validateQueries_created (d : Driver) (tr : List GLCall) (h : GLuint) :
    (ShaderProgram.validateQueries d tr h).filterMap GLCall.createdProgram = [] := by
  unfold ShaderProgram.validateQueries
  split_ifs <;> simp [GLCall.createdProgram]

theorem ShaderProgram.program_validateQueries_deleted (d : Driver) (tr : List GLCall) (h : GLuint) :
    (ShaderProgram.validateQueries d tr h).filterMap GLCall.deletedProgram = [] := by
  unfold ShaderProgram.validateQueries
  split_ifs <;> simp [GLCall.deletedProgram]

/-- C6: `Shader::load` on an uncompiled shader (handle 0) with a source text the driver
fails to compile returns `false`, leaves the shader alive with handle 0, and the calls
it made create exactly one shader object and delete exactly that object, once. -/
theorem C6_load_compile_failure (w : World) (this : ShaderPtr) (c : ShaderCell) (text : String)
    (hc : w.shaders this = some c) (h0 : c.obj.id = 0)
    (hfail : Shader.loadStatus w.driver w.gl c.obj.type text = false) :
    ∃ w2 delta, Shader.load this (some text) w = .ok false w2 ∧
      w2.shaders this = some c ∧
      (deref (some this) w2).map (fun s => s.id) = some 0 ∧
      w2.gl = w.gl ++ delta ∧
      delta.filterMap GLCall.createdShader = [w.driver.createShader w.gl c.obj.type] ∧
      delta.filterMap GLCall.deletedShader = [w.driver.createShader w.gl c.obj.type] := by
  obtain ⟨w2, hload, -, -, hf, -⟩ := Shader.load_spec w this c text hc h0
  obtain ⟨hs, hgl⟩ := hf hfail
  rw [hfail] at hload
  refine ⟨w2, Shader.loadCalls c.obj.type (w.driver.createShader w.gl c.obj.type) text ++
    Shader.validateQueries w.driver
      (w.gl ++ Shader.loadCalls c.obj.type (w.driver.createShader w.gl c.obj.type) text)
      (w.driver.createShader w.gl c.obj.type) ++
    [.glDeleteShader (w.driver.createShader w.gl c.obj.type)], hload, hs, ?_, ?_, ?_, ?_⟩
  · simp [deref, hs, h0]
  · rw [hgl]
    simp [Shader.loadTrace]
  · simp [List.filterMap_append, Shader.shader_validateQueries_created, Shader.loadCalls,
      GLCall.createdShader]
  · simp [List.filterMap_append, Shader.shader_validateQueries_deleted, Shader.loadCalls,
      GLCall.deletedShader]

/-- C6 at a concrete input: a new anonymous vertex shader and the text `"invalid"`, which
the example driver refuses to compile. -/
theorem C6_load_compile_failure_witness :
    exampleAnonymous.shaders 0 = some ⟨⟨0, .GL_VERTEX_SHADER, ""⟩, 1⟩ ∧
    Shader.loadStatus exampleAnonymous.driver exampleAnonymous.gl .GL_VERTEX_SHADER "invalid"
      = false ∧
    ∃ w2 delta,
      Shader.load 0 (some "invalid") exampleAnonymous = .ok false w2 ∧
      w2.shaders 0 = some ⟨⟨0, .GL_VERTEX_SHADER, ""⟩, 1⟩ ∧
      (deref (some 0) w2).map (fun s => s.id) = some 0 ∧
      w2.gl = exampleAnonymous.gl ++ delta ∧
      delta.filterMap GLCall.createdShader = [1] ∧
      delta.filterMap GLCall.deletedShader = [1] :=
  ⟨by decide, by decide,
   C6_load_compile_failure exampleAnonymous 0 ⟨⟨0, .GL_VERTEX_SHADER, ""⟩, 1⟩ "invalid"
    (by decide) rfl (by decide)⟩

/-! ## Equality -/

/-- C8: `a == b` holds exactly when the two linked-program handles are equal, `a != b` is
its negation, and two programs constructed at distinct addresses (never linked, both
handles 0) compare equal. -/
theorem C8_equality_by_handle (a b : ShaderProgram) (w : World) (p1 p2 : ProgramPtr)
    (u1 u2 : ShaderProgram) (hne : p1 ≠ p2) :
    (ShaderProgram.operatorEq a b = true ↔ a.programId = b.programId) ∧
    ShaderProgram.operatorNe a b = !ShaderProgram.operatorEq a b ∧
    ∃ x y,
      (ShaderProgram.construct p2 u2 (ShaderProgram.construct p1 u1 w)).programs p1 = some x ∧
      (ShaderProgram.construct p2 u2 (ShaderProgram.construct p1 u1 w)).programs p2 = some y ∧
      x.programId = 0 ∧ y.programId = 0 ∧
      ShaderProgram.operatorEq x y = true ∧ ShaderProgram.operatorNe x y = false := by
  refine ⟨by simp [ShaderProgram.operatorEq], by simp [ShaderProgram.operatorNe,
    ShaderProgram.operatorEq, bne], ?_⟩
  refine ⟨{ u1 with programId := 0, vertexShader := none, fragmentShader := none },
    { u2 with programId := 0, vertexShader := none, fragmentShader := none }, ?_, ?_, rfl, rfl,
    by simp [ShaderProgram.operatorEq], by simp [ShaderProgram.operatorNe]⟩
  · simp [ShaderProgram.construct, setProgram, Function.update_noteq hne]
  · simp [ShaderProgram.construct, setProgram]

/-- C8 at a concrete input: programs constructed at addresses 0 and 1. -/
theorem C8_equality_by_handle_witness :
    (0 : ProgramPtr) ≠ 1 ∧
    (ShaderProgram.operatorEq exampleUninit exampleUninit = true ↔
      exampleUninit.programId = exampleUninit.programId) ∧
    ShaderProgram.operatorNe exampleUninit exampleUninit =
      !ShaderProgram.operatorEq exampleUninit exampleUninit ∧
    ∃ x y,
      (ShaderProgram.construct 1 exampleUninit
        (ShaderProgram.construct 0 exampleUninit
          (World.init (exampleDriver true) exampleAssets))).programs 0 = some x ∧
      (ShaderProgram.construct 1 exampleUninit
        (ShaderProgram.construct 0 exampleUninit
          (World.init (exampleDriver true) exampleAssets))).programs 1 = some y ∧
      x.programId = 0 ∧ y.programId = 0 ∧
      ShaderProgram.operatorEq x y = true ∧ ShaderProgram.operatorNe x y = false :=
  ⟨by decide, C8_equality_by_handle exampleUninit exampleUninit
    (World.init (exampleDriver true) exampleAssets) 0 1 exampleUninit exampleUninit (by decide)⟩

/-! ## Fatal preconditions -/

/-- C9: `Shader::load` on a shader whose handle is nonzero, `ShaderProgram::link` on a
program whose handle is nonzero, and `Shader::addShader` of a name already in the map
each stop on their assertion, and the state at the point of failure is the state before
the call: no driver call has been issued and shader, program and registry are as they
were. -/
theorem C9_fatal_preconditions_first (w1 w2 w3 : World) (s : ShaderPtr) (c : ShaderCell)
    (source : Option String) (this : ProgramPtr) (p : ShaderProgram) (n : String) (sp : lmSptr)
    (hc : w1.shaders s = some c) (hid : c.obj.id ≠ 0)
    (hp : w2.programs this = some p) (hprog : p.programId ≠ 0)
    (hn : lmMap.count w3.liveShaders n ≠ 0) :
    Shader.load s source w1 =
      .fatal (.assertion "Shader already loaded, clean up first") w1 ∧
    ShaderProgram.link this w2 =
      .fatal (.assertion "Shader program already linked, clean up first!") w2 ∧
    Shader.addShader n sp w3 =
      .fatal (.assertion "Shader %s already present in shader list") w3 := by
  refine ⟨?_, ?_, ?_⟩
  · simp [Shader.load, lmAssert, hc, hid]
  · simp [ShaderProgram.link, lmAssert, hp, hprog]
  · simp [Shader.addShader, lmAssert, hn]

/-- C9 at a concrete input: the compiled vertex shader, the linked program and the
registered name `"a.vert"` of the example. -/
theorem C9_fatal_preconditions_first_witness :
    (exampleLinked true).shaders 0 = some ⟨⟨1, .GL_VERTEX_SHADER, "a.vert"⟩, 1⟩ ∧
    (1 : GLuint) ≠ 0 ∧
    (exampleLinked true).programs 0 = some ⟨11, some 0, some 1, 6, 1, 0, 1, 2, 0⟩ ∧
    (11 : GLuint) ≠ 0 ∧
    lmMap.count (exampleLinked true).liveShaders "a.vert" ≠ 0 ∧
    Shader.load 0 (some "x") (exampleLinked true) =
      .fatal (.assertion "Shader already loaded, clean up first") (exampleLinked true) ∧
    ShaderProgram.link 0 (exampleLinked true) =
      .fatal (.assertion "Shader program already linked, clean up first!")
        (exampleLinked true) ∧
    Shader.addShader "a.vert" (some 0) (exampleLinked true) =
      .fatal (.assertion "Shader %s already present in shader list") (exampleLinked true) :=
  ⟨by decide, by decide, by decide, by decide, by decide,
   C9_fatal_preconditions_first (exampleLinked true) (exampleLinked true) (exampleLinked true)
     0 ⟨⟨1, .GL_VERTEX_SHADER, "a.vert"⟩, 1⟩ (some "x") 0 ⟨11, some 0, some 1, 6, 1, 0, 1, 2, 0⟩
     "a.vert" (some 0) (by decide) (by decide) (by decide) (by decide) (by decide)⟩

/-! ## The two outcomes of `link()` -/

/-- C10: on an unlinked program (handle 0) with two attached shaders `link()` returns,
and exactly one of two things has happened.  Either the driver reported the link as
failed: then the program object the call created has been deleted, the handle is 0 and
the cached attribute locations and last-known shader handles are what they were.  Or it
reported success: then the handle is the program object the call created, the last-known
shader handles are the current handles of the two shaders, and the cached locations are
the answers of the driver for `a_position`, `a_color0` and `a_texcoord0`. -/
theorem C10_link_two_outcomes (w : World) (this : ProgramPtr) (p : ShaderProgram)
    (fs vs : Shader) (hp : w.programs this = some p) (h0 : p.programId = 0)
    (hfs : deref p.fragmentShader w = some fs) (hvs : deref p.vertexShader w = some vs) :
    ∃ w2 q delta, ShaderProgram.link this w = .ok () w2 ∧
      w2.programs this = some q ∧ w2.gl = w.gl ++ delta ∧
      delta.filterMap GLCall.createdProgram = [w.driver.createProgram w.gl] ∧
      deref q.fragmentShader w2 = some fs ∧ deref q.vertexShader w2 = some vs ∧
      ((w.driver.linkStatus
            (w.gl ++ ShaderProgram.linkCalls (w.driver.createProgram w.gl) fs vs)
            (w.driver.createProgram w.gl) = false ∧
          delta.filterMap GLCall.deletedProgram = [w.driver.createProgram w.gl] ∧
          q.programId = 0 ∧
          q.posAttribLoc = p.posAttribLoc ∧ q.posColorLoc = p.posColorLoc ∧
          q.posTexCoordLoc = p.posTexCoordLoc ∧
          q.fragmentShaderId = p.fragmentShaderId ∧ q.vertexShaderId = p.vertexShaderId) ∨
        (w.driver.linkStatus
            (w.gl ++ ShaderProgram.linkCalls (w.driver.createProgram w.gl) fs vs)
            (w.driver.createProgram w.gl) = true ∧
          delta.filterMap GLCall.deletedProgram = [] ∧
          q.programId = w.driver.createProgram w.gl ∧
          q.fragmentShaderId = fs.id ∧ q.vertexShaderId = vs.id ∧
          q.posAttribLoc = ShaderProgram.answerPosition w.driver
            (ShaderProgram.linkTrace w.driver w.gl fs vs) (w.driver.createProgram w.gl) ∧
          q.posColorLoc = ShaderProgram.answerColor w.driver
            (ShaderProgram.linkTrace w.driver w.gl fs vs) (w.driver.createProgram w.gl) ∧
          q.posTexCoordLoc = ShaderProgram.answerTexCoord w.driver
            (ShaderProgram.linkTrace w.driver w.gl fs vs) (w.driver.createProgram w.gl) ∧
          delta = ShaderProgram.linkCalls (w.driver.createProgram w.gl) fs vs ++
            ShaderProgram.validateQueries w.driver
              (w.gl ++ ShaderProgram.linkCalls (w.driver.createProgram w.gl) fs vs)
              (w.driver.createProgram w.gl) ++
            ShaderProgram.attribCalls w.driver (ShaderProgram.linkTrace w.driver w.gl fs vs)
              (w.driver.createProgram w.gl))) := by
  obtain ⟨w2, hlink, hframe, -, hfalse, htrue⟩ :=
    ShaderProgram.link_spec w this p fs vs hp h0 hfs hvs
  have hsh : w2.shaders = w.shaders := hframe.2.1
  have hderef : ∀ sp, deref sp w2 = deref sp w := by
    intro sp
    cases sp <;> simp [deref, hsh]
  cases hst : w.driver.linkStatus
      (w.gl ++ ShaderProgram.linkCalls (w.driver.createProgram w.gl) fs vs)
      (w.driver.createProgram w.gl)
  · obtain ⟨hq, hgl⟩ := hfalse hst
    refine ⟨w2, p, ShaderProgram.linkCalls (w.driver.createProgram w.gl) fs vs ++
      ShaderProgram.validateQueries w.driver
        (w.gl ++ ShaderProgram.linkCalls (w.driver.createProgram w.gl) fs vs)
        (w.driver.createProgram w.gl) ++ [.glDeleteProgram (w.driver.createProgram w.gl)],
      hlink, hq, ?_, ?_, ?_, ?_, Or.inl ⟨rfl, ?_, h0, rfl, rfl, rfl, rfl, rfl⟩⟩
    · rw [hgl]; simp [ShaderProgram.linkTrace]
    · simp [List.filterMap_append, ShaderProgram.program_validateQueries_created,
        ShaderProgram.linkCalls, GLCall.createdProgram]
    · rw [hderef]; exact hfs
    · rw [hderef]; exact hvs
    · simp [List.filterMap_append, ShaderProgram.program_validateQueries_deleted,
        ShaderProgram.linkCalls, GLCall.deletedProgram]
  · obtain ⟨hq, hgl⟩ := htrue hst
    refine ⟨w2, _, ShaderProgram.linkCalls (w.driver.createProgram w.gl) fs vs ++
      ShaderProgram.validateQueries w.driver
        (w.gl ++ ShaderProgram.linkCalls (w.driver.createProgram w.gl) fs vs)
        (w.driver.createProgram w.gl) ++
      ShaderProgram.attribCalls w.driver (ShaderProgram.linkTrace w.driver w.gl fs vs)
        (w.driver.createProgram w.gl),
      hlink, hq, ?_, ?_, ?_, ?_, Or.inr ⟨rfl, ?_, rfl, rfl, rfl, rfl, rfl, rfl, rfl⟩⟩
    · rw [hgl]; simp [ShaderProgram.linkTrace]
    · simp [List.filterMap_append, ShaderProgram.program_validateQueries_created,
        ShaderProgram.linkCalls, ShaderProgram.attribCalls, GLCall.createdProgram]
    · rw [hderef]; exact hfs
    · rw [hderef]; exact hvs
    · simp [List.filterMap_append, ShaderProgram.program_validateQueries_deleted,
        ShaderProgram.linkCalls, ShaderProgram.attribCalls, GLCall.deletedProgram]

/-- C10 at a concrete input: the unlinked program of `exampleAttached` with its compiled
vertex and fragment shader. -/
theorem C10_link_two_outcomes_witness :
    (exampleAttached true).programs 0 = some exampleProgram ∧
    exampleProgram.programId = 0 ∧
    deref exampleProgram.fragmentShader (exampleAttached true) = some exampleFragment ∧
    deref exampleProgram.vertexShader (exampleAttached true) = some exampleVertex ∧
    ∃ w2 q delta, ShaderProgram.link 0 (exampleAttached true) = .ok () w2 ∧
      w2.programs 0 = some q ∧ w2.gl = (exampleAttached true).gl ++ delta ∧
      delta.filterMap GLCall.createdProgram = [(exampleAttached true).driver.createProgram (exampleAttached true).gl] ∧
      deref q.fragmentShader w2 = some exampleFragment ∧ deref q.vertexShader w2 = some exampleVertex ∧
      (((exampleAttached true).driver.linkStatus
            ((exampleAttached true).gl ++ ShaderProgram.linkCalls ((exampleAttached true).driver.createProgram (exampleAttached true).gl) exampleFragment exampleVertex)
            ((exampleAttached true).driver.createProgram (exampleAttached true).gl) = false ∧
          delta.filterMap GLCall.deletedProgram = [(exampleAttached true).driver.createProgram (exampleAttached true).gl] ∧
          q.programId = 0 ∧
          q.posAttribLoc = exampleProgram.posAttribLoc ∧ q.posColorLoc = exampleProgram.posColorLoc ∧
          q.posTexCoordLoc = exampleProgram.posTexCoordLoc ∧
          q.fragmentShaderId = exampleProgram.fragmentShaderId ∧ q.vertexShaderId = exampleProgram.vertexShaderId) ∨
        ((exampleAttached true).driver.linkStatus
            ((exampleAttached true).gl ++ ShaderProgram.linkCalls ((exampleAttached true).driver.createProgram (exampleAttached true).gl) exampleFragment exampleVertex)
            ((exampleAttached true).driver.createProgram (exampleAttached true).gl) = true ∧
          delta.filterMap GLCall.deletedProgram = [] ∧
          q.programId = (exampleAttached true).driver.createProgram (exampleAttached true).gl ∧
          q.fragmentShaderId = exampleFragment.id ∧ q.vertexShaderId = exampleVertex.id ∧
          q.posAttribLoc = ShaderProgram.answerPosition (exampleAttached true).driver
            (ShaderProgram.linkTrace (exampleAttached true).driver (exampleAttached true).gl exampleFragment exampleVertex) ((exampleAttached true).driver.createProgram (exampleAttached true).gl) ∧
          q.posColorLoc = ShaderProgram.answerColor (exampleAttached true).driver
            (ShaderProgram.linkTrace (exampleAttached true).driver (exampleAttached true).gl exampleFragment exampleVertex) ((exampleAttached true).driver.createProgram (exampleAttached true).gl) ∧
          q.posTexCoordLoc = ShaderProgram.answerTexCoord (exampleAttached true).driver
            (ShaderProgram.linkTrace (exampleAttached true).driver (exampleAttached true).gl exampleFragment exampleVertex) ((exampleAttached true).driver.createProgram (exampleAttached true).gl) ∧
          delta = ShaderProgram.linkCalls ((exampleAttached true).driver.createProgram (exampleAttached true).gl) exampleFragment exampleVertex ++
            ShaderProgram.validateQueries (exampleAttached true).driver
              ((exampleAttached true).gl ++ ShaderProgram.linkCalls ((exampleAttached true).driver.createProgram (exampleAttached true).gl) exampleFragment exampleVertex)
              ((exampleAttached true).driver.createProgram (exampleAttached true).gl) ++
            ShaderProgram.attribCalls (exampleAttached true).driver (ShaderProgram.linkTrace (exampleAttached true).driver (exampleAttached true).gl exampleFragment exampleVertex)
              ((exampleAttached true).driver.createProgram (exampleAttached true).gl))) :=
  ⟨by decide, by decide, by decide, by decide,
   C10_link_two_outcomes (exampleAttached true) 0 exampleProgram exampleFragment exampleVertex
     (by decide) (by decide) (by decide) (by decide)⟩

/-! ## Uniform setters -/

/-- Every setter other than `setUniform1fv` and `setUniform1iv` stops on its first
assertion when another program (or none) is bound, and the state at the point of
failure is the state before the call: nothing has been submitted to the driver. -/
theorem setter_not_bound_is_fatal (this : ProgramPtr) (c : UniformCall) (w : World)
    (h1 : ∀ l vs, c ≠ .setUniform1fv l vs) (h2 : ∀ l vs, c ≠ .setUniform1iv l vs)
    (hb : w.lastBoundShader ≠ some this) :
    c.run this w = .fatal (.assertion notBound) w := by
  have hb2 : ¬ (some this = w.lastBoundShader) := fun h => hb h.symm
  cases c <;>
    simp [UniformCall.run, ShaderProgram.setUniform1f, ShaderProgram.setUniform2f,
      ShaderProgram.setUniform3f, ShaderProgram.setUniform1i, ShaderProgram.setUniform2i,
      ShaderProgram.setUniform3i, ShaderProgram.setUniform2fv, ShaderProgram.setUniform3fv,
      ShaderProgram.setUniform2iv, ShaderProgram.setUniform3iv,
      ShaderProgram.setUniformMatrix3f, ShaderProgram.setUniformMatrix3fv,
      ShaderProgram.setUniformMatrix4f, ShaderProgram.setUniformMatrix4fv, lmAssert, hb2]
  · exact absurd rfl (h1 _ _)
  · exact absurd rfl (h2 _ _)

/-- The bound check of every setter passes on the bound program: the call does not stop
on the `lastBoundShader` assertion. -/
theorem setter_bound_check_passes (this : ProgramPtr) (c : UniformCall) (w : World)
    (hb : w.lastBoundShader = some this) :
    c.run this w ≠ .fatal (.assertion notBound) w := by
  cases c <;>
    simp [UniformCall.run, ShaderProgram.setUniform1f, ShaderProgram.setUniform2f,
      ShaderProgram.setUniform3f, ShaderProgram.setUniform1i, ShaderProgram.setUniform2i,
      ShaderProgram.setUniform3i, ShaderProgram.setUniform1fv, ShaderProgram.setUniform1iv,
      ShaderProgram.setUniform2fv, ShaderProgram.setUniform3fv,
      ShaderProgram.setUniform2iv, ShaderProgram.setUniform3iv,
      ShaderProgram.setUniformMatrix3f, ShaderProgram.setUniformMatrix3fv,
      ShaderProgram.setUniformMatrix4f, ShaderProgram.setUniformMatrix4fv, lmAssert, hb] <;>
    split_ifs <;> simp [notBound]

/-- C3, the code at the failing input: with the program at address 1 bound,
`setUniform1fv` and `setUniform1iv` on the program at address 0 return and submit
`glUniform1fv` / `glUniform1iv` to the driver, while the sibling `setUniform2fv` stops on
the bound-program assertion with nothing submitted. -/
theorem C3_setUniform1fv_1iv_skip_bound_check :
    exampleTwoPrograms.lastBoundShader = some 1 ∧
    exampleTwoPrograms.lastBoundShader ≠ some 0 ∧
    UniformCall.run 0 (.setUniform1fv 5 [⟨1065353216⟩]) exampleTwoPrograms =
      .ok () (glCall (.glUniform1fv 5 1 [⟨1065353216⟩]) exampleTwoPrograms) ∧
    UniformCall.run 0 (.setUniform1iv 5 [7]) exampleTwoPrograms =
      .ok () (glCall (.glUniform1iv 5 1 [7]) exampleTwoPrograms) ∧
    UniformCall.run 0 (.setUniform2fv 5 [⟨0⟩, ⟨1065353216⟩]) exampleTwoPrograms =
      .fatal (.assertion notBound) exampleTwoPrograms := by
  refine ⟨by decide, by decide, rfl, rfl, ?_⟩
  exact setter_not_bound_is_fatal 0 _ _ (by simp) (by simp) (by decide)

/-- The element count each vector setter hands to the driver is the length of the input
vector (`values.size()`), whatever the component count. -/
theorem vector_setter_count_is_length (this : ProgramPtr) (l : GLint) (fv : List GLfloat)
    (iv : List GLint) (w : World) (hb : w.lastBoundShader = some this) :
    (fv.length % 2 = 0 → ShaderProgram.setUniform2fv this l fv w =
      .ok () (glCall (.glUniform2fv l fv.length fv) w)) ∧
    (fv.length % 3 = 0 → ShaderProgram.setUniform3fv this l fv w =
      .ok () (glCall (.glUniform3fv l fv.length fv) w)) ∧
    (iv.length % 2 = 0 → ShaderProgram.setUniform2iv this l iv w =
      .ok () (glCall (.glUniform2iv l iv.length iv) w)) ∧
    (iv.length % 3 = 0 → ShaderProgram.setUniform3iv this l iv w =
      .ok () (glCall (.glUniform3iv l iv.length iv) w)) ∧
    (fv.length % 2 ≠ 0 → ShaderProgram.setUniform2fv this l fv w =
      .fatal (.assertion "values size must be a multiple of 2") w) ∧
    (fv.length % 3 ≠ 0 → ShaderProgram.setUniform3fv this l fv w =
      .fatal (.assertion "values size must be a multiple of 3") w) ∧
    (iv.length % 2 ≠ 0 → ShaderProgram.setUniform2iv this l iv w =
      .fatal (.assertion "values size must be a multiple of 2") w) ∧
    (iv.length % 3 ≠ 0 → ShaderProgram.setUniform3iv this l iv w =
      .fatal (.assertion "values size must be a multiple of 3") w) := by
  refine ⟨?_, ?_, ?_, ?_, ?_, ?_, ?_, ?_⟩ <;> intro h <;>
    simp [ShaderProgram.setUniform2fv, ShaderProgram.setUniform3fv, ShaderProgram.setUniform2iv,
      ShaderProgram.setUniform3iv, lmAssert, hb, h]

/-- C4, the code at the failing input: on the bound program, `setUniform2fv` with four
floats and `setUniform3iv` with six integers pass 4 and 6 as the element count of
`glUniform2fv` / `glUniform3iv`, not 4 / 2 and 6 / 3; a length that is not a multiple of
the component count stops on the assertion with nothing submitted. -/
theorem C4_vector_setter_passes_length_as_count :
    exampleTwoPrograms.lastBoundShader = some 1 ∧
    ShaderProgram.setUniform2fv 1 5 [⟨0⟩, ⟨1⟩, ⟨2⟩, ⟨3⟩] exampleTwoPrograms =
      .ok () (glCall (.glUniform2fv 5 4 [⟨0⟩, ⟨1⟩, ⟨2⟩, ⟨3⟩]) exampleTwoPrograms) ∧
    ShaderProgram.setUniform3iv 1 5 [1, 2, 3, 4, 5, 6] exampleTwoPrograms =
      .ok () (glCall (.glUniform3iv 5 6 [1, 2, 3, 4, 5, 6]) exampleTwoPrograms) ∧
    (4 : Nat) ≠ 4 / 2 ∧ (6 : Nat) ≠ 6 / 3 ∧
    ShaderProgram.setUniform2fv 1 5 [⟨0⟩, ⟨1⟩, ⟨2⟩] exampleTwoPrograms =
      .fatal (.assertion "values size must be a multiple of 2") exampleTwoPrograms := by
  have hb : exampleTwoPrograms.lastBoundShader = some 1 := by decide
  refine ⟨hb, ?_, ?_, by decide, by decide, ?_⟩
  · exact (vector_setter_count_is_length 1 5 [⟨0⟩, ⟨1⟩, ⟨2⟩, ⟨3⟩] [] _ hb).1 (by decide)
  · exact (vector_setter_count_is_length 1 5 [] [1, 2, 3, 4, 5, 6] _ hb).2.2.2.1 (by decide)
  · exact (vector_setter_count_is_length 1 5 [⟨0⟩, ⟨1⟩, ⟨2⟩] [] _ hb).2.2.2.2.1 (by decide)

/-! ## Binding -/

theorem deref_of_shaders_eq (sp : lmSptr) (w w2 : World) (h : w2.shaders = w.shaders) :
    deref sp w2 = deref sp w := by
  cases sp <;> simp [deref, h]

theorem ShaderProgram.stale_of_shaders_eq (p : ShaderProgram) (w w2 : World)
    (h : w2.shaders = w.shaders) : ShaderProgram.stale p w2 = ShaderProgram.stale p w := by
  simp [ShaderProgram.stale, deref_of_shaders_eq _ w w2 h]

theorem ShaderProgram.activate_gl (p : ShaderProgram) (w : World) :
    (ShaderProgram.activate p w).gl = w.gl ++ ShaderProgram.activateCalls p := by
  unfold ShaderProgram.activate ShaderProgram.activateCalls onBindDelegateInvoke
  simp only []
  split_ifs <;> simp [glCall]

theorem ShaderProgram.activate_frame (p : ShaderProgram) (w : World) :
    World.frame w (ShaderProgram.activate p w) ∧
    (ShaderProgram.activate p w).programs = w.programs := by
  unfold ShaderProgram.activate World.frame onBindDelegateInvoke
  simp only []
  split_ifs <;> simp [glCall]

theorem ShaderProgram.activateCalls_head (p : ShaderProgram) :
    (ShaderProgram.activateCalls p).head? = some (.glUseProgram p.programId) := by
  simp [ShaderProgram.activateCalls]

theorem ShaderProgram.activateCalls_no_link (p : ShaderProgram) :
    (ShaderProgram.activateCalls p).filter GLCall.isLinkProgram = [] := by
  unfold ShaderProgram.activateCalls
  split_ifs <;> simp [GLCall.isLinkProgram]

theorem ShaderProgram.program_validateQueries_no_link (d : Driver) (tr : List GLCall)
    (h : GLuint) :
    (ShaderProgram.validateQueries d tr h).filter GLCall.isLinkProgram = [] ∧
    (ShaderProgram.validateQueries d tr h).filter GLCall.isUseProgram = [] := by
  unfold ShaderProgram.validateQueries
  split_ifs <;> simp [GLCall.isLinkProgram, GLCall.isUseProgram]

/-- `bind()` on a program whose last-known shader handles are the current ones: the
program is made current and activated as it is. -/
theorem ShaderProgram.bind_fresh_spec (w : World) (this : ProgramPtr) (p : ShaderProgram)
    (fs vs : Shader) (hp : w.programs this = some p)
    (hfs : deref p.fragmentShader w = some fs) (hvs : deref p.vertexShader w = some vs)
    (hf : p.fragmentShaderId = fs.id) (hv : p.vertexShaderId = vs.id) :
    ∃ w2, ShaderProgram.bind this w = .ok () w2 ∧
      w2.gl = w.gl ++ ShaderProgram.activateCalls p ∧
      w2.programs = w.programs ∧ w2.shaders = w.shaders ∧
      w2.lastBoundShader = some this ∧ w2.driver = w.driver ∧
      w2.liveShaders = w.liveShaders ∧ w2.nextShader = w.nextShader ∧
      w2.assets = w.assets := by
  have hst : ∀ w1 : World, w1.shaders = w.shaders → ShaderProgram.stale p w1 = some false := by
    intro w1 h1
    rw [ShaderProgram.stale_of_shaders_eq p w w1 h1]
    simp [ShaderProgram.stale, hfs, hvs, hf, hv]
  unfold ShaderProgram.bind
  simp only [hp]
  rw [hst _ (by split_ifs <;> rfl)]
  refine ⟨_, rfl, ?_, ?_, ?_, ?_, ?_, ?_, ?_, ?_⟩
  · rw [ShaderProgram.activate_gl]
    split_ifs <;> rfl
  · rw [(ShaderProgram.activate_frame _ _).2]
    split_ifs <;> rfl
  · rw [(ShaderProgram.activate_frame _ _).1.2.1]
    split_ifs <;> rfl
  · rw [(ShaderProgram.activate_frame _ _).1.2.2.2.1]
  · rw [(ShaderProgram.activate_frame _ _).1.1]
    split_ifs <;> rfl
  · rw [(ShaderProgram.activate_frame _ _).1.2.2.1]
    split_ifs <;> rfl
  · rw [(ShaderProgram.activate_frame _ _).1.2.2.2.2.1]
    split_ifs <;> rfl
  · rw [(ShaderProgram.activate_frame _ _).1.2.2.2.2.2.1]
    split_ifs <;> rfl

/-- `bind()` on a program one of whose last-known shader handles is not the current one:
the old program object is taken apart and `link()` runs on the unlinked program. -/
theorem ShaderProgram.bind_stale_eq (w : World) (this : ProgramPtr) (p : ShaderProgram)
    (fs vs : Shader) (hp : w.programs this = some p)
    (hfs : deref p.fragmentShader w = some fs) (hvs : deref p.vertexShader w = some vs)
    (hstale : p.fragmentShaderId ≠ fs.id ∨ p.vertexShaderId ≠ vs.id) :
    ∃ w0 : World, w0.gl = w.gl ++ ShaderProgram.unlinkCalls p ∧
      w0.programs this = some { p with programId := 0 } ∧
      (∀ o, o ≠ this → w0.programs o = w.programs o) ∧
      w0.shaders = w.shaders ∧ w0.driver = w.driver ∧ w0.lastBoundShader = some this ∧
      w0.liveShaders = w.liveShaders ∧ w0.nextShader = w.nextShader ∧ w0.assets = w.assets ∧
      ShaderProgram.bind this w =
        (ShaderProgram.link this w0).andThen fun _ w4 =>
          match w4.programs this with
          | none => .fatal .invalidPointer w4
          | some q => .ok () (ShaderProgram.activate q w4) := by
  have hst : ∀ w1 : World, w1.shaders = w.shaders → ShaderProgram.stale p w1 = some true := by
    intro w1 h1
    rw [ShaderProgram.stale_of_shaders_eq p w w1 h1]
    simp only [ShaderProgram.stale, hfs, hvs]
    by_cases hf : p.fragmentShaderId = fs.id
    · have hv : p.vertexShaderId ≠ vs.id := by
        rcases hstale with h | h
        · exact absurd hf h
        · exact h
      simp [hf, hv]
    · simp [hf]
  unfold ShaderProgram.bind
  simp only [hp]
  rw [hst _ (by split_ifs <;> rfl)]
  refine ⟨_, ?_, ?_, ?_, ?_, ?_, ?_, ?_, ?_, ?_, rfl⟩
  · simp only [gl_setProgram, gl_glCall, ShaderProgram.unlinkCalls]
    split_ifs <;> simp [lmLog]
  · simp
  · intro o ho
    rw [programs_setProgram_other _ _ _ _ ho]
    simp only [programs_glCall]
    split_ifs <;> rfl
  · simp only [setProgram, glCall]
    split_ifs <;> rfl
  · simp only [setProgram, glCall]
    split_ifs <;> rfl
  · simp only [setProgram, glCall]
  · simp only [setProgram, glCall]
    split_ifs <;> rfl
  · simp only [setProgram, glCall]
    split_ifs <;> rfl
  · simp only [setProgram, glCall]
    split_ifs <;> rfl

/-- C5 (amended): when one of the attached shaders has a compiled handle that differs
from the last-known one, `bind()` returns after exactly one `glLinkProgram`, issued
before the `glUseProgram` that activates the program; and if that re-link succeeded, the
last-known handles are the current ones and `bind()` in any later state with the same
program members and shader handles issues the activation calls only, with no
re-link. -/
theorem C5_bind_relinks_once (w : World) (this : ProgramPtr) (p : ShaderProgram)
    (fs vs : Shader) (hp : w.programs this = some p)
    (hfs : deref p.fragmentShader w = some fs) (hvs : deref p.vertexShader w = some vs)
    (hstale : p.fragmentShaderId ≠ fs.id ∨ p.vertexShaderId ≠ vs.id) :
    ∃ w2 q pre, ShaderProgram.bind this w = .ok () w2 ∧ w2.programs this = some q ∧
      w2.shaders = w.shaders ∧
      w2.gl = w.gl ++ pre ++ ShaderProgram.activateCalls q ∧
      (pre.filter GLCall.isLinkProgram).length = 1 ∧
      pre.filter GLCall.isUseProgram = [] ∧
      (ShaderProgram.activateCalls q).head? = some (.glUseProgram q.programId) ∧
      (ShaderProgram.activateCalls q).filter GLCall.isLinkProgram = [] ∧
      (w.driver.linkStatus
          (w.gl ++ ShaderProgram.unlinkCalls p ++
            ShaderProgram.linkCalls
              (w.driver.createProgram (w.gl ++ ShaderProgram.unlinkCalls p)) fs vs)
          (w.driver.createProgram (w.gl ++ ShaderProgram.unlinkCalls p)) = true →
        q.fragmentShaderId = fs.id ∧ q.vertexShaderId = vs.id ∧
        ∀ w3 : World, w3.programs this = some q →
          deref q.fragmentShader w3 = some fs → deref q.vertexShader w3 = some vs →
          ∃ w4, ShaderProgram.bind this w3 = .ok () w4 ∧
            w4.gl = w3.gl ++ ShaderProgram.activateCalls q ∧
            w4.programs = w3.programs ∧ w4.shaders = w3.shaders) := by
  obtain ⟨w0, hgl0, hp0, -, hsh0, hdrv0, -, -, -, -, hbind⟩ :=
    ShaderProgram.bind_stale_eq w this p fs vs hp hfs hvs hstale
  have hfs0 : deref ({ p with programId := 0 } : ShaderProgram).fragmentShader w0 = some fs := by
    rw [deref_of_shaders_eq _ w w0 hsh0]; exact hfs
  have hvs0 : deref ({ p with programId := 0 } : ShaderProgram).vertexShader w0 = some vs := by
    rw [deref_of_shaders_eq _ w w0 hsh0]; exact hvs
  obtain ⟨wl, hlink, hframe, -, hfalse, htrue⟩ :=
    ShaderProgram.link_spec w0 this { p with programId := 0 } fs vs hp0 rfl hfs0 hvs0
  rw [hdrv0, hgl0] at hfalse htrue
  rw [hlink] at hbind
  simp only [Outcome.andThen] at hbind
  have hshl : wl.shaders = w.shaders := hframe.2.1.trans hsh0
  cases hst : w.driver.linkStatus
      (w.gl ++ ShaderProgram.unlinkCalls p ++
        ShaderProgram.linkCalls
          (w.driver.createProgram (w.gl ++ ShaderProgram.unlinkCalls p)) fs vs)
      (w.driver.createProgram (w.gl ++ ShaderProgram.unlinkCalls p))
  · obtain ⟨hq, hgl⟩ := hfalse hst
    rw [hq] at hbind
    simp only at hbind
    refine ⟨_, { p with programId := 0 },
      ShaderProgram.unlinkCalls p ++
        ShaderProgram.linkCalls
          (w.driver.createProgram (w.gl ++ ShaderProgram.unlinkCalls p)) fs vs ++
        ShaderProgram.validateQueries w.driver
          (w.gl ++ ShaderProgram.unlinkCalls p ++
            ShaderProgram.linkCalls
              (w.driver.createProgram (w.gl ++ ShaderProgram.unlinkCalls p)) fs vs)
          (w.driver.createProgram (w.gl ++ ShaderProgram.unlinkCalls p)) ++
        [.glDeleteProgram (w.driver.createProgram (w.gl ++ ShaderProgram.unlinkCalls p))],
      hbind, ?_, ?_, ?_, ?_, ?_, ShaderProgram.activateCalls_head _,
      ShaderProgram.activateCalls_no_link _, ?_⟩
    · rw [(ShaderProgram.activate_frame _ _).2]; exact hq
    · rw [(ShaderProgram.activate_frame _ _).1.2.1]; exact hshl
    · rw [ShaderProgram.activate_gl, hgl]
      simp [ShaderProgram.linkTrace]
    · simp [List.filter_append, (ShaderProgram.program_validateQueries_no_link _ _ _).1,
        ShaderProgram.unlinkCalls, ShaderProgram.linkCalls, GLCall.isLinkProgram]
    · simp [List.filter_append, (ShaderProgram.program_validateQueries_no_link _ _ _).2,
        ShaderProgram.unlinkCalls, ShaderProgram.linkCalls, GLCall.isUseProgram]
    · intro hc
      exact absurd hc (by simp)
  · obtain ⟨hq0, hgl⟩ := htrue hst
    obtain ⟨q, hq, hqf, hqv⟩ : ∃ q, wl.programs this = some q ∧
        q.fragmentShaderId = fs.id ∧ q.vertexShaderId = vs.id := ⟨_, hq0, rfl, rfl⟩
    rw [hq] at hbind
    simp only at hbind
    refine ⟨_, q,
      ShaderProgram.unlinkCalls p ++
        ShaderProgram.linkCalls
          (w.driver.createProgram (w.gl ++ ShaderProgram.unlinkCalls p)) fs vs ++
        ShaderProgram.validateQueries w.driver
          (w.gl ++ ShaderProgram.unlinkCalls p ++
            ShaderProgram.linkCalls
              (w.driver.createProgram (w.gl ++ ShaderProgram.unlinkCalls p)) fs vs)
          (w.driver.createProgram (w.gl ++ ShaderProgram.unlinkCalls p)) ++
        ShaderProgram.attribCalls w.driver
          (ShaderProgram.linkTrace w.driver (w.gl ++ ShaderProgram.unlinkCalls p) fs vs)
          (w.driver.createProgram (w.gl ++ ShaderProgram.unlinkCalls p)),
      hbind, ?_, ?_, ?_, ?_, ?_, ShaderProgram.activateCalls_head _,
      ShaderProgram.activateCalls_no_link _, ?_⟩
    · rw [(ShaderProgram.activate_frame _ _).2]; exact hq
    · rw [(ShaderProgram.activate_frame _ _).1.2.1]; exact hshl
    · rw [ShaderProgram.activate_gl, hgl]
      simp [ShaderProgram.linkTrace]
    · simp [List.filter_append, (ShaderProgram.program_validateQueries_no_link _ _ _).1,
        ShaderProgram.unlinkCalls, ShaderProgram.linkCalls, ShaderProgram.attribCalls,
        GLCall.isLinkProgram]
    · simp [List.filter_append, (ShaderProgram.program_validateQueries_no_link _ _ _).2,
        ShaderProgram.unlinkCalls, ShaderProgram.linkCalls, ShaderProgram.attribCalls,
        GLCall.isUseProgram]
    · intro _
      refine ⟨hqf, hqv, ?_⟩
      intro w3 hp3 hfs3 hvs3
      obtain ⟨w4, hb, hg, hpr, hsh, -⟩ :=
        ShaderProgram.bind_fresh_spec w3 this q fs vs hp3 hfs3 hvs3 hqf hqv
      exact ⟨w4, hb, hg, hpr, hsh⟩

/-- C5 (amended) at a concrete input: the linked example program after its fragment
shader has been reloaded with a text that compiles and links. -/
theorem C5_bind_relinks_once_witness :
    exampleReloadedGood.programs 0 = some exampleLinkedProgram ∧
    deref exampleLinkedProgram.fragmentShader exampleReloadedGood
      = some exampleReloadedFragment ∧
    deref exampleLinkedProgram.vertexShader exampleReloadedGood = some exampleVertex ∧
    (exampleLinkedProgram.fragmentShaderId ≠ exampleReloadedFragment.id ∨
      exampleLinkedProgram.vertexShaderId ≠ exampleVertex.id) ∧
    ∃ w2 q pre, ShaderProgram.bind 0 exampleReloadedGood = .ok () w2 ∧ w2.programs 0 = some q ∧
      w2.shaders = exampleReloadedGood.shaders ∧
      w2.gl = exampleReloadedGood.gl ++ pre ++ ShaderProgram.activateCalls q ∧
      (pre.filter GLCall.isLinkProgram).length = 1 ∧
      pre.filter GLCall.isUseProgram = [] ∧
      (ShaderProgram.activateCalls q).head? = some (.glUseProgram q.programId) ∧
      (ShaderProgram.activateCalls q).filter GLCall.isLinkProgram = [] ∧
      (exampleReloadedGood.driver.linkStatus
          (exampleReloadedGood.gl ++ ShaderProgram.unlinkCalls exampleLinkedProgram ++
            ShaderProgram.linkCalls
              (exampleReloadedGood.driver.createProgram (exampleReloadedGood.gl ++ ShaderProgram.unlinkCalls exampleLinkedProgram)) exampleReloadedFragment exampleVertex)
          (exampleReloadedGood.driver.createProgram (exampleReloadedGood.gl ++ ShaderProgram.unlinkCalls exampleLinkedProgram)) = true →
        q.fragmentShaderId = exampleReloadedFragment.id ∧ q.vertexShaderId = exampleVertex.id ∧
        ∀ w3 : World, w3.programs 0 = some q →
          deref q.fragmentShader w3 = some exampleReloadedFragment → deref q.vertexShader w3 = some exampleVertex →
          ∃ w4, ShaderProgram.bind 0 w3 = .ok () w4 ∧
            w4.gl = w3.gl ++ ShaderProgram.activateCalls q ∧
            w4.programs = w3.programs ∧ w4.shaders = w3.shaders) :=
  ⟨by decide, by decide, by decide, by decide,
   C5_bind_relinks_once exampleReloadedGood 0 exampleLinkedProgram exampleReloadedFragment
     exampleVertex (by decide) (by decide) (by decide) (by decide)⟩

/-- C5 as stated fails: the example program whose fragment shader was reloaded with a
text that compiles (new handle 21, last-known handle 6) but does not link.  The first
`bind()` re-links once and the link fails; the second `bind()`, with no reload in
between (both shader objects are as they were), issues `glLinkProgram` again. -/
theorem C5_failed_relink_is_repeated :
    (exampleReloaded.programs 0).map (fun q => q.fragmentShaderId) = some 6 ∧
    (deref (some 1) exampleReloaded).map (fun s => s.id) = some 21 ∧
    (ShaderProgram.bind 0 exampleReloaded).returned = true ∧
    (((ShaderProgram.bind 0 exampleReloaded).world.gl.drop exampleReloaded.gl.length).filter
      GLCall.isLinkProgram).length = 1 ∧
    (ShaderProgram.bind 0 exampleReloaded).world.shaders 0 = exampleReloaded.shaders 0 ∧
    (ShaderProgram.bind 0 exampleReloaded).world.shaders 1 = exampleReloaded.shaders 1 ∧
    (ShaderProgram.bind 0 (ShaderProgram.bind 0 exampleReloaded).world).returned = true ∧
    (((ShaderProgram.bind 0 (ShaderProgram.bind 0 exampleReloaded).world).world.gl.drop
        (ShaderProgram.bind 0 exampleReloaded).world.gl.length).filter
      GLCall.isLinkProgram).length = 1 := by
  decide

/-! ## The linked-program handle -/

theorem Outcome.andThen_eq_ok {α β : Type} (r : Outcome α) (k : α → World → Outcome β)
    (b : β) (w2 : World) :
    r.andThen k = .ok b w2 ↔ ∃ a w1, r = .ok a w1 ∧ k a w1 = .ok b w2 := by
  cases r with
  | ok a w1 =>
    simp only [Outcome.andThen]
    constructor
    · intro h
      exact ⟨a, w1, rfl, h⟩
    · rintro ⟨a2, w3, heq, h⟩
      injection heq with ha hw
      subst ha hw
      exact h
  | fatal f w1 => simp [Outcome.andThen]

/-- A `link()` that returns ran on an unlinked program with two attached shaders. -/
theorem ShaderProgram.link_ok_pre (w w2 : World) (this : ProgramPtr)
    (h : ShaderProgram.link this w = .ok () w2) :
    ∃ p fs vs, w.programs this = some p ∧ p.programId = 0 ∧
      deref p.fragmentShader w = some fs ∧ deref p.vertexShader w = some vs := by
  unfold ShaderProgram.link at h
  cases hp : w.programs this with
  | none => simp [hp] at h
  | some p =>
    simp only [hp] at h
    by_cases h0 : p.programId = 0
    · have h0b : (p.programId == 0) = true := by simp [h0]
      simp only [lmAssert, h0b, if_true, deref_setProgram, deref_glCall] at h
      cases hfs : deref p.fragmentShader w with
      | none => simp [hfs] at h
      | some fs =>
        cases hvs : deref p.vertexShader w with
        | none => simp [hfs, hvs] at h
        | some vs => exact ⟨p, fs, vs, rfl, h0, hfs, hvs⟩
    · have h0b : (p.programId == 0) = false := by simp [h0]
      simp [lmAssert, h0b] at h

/-- After a `link()` that returns, the handle is nonzero exactly when the driver reported
the link as successful for a program object with a nonzero name. -/
theorem ShaderProgram.link_ok_handle (w w2 : World) (this : ProgramPtr)
    (h : ShaderProgram.link this w = .ok () w2) :
    ∃ p fs vs q, w.programs this = some p ∧ p.programId = 0 ∧
      deref p.fragmentShader w = some fs ∧ deref p.vertexShader w = some vs ∧
      w2.programs this = some q ∧
      (q.programId ≠ 0 ↔
        (w.driver.linkStatus
            (w.gl ++ ShaderProgram.linkCalls (w.driver.createProgram w.gl) fs vs)
            (w.driver.createProgram w.gl) = true ∧
          w.driver.createProgram w.gl ≠ 0)) := by
  obtain ⟨p, fs, vs, hp, h0, hfs, hvs⟩ := ShaderProgram.link_ok_pre w w2 this h
  obtain ⟨w3, hlink, -, -, hfalse, htrue⟩ := ShaderProgram.link_spec w this p fs vs hp h0 hfs hvs
  rw [hlink] at h
  injection h with _ hw
  subst hw
  cases hst : w.driver.linkStatus
      (w.gl ++ ShaderProgram.linkCalls (w.driver.createProgram w.gl) fs vs)
      (w.driver.createProgram w.gl)
  · exact ⟨p, fs, vs, p, hp, h0, hfs, hvs, (hfalse hst).1, by simp [h0, hst]⟩
  · exact ⟨p, fs, vs, _, hp, h0, hfs, hvs, (htrue hst).1, by simp [hst]⟩

/-- A `bind()` that returns either left the program object as it was, or re-linked it:
then the program object is the one a `link()` that returned left behind. -/
theorem ShaderProgram.bind_ok_programs (w w2 : World) (this : ProgramPtr)
    (h : ShaderProgram.bind this w = .ok () w2) :
    w2.programs this = w.programs this ∨
    ∃ w1 wl, ShaderProgram.link this w1 = .ok () wl ∧ w2.programs this = wl.programs this := by
  unfold ShaderProgram.bind at h
  cases hp : w.programs this with
  | none => simp [hp] at h
  | some p =>
    simp only [hp] at h
    split at h
    · simp at h
    · rw [Outcome.andThen_eq_ok] at h
      obtain ⟨a, wl, hlink, hk⟩ := h
      cases hq : wl.programs this with
      | none => simp [hq] at hk
      | some q =>
        simp only [hq] at hk
        injection hk with _ hw
        subst hw
        exact Or.inr ⟨_, wl, hlink, by rw [(ShaderProgram.activate_frame _ _).2]⟩
    · injection h with _ hw
      subst hw
      left
      rw [(ShaderProgram.activate_frame _ _).2]
      simp only []
      split_ifs <;> simp [hp, lmLog]

theorem driver_setShaderId (this : ShaderPtr) (id : GLuint) (w : World) :
    (setShaderId this id w).driver = w.driver := by
  unfold setShaderId
  cases w.shaders this <;> rfl

theorem Shader.destroy_driver (this : ShaderPtr) (s : Shader) (w : World) :
    (Shader.destroy this s w).driver = w.driver := by
  unfold Shader.destroy Shader.removeShader
  simp only
  split_ifs <;> rfl

theorem release_driver (sp : lmSptr) (w : World) : (release sp w).driver = w.driver := by
  cases sp with
  | none => rfl
  | some p =>
    cases hc : w.shaders p with
    | none => simp only [release, hc]
    | some c =>
      simp only [release, hc]
      split_ifs
      · exact Shader.destroy_driver _ _ _
      · rfl

theorem retain_driver (sp : lmSptr) (w : World) : (retain sp w).driver = w.driver := by
  cases sp with
  | none => rfl
  | some p =>
    cases hc : w.shaders p with
    | none => simp only [retain, hc]
    | some c => simp only [retain, hc]

theorem Shader.getShader_driver (name : String) (w : World) :
    (Shader.getShader name w).2.driver = w.driver := by
  unfold Shader.getShader
  simp only
  split_ifs
  · rfl
  · exact retain_driver _ _
  · rfl

theorem Shader.load_driver (this : ShaderPtr) (src : Option String) (w : World) :
    (Shader.load this src w).world.driver = w.driver := by
  cases hc : w.shaders this with
  | none => simp only [Shader.load, hc, Outcome.world]
  | some c =>
    simp only [Shader.load, hc, lmAssert]
    by_cases h0 : (c.obj.id == 0) = true
    · simp only [h0, if_true]
      cases src with
      | none => simp only [Outcome.world, driver_setShaderId, driver_glCall]
      | some text =>
        simp only
        have hv := Shader.shader_validate_driver
          { c.obj with id := w.driver.createShader w.gl c.obj.type }
          (glCall (.glCompileShader (w.driver.createShader w.gl c.obj.type))
            (glCall (.glShaderSource (w.driver.createShader w.gl c.obj.type) text)
              (setShaderId this (w.driver.createShader w.gl c.obj.type)
                (glCall (.glCreateShader c.obj.type (w.driver.createShader w.gl c.obj.type)) w))))
        rcases hval : Shader.validate
          { c.obj with id := w.driver.createShader w.gl c.obj.type }
          (glCall (.glCompileShader (w.driver.createShader w.gl c.obj.type))
            (glCall (.glShaderSource (w.driver.createShader w.gl c.obj.type) text)
              (setShaderId this (w.driver.createShader w.gl c.obj.type)
                (glCall (.glCreateShader c.obj.type (w.driver.createShader w.gl c.obj.type)) w))))
          with ⟨b, w3⟩
        rw [hval] at hv
        simp only [driver_glCall, driver_setShaderId] at hv
        cases b
        · simp only [Outcome.world, driver_setShaderId, driver_glCall]
          exact hv
        · exact hv
    · simp only [h0, Bool.false_eq_true, if_false, Outcome.world]


theorem Outcome.andThen_driver {α β : Type} (r : Outcome α) (k : α → World → Outcome β)
    (d : Driver) (hr : r.world.driver = d)
    (hk : ∀ a w1, (k a w1).world.driver = w1.driver) : (r.andThen k).world.driver = d := by
  cases r with
  | ok a w1 =>
    simp only [Outcome.andThen]
    rw [hk a w1]
    exact hr
  | fatal f w1 => exact hr

theorem Shader.make_driver (name : String) (type : ShaderType) (w : World) :
    (Shader.make name type w).world.driver = w.driver := by
  unfold Shader.make
  simp only
  split_ifs
  · cases hsrc : w.assets name with
    | none =>
      simp only [Shader.getSourceFromAsset, lmLog, hsrc]
      exact Outcome.andThen_driver _ _ _ (Shader.load_driver _ _ _) (fun _ _ => rfl)
    | some text =>
      simp only [Shader.getSourceFromAsset, lmLog, hsrc]
      exact Outcome.andThen_driver _ _ _ (Shader.load_driver _ _ _) (fun _ _ => rfl)
  · rfl

theorem Shader.addShader_driver (name : String) (sp : lmSptr) (w : World) :
    (Shader.addShader name sp w).world.driver = w.driver := by
  unfold Shader.addShader lmAssert
  split_ifs <;> rfl

theorem ShaderProgram.assignShader_driver (this : ProgramPtr) (slot : ShaderType) (sp : lmSptr)
    (w : World) : (ShaderProgram.assignShader this slot sp w).world.driver = w.driver := by
  unfold ShaderProgram.assignShader
  cases w.programs this with
  | none => rfl
  | some p =>
    simp only [Outcome.world]
    rw [release_driver]
    rfl

theorem ShaderProgram.resolveShader_driver (this : ProgramPtr) (slot : ShaderType)
    (path : String) (w : World) :
    (ShaderProgram.resolveShader this slot path w).world.driver = w.driver := by
  unfold ShaderProgram.resolveShader
  simp only
  apply Outcome.andThen_driver
  · rw [ShaderProgram.assignShader_driver, Shader.getShader_driver]
  · intro _ w2
    split_ifs
    · apply Outcome.andThen_driver
      · exact Shader.make_driver _ _ _
      · intro s w3
        apply Outcome.andThen_driver
        · exact ShaderProgram.assignShader_driver _ _ _ _
        · intro _ w4
          exact Shader.addShader_driver _ _ _
    · rfl

theorem ProgramOp.linkState_driver (this : ProgramPtr) (op : ProgramOp) (w w1 : World)
    (h : ProgramOp.linkState this op w = some w1) : w1.driver = w.driver := by
  cases op with
  | link =>
    simp only [ProgramOp.linkState, Option.some.injEq] at h
    rw [← h]
  | load vss fss =>
    simp only [ProgramOp.linkState] at h
    split at h
    · rename_i u w6 heq
      injection h with h
      subst h
      have := Outcome.andThen_driver (Shader.make "" .GL_VERTEX_SHADER w) (fun vs w1 =>
       (ShaderProgram.assignShader this .GL_VERTEX_SHADER (some vs) w1).andThen fun _ w2 =>
       (Shader.load vs vss w2).andThen fun _ w3 =>
       (Shader.make "" .GL_FRAGMENT_SHADER w3).andThen fun fs w4 =>
       (ShaderProgram.assignShader this .GL_FRAGMENT_SHADER (some fs) w4).andThen fun _ w5 =>
       (Shader.load fs fss w5).andThen fun _ w6 => Outcome.ok () w6) w.driver
        (Shader.make_driver _ _ _) (by
          intro vs w1
          apply Outcome.andThen_driver _ _ _ (ShaderProgram.assignShader_driver _ _ _ _)
          intro _ w2
          apply Outcome.andThen_driver _ _ _ (Shader.load_driver _ _ _)
          intro _ w3
          apply Outcome.andThen_driver _ _ _ (Shader.make_driver _ _ _)
          intro fs w4
          apply Outcome.andThen_driver _ _ _ (ShaderProgram.assignShader_driver _ _ _ _)
          intro _ w5
          apply Outcome.andThen_driver _ _ _ (Shader.load_driver _ _ _)
          intro _ w6
          rfl)
      rw [heq] at this
      exact this
    · exact absurd h (by simp)
  | loadFromAssets v f =>
    simp only [ProgramOp.linkState] at h
    split at h
    · rename_i u w6 heq
      injection h with h
      subst h
      have := Outcome.andThen_driver
        (ShaderProgram.resolveShader this .GL_VERTEX_SHADER v w)
        (fun _ w1 => ShaderProgram.resolveShader this .GL_FRAGMENT_SHADER f w1) w.driver
        (ShaderProgram.resolveShader_driver _ _ _ _)
        (fun _ w1 => ShaderProgram.resolveShader_driver _ _ _ _)
      rw [heq] at this
      exact this
    · exact absurd h (by simp)
  | bind =>
    simp only [ProgramOp.linkState] at h
    cases hp : w.programs this with
    | none => simp [hp] at h
    | some p =>
      simp only [hp] at h
      split at h
      · injection h with h
        subst h
        simp only [driver_setProgram, driver_glCall]
        split_ifs <;> rfl
      · exact absurd h (by simp)

/-- C7 (amended): a constructed program has handle 0; and after `link()`, `load`,
`loadFromAssets` or `bind()` has returned, either the operation did not get to a `link()`
(`linkState` is `none`): then it is a `bind()` that found the cached shader handles up to
date, and the program object is as it was before the call; or the operation called
`link()` in the state `linkState` gives, under the driver of the run, on an unlinked
program with two attached shaders: then that `link()` returned, the operation ends in the
state it left (for `bind()`, after activating the program), and the handle is nonzero
exactly when the driver answered the status query of that link with success for a program
object with a nonzero name.  Whether the attached shaders compiled plays no part. -/
theorem C7_handle_nonzero_iff_link_succeeded (w w2 : World) (this : ProgramPtr)
    (op : ProgramOp) (uninit : ShaderProgram) (h : op.run this w = .ok () w2) :
    ((ShaderProgram.construct this uninit w).programs this).map (fun q => q.programId)
      = some 0 ∧
    (ProgramOp.linkState this op w = none →
      op = .bind ∧ w2.programs this = w.programs this) ∧
    (∀ w1, ProgramOp.linkState this op w = some w1 →
      w1.driver = w.driver ∧
      ∃ wl p fs vs q, ShaderProgram.link this w1 = .ok () wl ∧
        (op ≠ .bind → w2 = wl) ∧ (op = .bind → w2 = ShaderProgram.activate q wl) ∧
        w1.programs this = some p ∧ p.programId = 0 ∧
        deref p.fragmentShader w1 = some fs ∧ deref p.vertexShader w1 = some vs ∧
        wl.programs this = some q ∧ w2.programs this = some q ∧
        (q.programId ≠ 0 ↔
          (w.driver.linkStatus
              (w1.gl ++ ShaderProgram.linkCalls (w.driver.createProgram w1.gl) fs vs)
              (w.driver.createProgram w1.gl) = true ∧
            w.driver.createProgram w1.gl ≠ 0))) := by
  refine ⟨by simp [ShaderProgram.construct], ?_⟩
  have key : ∀ w1 : World, ProgramOp.linkState this op w = some w1 →
      ∀ wl : World, ShaderProgram.link this w1 = .ok () wl →
      (op ≠ .bind → w2 = wl) →
      (op = .bind → ∀ q, wl.programs this = some q → w2 = ShaderProgram.activate q wl) →
      w1.driver = w.driver ∧
      ∃ wl p fs vs q, ShaderProgram.link this w1 = .ok () wl ∧
        (op ≠ .bind → w2 = wl) ∧ (op = .bind → w2 = ShaderProgram.activate q wl) ∧
        w1.programs this = some p ∧ p.programId = 0 ∧
        deref p.fragmentShader w1 = some fs ∧ deref p.vertexShader w1 = some vs ∧
        wl.programs this = some q ∧ w2.programs this = some q ∧
        (q.programId ≠ 0 ↔
          (w.driver.linkStatus
              (w1.gl ++ ShaderProgram.linkCalls (w.driver.createProgram w1.gl) fs vs)
              (w.driver.createProgram w1.gl) = true ∧
            w.driver.createProgram w1.gl ≠ 0)) := by
    intro w1 hstate wl hlink hplain hbind
    have hd := ProgramOp.linkState_driver this op w w1 hstate
    obtain ⟨p, fs, vs, q, hp, h0, hfs, hvs, hq, hiff⟩ :=
      ShaderProgram.link_ok_handle w1 wl this hlink
    rw [hd] at hiff
    refine ⟨hd, wl, p, fs, vs, q, hlink, hplain, fun hb => hbind hb q hq, hp, h0, hfs, hvs,
      hq, ?_, hiff⟩
    by_cases hb : op = .bind
    · rw [hbind hb q hq, (ShaderProgram.activate_frame _ _).2]
      exact hq
    · rw [hplain hb]
      exact hq
  cases op with
  | link =>
    refine ⟨fun hn => absurd hn (by simp [ProgramOp.linkState]), ?_⟩
    intro w1 hstate
    have hw1 : w1 = w := by
      simp only [ProgramOp.linkState, Option.some.injEq] at hstate
      exact hstate.symm
    subst hw1
    exact key w1 hstate w2 h (fun _ => rfl) (fun hb => absurd hb (by simp))
  | load vss fss =>
    simp only [ProgramOp.run, ShaderProgram.load, Outcome.andThen_eq_ok] at h
    obtain ⟨vs, wa, h1, _, wb, h2, _, wc, h3, fs, wd, h4, _, we, h5, _, w6, h6, hlink⟩ := h
    have hstate : ProgramOp.linkState this (.load vss fss) w = some w6 := by
      simp only [ProgramOp.linkState, h1, h2, h3, h4, h5, h6, Outcome.andThen]
    refine ⟨fun hn => absurd (hstate.symm.trans hn) (by simp), ?_⟩
    intro w1 hstate1
    have hw1 : w1 = w6 := Option.some.inj (hstate1.symm.trans hstate)
    subst hw1
    exact key w1 hstate w2 hlink (fun _ => rfl) (fun hb => absurd hb (by simp))
  | loadFromAssets v f =>
    simp only [ProgramOp.run, ShaderProgram.loadFromAssets, Outcome.andThen_eq_ok] at h
    obtain ⟨_, wa, h1, _, w6, h2, hlink⟩ := h
    have hstate : ProgramOp.linkState this (.loadFromAssets v f) w = some w6 := by
      simp only [ProgramOp.linkState, h1, h2, Outcome.andThen]
    refine ⟨fun hn => absurd (hstate.symm.trans hn) (by simp), ?_⟩
    intro w1 hstate1
    have hw1 : w1 = w6 := Option.some.inj (hstate1.symm.trans hstate)
    subst hw1
    exact key w1 hstate w2 hlink (fun _ => rfl) (fun hb => absurd hb (by simp))
  | bind =>
    simp only [ProgramOp.run] at h
    unfold ShaderProgram.bind at h
    cases hp : w.programs this with
    | none => simp [hp] at h
    | some p =>
      simp only [hp] at h
      split at h
      · simp at h
      · rename_i hstale
        rw [Outcome.andThen_eq_ok] at h
        obtain ⟨_, wl, hlink, hk⟩ := h
        have hstate : ProgramOp.linkState this .bind w = some
            (setProgram this { p with programId := 0 }
              (glCall (.glDeleteProgram p.programId)
                (glCall (.glDetachShader p.programId p.vertexShaderId)
                  (glCall (.glDetachShader p.programId p.fragmentShaderId)
                    { (if p.programId == 0 then
                        lmLog .error "Binding an uninitalized shader!" w else w) with
                      lastBoundShader := some this })))) := by
          simp only [ProgramOp.linkState, hp, hstale]
        refine ⟨fun hn => absurd (hstate.symm.trans hn) (by simp), ?_⟩
        intro w1 hstate1
        have hw1 := Option.some.inj (hstate1.symm.trans hstate)
        subst hw1
        refine key _ hstate1 wl hlink (fun hb => absurd rfl hb) ?_
        intro _ q hq
        simp only [hq] at hk
        injection hk with _ hw
        exact hw.symm
      · rename_i hstale
        injection h with _ hw
        subst hw
        have hstate : ProgramOp.linkState this .bind w = none := by
          simp only [ProgramOp.linkState, hp, hstale]
        refine ⟨fun _ => ⟨rfl, ?_⟩, fun w1 h1 => absurd (hstate.symm.trans h1) (by simp)⟩
        rw [(ShaderProgram.activate_frame _ _).2]
        simp only []
        split_ifs <;> simp [hp, lmLog]

/-- C7 (amended) at a concrete input: `load` on the fresh example program, which gets as
far as its `link()`. -/
theorem C7_handle_nonzero_iff_link_succeeded_witness :
    ProgramOp.run 0 (.load (some "invalid") (some "varying vec4 v_color0;")) (exampleFresh true)
      = .ok () exampleBadVertex ∧
    (ProgramOp.linkState 0 (.load (some "invalid") (some "varying vec4 v_color0;"))
      (exampleFresh true)).isSome = true ∧
    ((ShaderProgram.construct 0 exampleUninit (exampleFresh true)).programs 0).map
      (fun q => q.programId) = some 0 ∧
    (ProgramOp.linkState 0 (.load (some "invalid") (some "varying vec4 v_color0;"))
        (exampleFresh true) = none →
      ProgramOp.load (some "invalid") (some "varying vec4 v_color0;") = .bind ∧
      exampleBadVertex.programs 0 = (exampleFresh true).programs 0) ∧
    (∀ w1, ProgramOp.linkState 0 (.load (some "invalid") (some "varying vec4 v_color0;"))
        (exampleFresh true) = some w1 →
      w1.driver = (exampleFresh true).driver ∧
      ∃ wl p fs vs q, ShaderProgram.link 0 w1 = .ok () wl ∧
        (ProgramOp.load (some "invalid") (some "varying vec4 v_color0;") ≠ .bind →
          exampleBadVertex = wl) ∧
        (ProgramOp.load (some "invalid") (some "varying vec4 v_color0;") = .bind →
          exampleBadVertex = ShaderProgram.activate q wl) ∧
        w1.programs 0 = some p ∧ p.programId = 0 ∧
        deref p.fragmentShader w1 = some fs ∧ deref p.vertexShader w1 = some vs ∧
        wl.programs 0 = some q ∧ exampleBadVertex.programs 0 = some q ∧
        (q.programId ≠ 0 ↔
          ((exampleFresh true).driver.linkStatus
              (w1.gl ++ ShaderProgram.linkCalls ((exampleFresh true).driver.createProgram w1.gl)
                fs vs)
              ((exampleFresh true).driver.createProgram w1.gl) = true ∧
            (exampleFresh true).driver.createProgram w1.gl ≠ 0))) :=
  ⟨rfl, rfl, C7_handle_nonzero_iff_link_succeeded (exampleFresh true) exampleBadVertex 0
    (.load (some "invalid") (some "varying vec4 v_color0;")) exampleUninit rfl⟩

/-- C7 as stated fails, in two ways.  After `load` on a fresh program with a vertex text
that does not compile, under a driver that reports the link as successful (the trace at
the moment of the status query is the first 15 calls), the linked-program handle is 12
although the attached vertex shader has handle 0.  And without any help from the driver:
the linked example program keeps its handle 11 after the reload callback has run on its
fragment shader with a text that does not compile, so that this shader has handle 0. -/
theorem C7_linked_with_uncompiled_shader :
    (ShaderProgram.load 0 (some "invalid") (some "varying vec4 v_color0;")
      (exampleFresh true)).returned = true ∧
    (exampleBadVertex.programs 0).map (fun q => q.programId) = some 12 ∧
    (exampleBadVertex.programs 0).map (fun q => q.vertexShader) = some (some 0) ∧
    (deref (some 0) exampleBadVertex).map (fun s => s.id) = some 0 ∧
    ¬ ((12 : GLuint) ≠ 0 ↔
      ((deref (some 0) exampleBadVertex).map (fun s => s.id) ≠ some 0 ∧
        (deref (some 1) exampleBadVertex).map (fun s => s.id) ≠ some 0 ∧
        exampleBadVertex.driver.linkStatus (exampleBadVertex.gl.take 15) 12 = true)) ∧
    ((Shader.reload 1 (World.changeAsset "a.frag" "invalid" (exampleLinked true))).world.programs
      0).map (fun q => q.programId) = some 11 ∧
    ((Shader.reload 1 (World.changeAsset "a.frag" "invalid" (exampleLinked true))).world.programs
      0).map (fun q => q.fragmentShader) = some (some 1) ∧
    (deref (some 1)
      (Shader.reload 1 (World.changeAsset "a.frag" "invalid" (exampleLinked true))).world).map
      (fun s => s.id) = some 0 := by
  decide

/-! ## Loading from assets -/

theorem lmMap.index_assign_ne (m : lmMap) (k n : String) (v : lmWptr) (h : n ≠ k) :
    lmMap.index (lmMap.assign m n v) k = lmMap.index m k := by
  have hb : (k == n) = false := by simpa using fun e => h e.symm
  have := lmMap.index_erase m n k
  simp only [lmMap.index, lmMap.assign, List.lookup_cons, hb] at this ⊢
  simpa [h] using this

theorem lmMap.entries_erase_ne (m : lmMap) (k n : String) (h : n ≠ k) :
    lmMap.entries (lmMap.erase m n) k = lmMap.entries m k := by
  unfold lmMap.entries lmMap.erase
  rw [List.filter_filter]
  congr 1
  apply List.filter_congr
  intro e _
  by_cases hk : e.1 = k
  · have : e.1 ≠ n := fun hn => h (hn.symm.trans hk)
    simp [hk, this, h.symm]
  · simp [hk]

theorem lmMap.entries_erase_self (m : lmMap) (k : String) :
    lmMap.entries (lmMap.erase m k) k = 0 := by
  simp [lmMap.entries, lmMap.erase, List.filter_filter]

theorem lmMap.entries_assign_self (m : lmMap) (k : String) (v : lmWptr) :
    lmMap.entries (lmMap.assign m k v) k = 1 := by
  have := lmMap.entries_erase_self m k
  simp only [lmMap.entries, lmMap.assign] at this ⊢
  simp [List.filter_cons, this]

theorem lmMap.entries_assign_ne (m : lmMap) (k n : String) (v : lmWptr) (h : n ≠ k) :
    lmMap.entries (lmMap.assign m n v) k = lmMap.entries m k := by
  have := lmMap.entries_erase_ne m k n h
  simp only [lmMap.entries, lmMap.assign] at this ⊢
  simp [List.filter_cons, h, this]

theorem lmMap.count_ne_zero_of_index (m : lmMap) (k : String) (s : ShaderPtr)
    (h : lmMap.index m k = some s) : lmMap.count m k ≠ 0 := by
  intro hc
  rw [lmMap.count_eq_zero_iff] at hc
  have hl : m.lookup k = none := by
    rw [List.lookup_eq_none_iff]
    intro e he
    simpa using fun h2 => hc e he h2.symm
  simp [lmMap.index, hl] at h

theorem World.keeps_refl (w : World) : World.keeps w w :=
  ⟨rfl, rfl, le_refl _, fun _ c0 h => ⟨c0, h, rfl⟩, fun _ _ h _ => ⟨h, rfl⟩⟩

theorem World.keeps_trans (w w2 w3 : World) (h1 : World.keeps w w2) (h2 : World.keeps w2 w3) :
    World.keeps w w3 := by
  obtain ⟨d1, a1, n1, o1, r1⟩ := h1
  obtain ⟨d2, a2, n2, o2, r2⟩ := h2
  refine ⟨d2.trans d1, a2.trans a1, le_trans n1 n2, ?_, ?_⟩
  · intro o c0 h
    obtain ⟨c1, hc1, e1⟩ := o1 o c0 h
    obtain ⟨c2, hc2, e2⟩ := o2 o c1 hc1
    exact ⟨c2, hc2, e2.trans e1⟩
  · intro k s0 hi ha
    obtain ⟨hi2, he2⟩ := r1 k s0 hi ha
    have ha2 : (w2.shaders s0).isSome = true := by
      cases hs : w.shaders s0 with
      | none => simp [hs] at ha
      | some c0 =>
        obtain ⟨c1, hc1, -⟩ := o1 s0 c0 hs
        simp [hc1]
    obtain ⟨hi3, he3⟩ := r2 k s0 hi2 ha2
    exact ⟨hi3, he3.trans he2⟩

theorem Shader.getShader_live (w : World) (path : String) (s : ShaderPtr) (c : ShaderCell)
    (hi : lmMap.index w.liveShaders path = some s) (hc : w.shaders s = some c) :
    Shader.getShader path w = (some s, retain (some s) w) := by
  have hcount := lmMap.count_ne_zero_of_index _ _ _ hi
  simp [Shader.getShader, hcount, hi, expired, hc]

theorem Shader.getShader_some_inv (w : World) (path : String) (s : ShaderPtr)
    (h : (Shader.getShader path w).1 = some s) :
    lmMap.index w.liveShaders path = some s ∧ ∃ c, w.shaders s = some c := by
  unfold Shader.getShader at h
  by_cases hcount : lmMap.count w.liveShaders path = 0
  · simp [hcount] at h
  · simp only [bne_iff_ne, ne_eq, hcount, not_false_eq_true, if_true] at h
    by_cases he : expired (lmMap.index w.liveShaders path) w = true
    · simp [he] at h
    · simp only [he] at h
      simp only [Bool.false_eq_true, if_false] at h
      refine ⟨h, ?_⟩
      rw [h] at he
      simp only [expired] at he
      cases hs : w.shaders s with
      | none => simp [hs] at he
      | some c => exact ⟨c, rfl⟩

theorem Shader.getShader_none_spec (w : World) (path : String)
    (h : (Shader.getShader path w).1 = none) :
    (Shader.getShader path w).2.shaders = w.shaders ∧
    (Shader.getShader path w).2.programs = w.programs ∧
    (Shader.getShader path w).2.nextShader = w.nextShader ∧
    (Shader.getShader path w).2.gl = w.gl ∧
    (Shader.getShader path w).2.driver = w.driver ∧
    (Shader.getShader path w).2.assets = w.assets ∧
    (Shader.getShader path w).2.lastBoundShader = w.lastBoundShader ∧
    lmMap.count (Shader.getShader path w).2.liveShaders path = 0 ∧
    (∀ k s0, lmMap.index w.liveShaders k = some s0 → (w.shaders s0).isSome = true →
      k ≠ path ∧
      lmMap.index (Shader.getShader path w).2.liveShaders k = some s0 ∧
      lmMap.entries (Shader.getShader path w).2.liveShaders k = lmMap.entries w.liveShaders k) := by
  have hkey : ∀ k s0, lmMap.index w.liveShaders k = some s0 → (w.shaders s0).isSome = true →
      k ≠ path := by
    intro k s0 hi ha hk
    subst hk
    cases hs : w.shaders s0 with
    | none => simp [hs] at ha
    | some c =>
      rw [Shader.getShader_live w k s0 c hi hs] at h
      simp at h
  have hcases : ((Shader.getShader path w).2 = w ∧ lmMap.count w.liveShaders path = 0) ∨
      (Shader.getShader path w).2 = { w with liveShaders := lmMap.erase w.liveShaders path } := by
    unfold Shader.getShader at h ⊢
    by_cases hcount : lmMap.count w.liveShaders path = 0
    · left
      simp [hcount]
    · right
      simp only [bne_iff_ne, ne_eq, hcount, not_false_eq_true, if_true] at h ⊢
      by_cases he : expired (lmMap.index w.liveShaders path) w = true
      · simp [he]
      · simp only [he, Bool.false_eq_true, if_false] at h
        rw [h] at he
        simp [expired] at he
  rcases hcases with ⟨hw, hcount⟩ | hw
  · rw [hw]
    refine ⟨rfl, rfl, rfl, rfl, rfl, rfl, rfl, hcount, ?_⟩
    intro k s0 hi ha
    exact ⟨hkey k s0 hi ha, hi, rfl⟩
  · rw [hw]
    refine ⟨rfl, rfl, rfl, rfl, rfl, rfl, rfl, lmMap.count_erase_self _ _, ?_⟩
    intro k s0 hi ha
    have hne := hkey k s0 hi ha
    refine ⟨hne, ?_, lmMap.entries_erase_ne _ _ _ (Ne.symm hne)⟩
    simp only [lmMap.index_erase]
    simp [Ne.symm hne, hi]


theorem Shader.shader_validateQueries_counts (d : Driver) (tr : List GLCall) (h : GLuint)
    (t : ShaderType) :
    countCreates t (Shader.validateQueries d tr h) = 0 ∧
    countCompiles (Shader.validateQueries d tr h) = 0 := by
  unfold Shader.validateQueries countCreates countCompiles
  split_ifs <;> simp [GLCall.createsKind, GLCall.isCompileShader]

theorem countCreates_append (t : ShaderType) (a b : List GLCall) :
    countCreates t (a ++ b) = countCreates t a + countCreates t b := by
  simp [countCreates, List.filter_append]

theorem countCompiles_append (a b : List GLCall) :
    countCompiles (a ++ b) = countCompiles a + countCompiles b := by
  simp [countCompiles, List.filter_append]

theorem Shader.loadCalls_counts (type t : ShaderType) (h : GLuint) (text : String) :
    countCreates t (Shader.loadCalls type h text) = (if t = type then 1 else 0) ∧
    countCompiles (Shader.loadCalls type h text) = 1 := by
  by_cases ht : t = type
  · subst ht
    simp [Shader.loadCalls, countCreates, countCompiles, GLCall.createsKind,
      GLCall.isCompileShader]
  · have : (type == t) = false := by simpa using fun e => ht e.symm
    simp [Shader.loadCalls, countCreates, countCompiles, GLCall.createsKind,
      GLCall.isCompileShader, ht, this]

/-- What `lmMakeSptr<Shader>(path, slot)` does when the asset store holds a text for
`path`. -/
theorem Shader.make_spec (w : World) (path : String) (slot : ShaderType) (src : String)
    (hasset : w.assets path = some src) :
    ∃ w2 id delta, Shader.make path slot w = .ok w.nextShader w2 ∧
      w2.shaders w.nextShader = some ⟨⟨id, slot, path⟩, 1⟩ ∧
      (∀ o, o ≠ w.nextShader → w2.shaders o = w.shaders o) ∧
      w2.nextShader = w.nextShader + 1 ∧ w2.programs = w.programs ∧
      w2.liveShaders = w.liveShaders ∧ w2.driver = w.driver ∧ w2.assets = w.assets ∧
      w2.lastBoundShader = w.lastBoundShader ∧
      w2.gl = w.gl ++ delta ∧
      (∀ t, countCreates t delta = if t = slot ∧ path.length > 0 then 1 else 0) ∧
      countCompiles delta = if path.length > 0 then 1 else 0 := by
  unfold Shader.make
  by_cases hlen : path.length > 0
  · simp only [hlen, if_true]
    have hsrc : Shader.getSourceFromAsset { id := 0, type := slot, name := path }
        (lmLog .debug "Creating shader %s"
          { w with
            nextShader := w.nextShader + 1
            shaders := Function.update w.shaders w.nextShader
              (some { obj := { id := 0, type := slot, name := path }, useCount := 1 }) }) =
        (some src, lmLog .debug "Creating shader %s"
          { w with
            nextShader := w.nextShader + 1
            shaders := Function.update w.shaders w.nextShader
              (some { obj := { id := 0, type := slot, name := path }, useCount := 1 }) }) := by
      simp [Shader.getSourceFromAsset, lmLog, hasset]
    rw [hsrc]
    simp only []
    obtain ⟨w2, hload, hframe, hothers, hfalse, htrue⟩ :=
      Shader.load_spec
        (loom_asset_subscribe path w.nextShader (lmLog .debug "Creating shader %s"
          { w with
            nextShader := w.nextShader + 1
            shaders := Function.update w.shaders w.nextShader
              (some { obj := { id := 0, type := slot, name := path }, useCount := 1 }) }))
        w.nextShader ⟨⟨0, slot, path⟩, 1⟩ src
        (by simp [loom_asset_subscribe, lmLog]) rfl
    rw [hload]
    obtain ⟨hd, hpr, hlive, hlb, hnext, has, -⟩ := hframe
    have hoth : ∀ o, o ≠ w.nextShader → w2.shaders o = w.shaders o := by
      intro o ho
      rw [hothers o ho]
      simp [loom_asset_subscribe, lmLog, Function.update_noteq ho]
    cases hst : Shader.loadStatus w.driver w.gl slot src
    · have hst2 : Shader.loadStatus
          (loom_asset_subscribe path w.nextShader (lmLog .debug "Creating shader %s"
            { w with
              nextShader := w.nextShader + 1
              shaders := Function.update w.shaders w.nextShader
                (some { obj := { id := 0, type := slot, name := path }, useCount := 1 }) })).driver
          (loom_asset_subscribe path w.nextShader (lmLog .debug "Creating shader %s"
            { w with
              nextShader := w.nextShader + 1
              shaders := Function.update w.shaders w.nextShader
                (some { obj := { id := 0, type := slot, name := path }, useCount := 1 }) })).gl
          slot src = false := hst
      obtain ⟨hs, hgl⟩ := hfalse hst2
      refine ⟨w2, 0, (Shader.loadCalls slot (w.driver.createShader w.gl slot) src ++
          Shader.validateQueries w.driver
            (w.gl ++ Shader.loadCalls slot (w.driver.createShader w.gl slot) src)
            (w.driver.createShader w.gl slot) ++
          [.glDeleteShader (w.driver.createShader w.gl slot)]),
        rfl, hs, hoth, hnext, hpr, hlive, hd, has, hlb, ?_, ?_, ?_⟩
      · rw [hgl]
        simp only [Shader.loadTrace, loom_asset_subscribe, lmLog, List.append_assoc]
      · intro t
        simp only [countCreates_append, (Shader.loadCalls_counts _ _ _ _).1,
          (Shader.shader_validateQueries_counts _ _ _ _).1]
        by_cases ht : t = slot <;> simp [ht, hlen, countCreates, GLCall.createsKind]
      · simp only [countCompiles_append, (Shader.loadCalls_counts slot slot _ _).2,
          (Shader.shader_validateQueries_counts _ _ _ slot).2]
        simp [hlen, countCompiles, GLCall.isCompileShader]
    · have hst2 : Shader.loadStatus
          (loom_asset_subscribe path w.nextShader (lmLog .debug "Creating shader %s"
            { w with
              nextShader := w.nextShader + 1
              shaders := Function.update w.shaders w.nextShader
                (some { obj := { id := 0, type := slot, name := path }, useCount := 1 }) })).driver
          (loom_asset_subscribe path w.nextShader (lmLog .debug "Creating shader %s"
            { w with
              nextShader := w.nextShader + 1
              shaders := Function.update w.shaders w.nextShader
                (some { obj := { id := 0, type := slot, name := path }, useCount := 1 }) })).gl
          slot src = true := hst
      obtain ⟨hs, hgl⟩ := htrue hst2
      refine ⟨w2, w.driver.createShader w.gl slot, (Shader.loadCalls slot (w.driver.createShader w.gl slot) src ++
          Shader.validateQueries w.driver
            (w.gl ++ Shader.loadCalls slot (w.driver.createShader w.gl slot) src)
            (w.driver.createShader w.gl slot)),
        rfl, hs, hoth, hnext, hpr, hlive, hd, has, hlb, ?_, ?_, ?_⟩
      · rw [hgl]
        simp only [Shader.loadTrace, loom_asset_subscribe, lmLog, List.append_assoc]
      · intro t
        simp only [countCreates_append, (Shader.loadCalls_counts _ _ _ _).1,
          (Shader.shader_validateQueries_counts _ _ _ _).1]
        by_cases ht : t = slot <;> simp [ht, hlen]
      · simp only [countCompiles_append, (Shader.loadCalls_counts slot slot _ _).2,
          (Shader.shader_validateQueries_counts _ _ _ slot).2, hlen, if_true]
  · simp only [hlen, if_false]
    refine ⟨_, 0, [], rfl, ?_, ?_, rfl, rfl, rfl, rfl, rfl, rfl, ?_, ?_, ?_⟩
    · simp [lmLog]
    · intro o ho
      simp [lmLog, Function.update_noteq ho]
    · simp [lmLog]
    · intro t
      simp [countCreates, hlen]
    · simp [countCompiles, hlen]


theorem ShaderProgram.assignShader_of_null (w : World) (this : ProgramPtr) (slot : ShaderType)
    (sp : lmSptr) (p : ShaderProgram) (hp : w.programs this = some p)
    (hslot : ShaderProgram.member slot p = none) :
    ShaderProgram.assignShader this slot sp w =
      .ok () (setProgram this (ShaderProgram.setMember slot sp p) w) := by
  simp [ShaderProgram.assignShader, hp, hslot, release]

theorem ShaderProgram.setMember_setMember (slot : ShaderType) (a b : lmSptr)
    (p : ShaderProgram) :
    ShaderProgram.setMember slot a (ShaderProgram.setMember slot b p) =
      ShaderProgram.setMember slot a p := by
  cases slot <;> rfl

theorem ShaderProgram.member_setMember (slot : ShaderType) (a : lmSptr) (p : ShaderProgram) :
    ShaderProgram.member slot (ShaderProgram.setMember slot a p) = a := by
  cases slot <;> rfl

theorem World.alive_lt_of_heapOk (w : World) (h : World.heapOk w) (o : ShaderPtr)
    (c : ShaderCell) (hc : w.shaders o = some c) : o < w.nextShader := by
  by_contra hlt
  have := h o (not_lt.mp hlt)
  rw [this] at hc
  exact absurd hc (by simp)

/-- What one half of `loadFromAssets` does on a program whose member for `slot` is
still null, when the asset store holds a text for `path`. -/
theorem ShaderProgram.resolveShader_spec (w : World) (this : ProgramPtr) (slot : ShaderType)
    (path : String) (p : ShaderProgram) (src : String)
    (hp : w.programs this = some p) (hslot : ShaderProgram.member slot p = none)
    (hasset : w.assets path = some src) (hwf : World.heapOk w) :
    ∃ w2 s c delta, ShaderProgram.resolveShader this slot path w = .ok () w2 ∧
      w2.programs this = some (ShaderProgram.setMember slot (some s) p) ∧
      (∀ o, o ≠ this → w2.programs o = w.programs o) ∧
      w2.shaders s = some c ∧
      World.heapOk w2 ∧ World.keeps w w2 ∧
      lmMap.index w2.liveShaders path = some s ∧
      w2.gl = w.gl ++ delta ∧ w2.lastBoundShader = w.lastBoundShader ∧
      (((Shader.getShader path w).1 = some s ∧ delta = []) ∨
        ((Shader.getShader path w).1 = none ∧ s = w.nextShader ∧
          c.obj.type = slot ∧ c.obj.name = path ∧ c.useCount = 1 ∧
          lmMap.entries w2.liveShaders path = 1 ∧
          (∀ t, countCreates t delta = if t = slot ∧ path.length > 0 then 1 else 0) ∧
          countCompiles delta = if path.length > 0 then 1 else 0)) := by
  unfold ShaderProgram.resolveShader
  cases hfound : (Shader.getShader path w).1 with
  | some s =>
    obtain ⟨hi, c, hc⟩ := Shader.getShader_some_inv w path s hfound
    rw [Shader.getShader_live w path s c hi hc]
    simp only []
    have hp1 : (retain (some s) w).programs this = some p := by
      simp [retain, hc, hp]
    rw [ShaderProgram.assignShader_of_null _ this slot (some s) p hp1 hslot]
    simp only [Outcome.andThen, Option.isNone_some, Bool.false_eq_true, if_false]
    refine ⟨_, s, { c with useCount := c.useCount + 1 }, [], rfl, ?_, ?_, ?_, ?_, ?_, ?_, ?_, ?_,
      Or.inl ⟨rfl, rfl⟩⟩
    · simp
    · intro o ho
      simp [setProgram, Function.update_noteq ho, retain, hc]
    · simp [setProgram, retain, hc]
    · intro q hq
      have hlt := World.alive_lt_of_heapOk w hwf s c hc
      have hq2 : w.nextShader ≤ q := by
        simpa only [setProgram, retain, hc] using hq
      have hne : q ≠ s := Nat.ne_of_gt (Nat.lt_of_lt_of_le hlt hq2)
      simp only [setProgram, retain, hc]
      rw [Function.update_noteq hne]
      exact hwf q hq2
    · refine ⟨by simp [setProgram, retain, hc], by simp [setProgram, retain, hc],
        by simp [setProgram, retain, hc], ?_, ?_⟩
      · intro o c0 ho
        by_cases hos : o = s
        · subst hos
          rw [hc] at ho
          injection ho with ho
          subst ho
          exact ⟨{ c with useCount := c.useCount + 1 }, by simp [setProgram, retain, hc], rfl⟩
        · exact ⟨c0, by simp [setProgram, retain, hc, Function.update_noteq hos, ho], rfl⟩
      · intro k s0 hk _
        simp [setProgram, retain, hc, hk]
    · simp [setProgram, retain, hc, hi]
    · simp [setProgram, retain, hc]
    · simp [setProgram, retain, hc]
  | none =>
    obtain ⟨hsh1, hpr1, hnx1, hgl1, hdr1, has1, hlb1, hcnt1, hreg1⟩ :=
      Shader.getShader_none_spec w path hfound
    rcases hg : Shader.getShader path w with ⟨found, w1⟩
    rw [hg] at hfound hsh1 hpr1 hnx1 hgl1 hdr1 has1 hlb1 hcnt1 hreg1
    simp only at hfound hsh1 hpr1 hnx1 hgl1 hdr1 has1 hlb1 hcnt1 hreg1
    subst hfound
    simp only []
    have hp1 : w1.programs this = some p := by rw [hpr1]; exact hp
    rw [ShaderProgram.assignShader_of_null _ this slot none p hp1 hslot]
    simp only [Outcome.andThen, Option.isNone_none, if_true]
    obtain ⟨w3, id, delta, hmake, hcell, hoth, hnx3, hpr3, hlv3, hdr3, has3, hlb3, hgl3, hcr, hcm⟩ :=
      Shader.make_spec (setProgram this (ShaderProgram.setMember slot none p) w1) path slot src
        (by simp only [setProgram]; rw [has1]; exact hasset)
    rw [hmake]
    simp only []
    have hp3 : w3.programs this = some (ShaderProgram.setMember slot none p) := by
      rw [hpr3]; simp
    rw [ShaderProgram.assignShader_of_null _ this slot _ _ hp3
      (ShaderProgram.member_setMember _ _ _)]
    simp only [ShaderProgram.setMember_setMember]
    have hcnt4 : lmMap.count (setProgram this (ShaderProgram.setMember slot
        (some (setProgram this (ShaderProgram.setMember slot none p) w1).nextShader) p)
          w3).liveShaders path = 0 := by
      simp only [setProgram] at hlv3 ⊢
      rw [hlv3]; exact hcnt1
    simp only [Shader.addShader, lmAssert, hcnt4, beq_self_eq_true, if_true]
    have hn : (setProgram this (ShaderProgram.setMember slot none p) w1).nextShader
        = w.nextShader := by
      simp only [setProgram]; exact hnx1
    rw [hn] at hcell hoth hnx3 ⊢
    have hshw : ∀ o, o ≠ w.nextShader → w3.shaders o = w.shaders o := by
      intro o ho
      rw [hoth o ho]
      simp only [setProgram]
      rw [hsh1]
    refine ⟨_, w.nextShader, _, delta, rfl, ?_, ?_, hcell, ?_, ?_, ?_, ?_, ?_,
      Or.inr ⟨by trivial, rfl, rfl, rfl, rfl, ?_, hcr, hcm⟩⟩
    · simp
    · intro o ho
      simp only [setProgram, Function.update_noteq ho]
      rw [hpr3]
      simp only [setProgram, Function.update_noteq ho]
      rw [hpr1]
    · intro q hq
      simp only [setProgram] at hq ⊢
      rw [hnx3] at hq
      have hne : q ≠ w.nextShader := Nat.ne_of_gt (Nat.lt_of_lt_of_le (Nat.lt_succ_self _) hq)
      rw [hshw q hne]
      exact hwf q (Nat.le_of_succ_le hq)
    · refine ⟨?_, ?_, ?_, ?_, ?_⟩
      · simp only [setProgram]; rw [hdr3]; simp only [setProgram]; exact hdr1
      · simp only [setProgram]; rw [has3]; simp only [setProgram]; exact has1
      · simp only [setProgram]; rw [hnx3]; exact Nat.le_succ _
      · intro o c0 ho
        have hne : o ≠ w.nextShader :=
          Nat.ne_of_lt (World.alive_lt_of_heapOk w hwf o c0 ho)
        exact ⟨c0, by simp only [setProgram]; rw [hshw o hne]; exact ho, rfl⟩
      · intro k s0 hk ha
        obtain ⟨hne, hi1, he1⟩ := hreg1 k s0 hk ha
        simp only [setProgram] at hlv3 ⊢
        rw [hlv3]
        exact ⟨by rw [lmMap.index_assign_ne _ _ _ _ (Ne.symm hne)]; exact hi1,
          by rw [lmMap.entries_assign_ne _ _ _ _ (Ne.symm hne)]; exact he1⟩
    · simp only [setProgram]
      exact lmMap.index_assign_self _ _ _
    · simp only [setProgram] at hgl3 ⊢
      rw [hgl3, hgl1]
    · simp only [setProgram] at hlb3 ⊢
      rw [hlb3, hlb1]
    · simp only [setProgram]
      exact lmMap.entries_assign_self _ _ _

theorem ShaderProgram.program_validateQueries_counts (d : Driver) (tr : List GLCall)
    (h : GLuint) (t : ShaderType) :
    countCreates t (ShaderProgram.validateQueries d tr h) = 0 ∧
    countCompiles (ShaderProgram.validateQueries d tr h) = 0 := by
  unfold ShaderProgram.validateQueries countCreates countCompiles
  split_ifs <;> simp [GLCall.createsKind, GLCall.isCompileShader]

/-- A `link()` on an unlinked program with two attached shaders keeps the attached
shaders, the shader heap and the registry, and creates and compiles no shader. -/
theorem ShaderProgram.link_keeps (w : World) (this : ProgramPtr) (p : ShaderProgram)
    (fs vs : Shader) (hp : w.programs this = some p) (h0 : p.programId = 0)
    (hfs : deref p.fragmentShader w = some fs) (hvs : deref p.vertexShader w = some vs) :
    ∃ w2 q delta, ShaderProgram.link this w = .ok () w2 ∧ World.frame w w2 ∧
      (∀ o, o ≠ this → w2.programs o = w.programs o) ∧
      w2.programs this = some q ∧ q.vertexShader = p.vertexShader ∧
      q.fragmentShader = p.fragmentShader ∧
      w2.gl = w.gl ++ delta ∧ (∀ t, countCreates t delta = 0) ∧ countCompiles delta = 0 := by
  obtain ⟨w2, hlink, hframe, hoth, hfalse, htrue⟩ :=
    ShaderProgram.link_spec w this p fs vs hp h0 hfs hvs
  cases hst : w.driver.linkStatus
      (w.gl ++ ShaderProgram.linkCalls (w.driver.createProgram w.gl) fs vs)
      (w.driver.createProgram w.gl)
  · obtain ⟨hq, hgl⟩ := hfalse hst
    refine ⟨w2, p, ShaderProgram.linkCalls (w.driver.createProgram w.gl) fs vs ++
      ShaderProgram.validateQueries w.driver
        (w.gl ++ ShaderProgram.linkCalls (w.driver.createProgram w.gl) fs vs)
        (w.driver.createProgram w.gl) ++ [.glDeleteProgram (w.driver.createProgram w.gl)],
      hlink, hframe, hoth, hq, rfl, rfl, ?_, ?_, ?_⟩
    · rw [hgl]; simp [ShaderProgram.linkTrace]
    · intro t
      simp only [countCreates_append, (ShaderProgram.program_validateQueries_counts _ _ _ _).1]
      simp [countCreates, ShaderProgram.linkCalls, GLCall.createsKind]
    · simp only [countCompiles_append,
        (ShaderProgram.program_validateQueries_counts _ _ _ .GL_VERTEX_SHADER).2]
      simp [countCompiles, ShaderProgram.linkCalls, GLCall.isCompileShader]
  · obtain ⟨hq, hgl⟩ := htrue hst
    refine ⟨w2, _, ShaderProgram.linkCalls (w.driver.createProgram w.gl) fs vs ++
      ShaderProgram.validateQueries w.driver
        (w.gl ++ ShaderProgram.linkCalls (w.driver.createProgram w.gl) fs vs)
        (w.driver.createProgram w.gl) ++
      ShaderProgram.attribCalls w.driver (ShaderProgram.linkTrace w.driver w.gl fs vs)
        (w.driver.createProgram w.gl),
      hlink, hframe, hoth, hq, rfl, rfl, ?_, ?_, ?_⟩
    · rw [hgl]; simp [ShaderProgram.linkTrace]
    · intro t
      simp only [countCreates_append, (ShaderProgram.program_validateQueries_counts _ _ _ _).1]
      simp [countCreates, ShaderProgram.linkCalls, ShaderProgram.attribCalls,
        GLCall.createsKind]
    · simp only [countCompiles_append,
        (ShaderProgram.program_validateQueries_counts _ _ _ .GL_VERTEX_SHADER).2]
      simp [countCompiles, ShaderProgram.linkCalls, ShaderProgram.attribCalls,
        GLCall.isCompileShader]

theorem World.keeps_of_frame (w w2 : World) (h : World.frame w w2) : World.keeps w w2 := by
  obtain ⟨hd, hs, hl, -, hn, ha, -⟩ := h
  refine ⟨hd, ha, le_of_eq hn.symm, ?_, ?_⟩
  · intro o c0 ho
    exact ⟨c0, by rw [hs]; exact ho, rfl⟩
  · intro k s0 hk _
    rw [hl]
    exact ⟨hk, rfl⟩

theorem World.heapOk_of_frame (w w2 : World) (h : World.frame w w2) (hw : World.heapOk w) :
    World.heapOk w2 := by
  obtain ⟨-, hs, -, -, hn, -, -⟩ := h
  intro q hq
  rw [hs]
  exact hw q (by rw [← hn]; exact hq)


/-- What `loadFromAssets(v, f)` does on a freshly constructed program when the asset
store holds a text for both names. -/
theorem ShaderProgram.loadFromAssets_spec (w : World) (this : ProgramPtr) (v f : String)
    (p : ShaderProgram) (sv sf : String)
    (hp : w.programs this = some p) (h0 : p.programId = 0)
    (hv0 : p.vertexShader = none) (hf0 : p.fragmentShader = none)
    (hav : w.assets v = some sv) (haf : w.assets f = some sf) (hwf : World.heapOk w) :
    ∃ w2 q s cs delta, ShaderProgram.loadFromAssets this v f w = .ok () w2 ∧
      w2.programs this = some q ∧ q.vertexShader = some s ∧
      (∀ o, o ≠ this → w2.programs o = w.programs o) ∧
      w2.shaders s = some cs ∧ World.heapOk w2 ∧ World.keeps w w2 ∧
      lmMap.index w2.liveShaders v = some s ∧
      w2.gl = w.gl ++ delta ∧
      countCompiles delta =
        countCreates .GL_VERTEX_SHADER delta + countCreates .GL_FRAGMENT_SHADER delta ∧
      (((Shader.getShader v w).1 = some s ∧ countCreates .GL_VERTEX_SHADER delta = 0) ∨
        ((Shader.getShader v w).1 = none ∧ s = w.nextShader ∧
          cs.obj.type = .GL_VERTEX_SHADER ∧ cs.obj.name = v ∧
          lmMap.entries w2.liveShaders v = 1 ∧
          countCreates .GL_VERTEX_SHADER delta = if v.length > 0 then 1 else 0)) := by
  -- the vertex shader
  obtain ⟨w1, s, c1, d1, hr1, hp1, ho1, hc1, hwf1, hk1, hi1, hgl1, -, hcase1⟩ :=
    ShaderProgram.resolveShader_spec w this .GL_VERTEX_SHADER v p sv hp hv0 hav hwf
  -- the fragment shader
  have haf1 : w1.assets f = some sf := by rw [hk1.2.1]; exact haf
  obtain ⟨w2, s2, c2, d2, hr2, hp2, ho2, hc2, hwf2, hk2, -, hgl2, -, hcase2⟩ :=
    ShaderProgram.resolveShader_spec w1 this .GL_FRAGMENT_SHADER f
      (ShaderProgram.setMember .GL_VERTEX_SHADER (some s) p) sf hp1 hf0 haf1 hwf1
  obtain ⟨c1b, hc1b, hobj1⟩ := hk2.2.2.2.1 s c1 hc1
  -- the link
  obtain ⟨w3, q, d3, hlink, hframe, ho3, hq, hqv, -, hgl3, hcr3, hcm3⟩ :=
    ShaderProgram.link_keeps w2 this
      (ShaderProgram.setMember .GL_FRAGMENT_SHADER (some s2)
        (ShaderProgram.setMember .GL_VERTEX_SHADER (some s) p)) c2.obj c1b.obj hp2 h0
      (by simp [ShaderProgram.setMember, deref, hc2])
      (by simp [ShaderProgram.setMember, deref, hc1b])
  have hrun : ShaderProgram.loadFromAssets this v f w = .ok () w3 := by
    simp [ShaderProgram.loadFromAssets, hr1, hr2, Outcome.andThen, hlink]
  have hk12 : World.keeps w w2 := World.keeps_trans w w1 w2 hk1 hk2
  have hk : World.keeps w w3 :=
    World.keeps_trans w w2 w3 hk12 (World.keeps_of_frame w2 w3 hframe)
  have hsh3 : w3.shaders = w2.shaders := hframe.2.1
  have hlv3 : w3.liveShaders = w2.liveShaders := hframe.2.2.1
  have halive1 : (w1.shaders s).isSome = true := by simp [hc1]
  obtain ⟨hi2, he2⟩ := hk2.2.2.2.2 v s hi1 halive1
  -- counts of the fragment half and of the whole
  have hd2v : countCreates .GL_VERTEX_SHADER d2 = 0 := by
    rcases hcase2 with ⟨-, hd⟩ | ⟨-, -, -, -, -, -, hcr, -⟩
    · rw [hd]; rfl
    · rw [hcr]; simp
  have hd2c : countCompiles d2 = countCreates .GL_FRAGMENT_SHADER d2 := by
    rcases hcase2 with ⟨-, hd⟩ | ⟨-, -, -, -, -, -, hcr, hcm⟩
    · rw [hd]; rfl
    · rw [hcr, hcm]; simp
  have hd1f : countCreates .GL_FRAGMENT_SHADER d1 = 0 := by
    rcases hcase1 with ⟨-, hd⟩ | ⟨-, -, -, -, -, -, hcr, -⟩
    · rw [hd]; rfl
    · rw [hcr]; simp
  have hd1c : countCompiles d1 = countCreates .GL_VERTEX_SHADER d1 := by
    rcases hcase1 with ⟨-, hd⟩ | ⟨-, -, -, -, -, -, hcr, hcm⟩
    · rw [hd]; rfl
    · rw [hcr, hcm]; simp
  refine ⟨w3, q, s, c1b, d1 ++ d2 ++ d3, hrun, hq, ?_, ?_, ?_, World.heapOk_of_frame w2 w3 hframe hwf2,
    hk, ?_, ?_, ?_, ?_⟩
  · rw [hqv]; simp [ShaderProgram.setMember]
  · intro o ho
    rw [ho3 o ho, ho2 o ho, ho1 o ho]
  · rw [hsh3]; exact hc1b
  · rw [hlv3]; exact hi2
  · rw [hgl3, hgl2, hgl1]; simp
  · simp only [countCompiles_append, countCreates_append, hcr3, hcm3, hd2v, hd2c, hd1f, hd1c]
    simp
  · rcases hcase1 with ⟨hfound, hd⟩ | ⟨hnone, hs, hty, hnm, -, hent, hcr, -⟩
    · left
      refine ⟨hfound, ?_⟩
      simp only [countCreates_append, hcr3, hd2v, hd]
      rfl
    · right
      refine ⟨hnone, hs, ?_, ?_, ?_, ?_⟩
      · rw [hobj1]; exact hty
      · rw [hobj1]; exact hnm
      · rw [hlv3, he2]; exact hent
      · simp only [countCreates_append, hcr3, hd2v, hcr]
        simp


theorem lmMap.lookup_eq_head_filter (m : lmMap) (k : String) :
    m.lookup k = ((m.filter (fun e => e.1 == k)).head?).map (fun e => e.2) := by
  induction m with
  | nil => rfl
  | cons e m ih =>
    obtain ⟨a, b⟩ := e
    by_cases hak : a = k
    · subst hak
      simp [List.lookup_cons, List.filter_cons]
    · have h1 : (k == a) = false := by simpa using fun h => hak h.symm
      have h2 : (a == k) = false := by simpa using hak
      simp only [List.lookup_cons, h1, List.filter_cons, h2]
      simpa using ih

theorem World.liveEntries_eq_one (w : World) (k : String) (s : ShaderPtr) (c : ShaderCell)
    (he : lmMap.entries w.liveShaders k = 1) (hi : lmMap.index w.liveShaders k = some s)
    (hc : w.shaders s = some c) : World.liveEntries w k = 1 := by
  unfold lmMap.entries at he
  unfold lmMap.index at hi
  rw [lmMap.lookup_eq_head_filter] at hi
  unfold World.liveEntries
  have hsplit : w.liveShaders.filter (fun e => e.1 == k && !expired e.2 w) =
      (w.liveShaders.filter (fun e => e.1 == k)).filter (fun e => !expired e.2 w) := by
    rw [List.filter_filter]
    congr 1
    funext e
    exact Bool.and_comm _ _
  obtain ⟨e, hL⟩ := List.length_eq_one.mp he
  rw [hsplit, hL]
  rw [hL] at hi
  simp only [List.head?_cons, Option.map_some', Option.getD_some] at hi
  simp [hi, expired, hc]


/-- C2 (amended): for two distinct, freshly constructed programs and a non-empty vertex
shader name `v` that the registry does not yet resolve to a live shader, with the asset
store holding a text for `v`, `f1` and `f2`: `P1.loadFromAssets(v, f1)` followed by
`P2.loadFromAssets(v, f2)` both return; both programs then hold the same vertex shader
object, which is alive, of kind vertex and named `v`; the registry has exactly one entry
for `v`, it refers to that shader and is live; and over the two calls exactly one vertex
shader object has been created on the driver, and every shader object created has been
compiled once (so the compile calls are that of the vertex shader plus one per fragment
shader created). -/
theorem C2_same_vertex_name_compiles_once (w : World) (p1 p2 : ProgramPtr)
    (v f1 f2 : String) (P1 P2 : ShaderProgram) (sv sf1 sf2 : String)
    (hne : p1 ≠ p2)
    (hP1 : w.programs p1 = some P1) (hP2 : w.programs p2 = some P2)
    (h1 : P1.programId = 0 ∧ P1.vertexShader = none ∧ P1.fragmentShader = none)
    (h2 : P2.programId = 0 ∧ P2.vertexShader = none ∧ P2.fragmentShader = none)
    (hv : v.length > 0)
    (hav : w.assets v = some sv) (haf1 : w.assets f1 = some sf1)
    (haf2 : w.assets f2 = some sf2)
    (hwf : World.heapOk w) (hnew : (Shader.getShader v w).1 = none) :
    ∃ wA wB s cs q1 q2 delta,
      ShaderProgram.loadFromAssets p1 v f1 w = .ok () wA ∧
      ShaderProgram.loadFromAssets p2 v f2 wA = .ok () wB ∧
      wB.programs p1 = some q1 ∧ q1.vertexShader = some s ∧
      wB.programs p2 = some q2 ∧ q2.vertexShader = some s ∧
      wB.shaders s = some cs ∧ cs.obj.name = v ∧ cs.obj.type = .GL_VERTEX_SHADER ∧
      lmMap.index wB.liveShaders v = some s ∧
      lmMap.entries wB.liveShaders v = 1 ∧ World.liveEntries wB v = 1 ∧
      wB.gl = w.gl ++ delta ∧
      countCreates .GL_VERTEX_SHADER delta = 1 ∧
      countCompiles delta = 1 + countCreates .GL_FRAGMENT_SHADER delta := by
  obtain ⟨wA, q1, s, cA, dA, hrA, hqA, hqvA, hoA, hcA, hwfA, hkA, hiA, hglA, hcmA, hcaseA⟩ :=
    ShaderProgram.loadFromAssets_spec w p1 v f1 P1 sv sf1 hP1 h1.1 h1.2.1 h1.2.2 hav haf1 hwf
  rcases hcaseA with ⟨hfound, -⟩ | ⟨-, hs, htyA, hnmA, hentA, hcrA⟩
  · rw [hnew] at hfound
    exact absurd hfound (by simp)
  have hP2A : wA.programs p2 = some P2 := by
    rw [hoA p2 (Ne.symm hne)]; exact hP2
  have havA : wA.assets v = some sv := by rw [hkA.2.1]; exact hav
  have haf2A : wA.assets f2 = some sf2 := by rw [hkA.2.1]; exact haf2
  obtain ⟨wB, q2, s2, cB, dB, hrB, hqB, hqvB, hoB, hcB, -, hkB, hiB, hglB, hcmB, hcaseB⟩ :=
    ShaderProgram.loadFromAssets_spec wA p2 v f2 P2 sv sf2 hP2A h2.1 h2.2.1 h2.2.2 havA haf2A
      hwfA
  have hliveA : Shader.getShader v wA = (some s, retain (some s) wA) :=
    Shader.getShader_live wA v s cA hiA hcA
  rcases hcaseB with ⟨hfoundB, hcrB⟩ | ⟨hnoneB, -⟩
  · rw [hliveA] at hfoundB
    simp only [Option.some.injEq] at hfoundB
    subst hfoundB
    have haliveA : (wA.shaders s).isSome = true := by simp [hcA]
    obtain ⟨hiB2, heB⟩ := hkB.2.2.2.2 v s hiA haliveA
    obtain ⟨cB2, hcB2, hobjB⟩ := hkB.2.2.2.1 s cA hcA
    have hcB3 : cB = cB2 := by
      rw [hcB] at hcB2
      injection hcB2
    have hent : lmMap.entries wB.liveShaders v = 1 := by rw [heB]; exact hentA
    refine ⟨wA, wB, s, cB, q1, q2, dA ++ dB, hrA, hrB, ?_, hqvA, hqB, hqvB, hcB, ?_, ?_, hiB,
      hent, World.liveEntries_eq_one wB v s cB hent hiB hcB, ?_, ?_, ?_⟩
    · rw [hoB p1 hne]; exact hqA
    · rw [hcB3, hobjB]; exact hnmA
    · rw [hcB3, hobjB]; exact htyA
    · rw [hglB, hglA]; simp
    · rw [countCreates_append, hcrA, hcrB]
      simp [hv]
    · rw [countCompiles_append, countCreates_append, hcmA, hcmB, hcrA, hcrB]
      simp only [hv, if_true]
      omega
  · rw [hliveA] at hnoneB
    exact absurd hnoneB (by simp)

/-- C2 (amended) at a concrete input: the two fresh example programs, both loaded from
`"a.vert"` and `"a.frag"`. -/
theorem C2_same_vertex_name_compiles_once_witness :
    (0 : ProgramPtr) ≠ 1 ∧
    exampleTwoFresh.programs 0 = some exampleFreshProgram ∧
    exampleTwoFresh.programs 1 = some exampleFreshProgram ∧
    (exampleFreshProgram.programId = 0 ∧ exampleFreshProgram.vertexShader = none ∧
      exampleFreshProgram.fragmentShader = none) ∧
    "a.vert".length > 0 ∧
    exampleTwoFresh.assets "a.vert" = some "attribute vec4 a_position;" ∧
    exampleTwoFresh.assets "a.frag" = some "varying vec4 v_color0;" ∧
    World.heapOk exampleTwoFresh ∧
    (Shader.getShader "a.vert" exampleTwoFresh).1 = none ∧
    ∃ wA wB s cs q1 q2 delta,
      ShaderProgram.loadFromAssets 0 "a.vert" "a.frag" exampleTwoFresh = .ok () wA ∧
      ShaderProgram.loadFromAssets 1 "a.vert" "a.frag" wA = .ok () wB ∧
      wB.programs 0 = some q1 ∧ q1.vertexShader = some s ∧
      wB.programs 1 = some q2 ∧ q2.vertexShader = some s ∧
      wB.shaders s = some cs ∧ cs.obj.name = "a.vert" ∧ cs.obj.type = .GL_VERTEX_SHADER ∧
      lmMap.index wB.liveShaders "a.vert" = some s ∧
      lmMap.entries wB.liveShaders "a.vert" = 1 ∧ World.liveEntries wB "a.vert" = 1 ∧
      wB.gl = exampleTwoFresh.gl ++ delta ∧
      countCreates .GL_VERTEX_SHADER delta = 1 ∧
      countCompiles delta = 1 + countCreates .GL_FRAGMENT_SHADER delta :=
  ⟨by decide, by decide, by decide, by decide, by decide, by decide, by decide,
   fun _ _ => rfl, by decide,
   C2_same_vertex_name_compiles_once exampleTwoFresh 0 1 "a.vert" "a.frag" "a.frag"
     exampleFreshProgram exampleFreshProgram "attribute vec4 a_position;"
     "varying vec4 v_color0;" "varying vec4 v_color0;"
     (by decide) (by decide) (by decide) (by decide) (by decide) (by decide) (by decide)
     (by decide) (by decide) (fun _ _ => rfl) (by decide)⟩

/-- C2 as stated fails for the empty name: after `loadFromAssets("", "a.frag")` on each
of two fresh programs both calls have returned and both programs hold the same vertex
shader object, registered under `""`, but that shader has never been compiled: its handle
is 0, the driver has seen no `glCreateShader(GL_VERTEX_SHADER)`, and the only compile is
that of the fragment shader. -/
theorem C2_empty_name_is_never_compiled :
    ((ShaderProgram.loadFromAssets 0 "" "a.frag" exampleTwoFresh).andThen fun _ w1 =>
      ShaderProgram.loadFromAssets 1 "" "a.frag" w1).returned = true ∧
    (exampleEmptyName.programs 0).map (fun q => q.vertexShader) = some (some 0) ∧
    (exampleEmptyName.programs 1).map (fun q => q.vertexShader) = some (some 0) ∧
    exampleEmptyName.shaders 0 = some ⟨⟨0, .GL_VERTEX_SHADER, ""⟩, 2⟩ ∧
    lmMap.index exampleEmptyName.liveShaders "" = some 0 ∧
    countCreates .GL_VERTEX_SHADER exampleEmptyName.gl = 0 ∧
    countCompiles exampleEmptyName.gl = 1 ∧
    countCreates .GL_FRAGMENT_SHADER exampleEmptyName.gl = 1 := by
  decide

/-- After a `bind()` that returns, the bound-program pointer is the program bound. -/
theorem ShaderProgram.bind_ok_lastBound (w w2 : World) (this : ProgramPtr)
    (h : ShaderProgram.bind this w = .ok () w2) : w2.lastBoundShader = some this := by
  unfold ShaderProgram.bind at h
  cases hp : w.programs this with
  | none => simp [hp] at h
  | some p =>
    simp only [hp] at h
    split at h
    · simp at h
    · rw [Outcome.andThen_eq_ok] at h
      obtain ⟨a, wl, hlink, hk⟩ := h
      obtain ⟨q, fs, vs, hq, h0, hfs, hvs⟩ := ShaderProgram.link_ok_pre _ wl this hlink
      obtain ⟨wl2, hlink2, hframe, -⟩ := ShaderProgram.link_spec _ this q fs vs hq h0 hfs hvs
      rw [hlink] at hlink2
      injection hlink2 with _ hw
      subst hw
      cases hq2 : wl.programs this with
      | none => simp [hq2] at hk
      | some q2 =>
        simp only [hq2] at hk
        injection hk with _ hw
        subst hw
        rw [(ShaderProgram.activate_frame _ _).1.2.2.2.1, hframe.2.2.2.1]
        rfl
    · injection h with _ hw
      subst hw
      rw [(ShaderProgram.activate_frame _ _).1.2.2.2.1]

/-! ## Absent shader source -/


/-- When the asset store has no text for a non-empty name, constructing a Shader of that
name reaches `strlen` with a null source, right after `glCreateShader`. -/
theorem Shader.make_absent_asset (w : World) (name : String) (type : ShaderType)
    (hn : name.length > 0) (ha : w.assets name = none) :
    ∃ w2, Shader.make name type w = .fatal .nullDereference w2 ∧
      w2.gl = w.gl ++ [.glCreateShader type (w.driver.createShader w.gl type)] := by
  unfold Shader.make
  simp only [hn, if_true]
  have hsrc : Shader.getSourceFromAsset { id := 0, type := type, name := name }
      (lmLog .debug "Creating shader %s"
        { w with
          nextShader := w.nextShader + 1
          shaders := Function.update w.shaders w.nextShader
            (some { obj := { id := 0, type := type, name := name }, useCount := 1 }) }) =
      (none, lmLog .warn "Unable to lock the asset for shader %s"
        (lmLog .debug "Creating shader %s"
        { w with
          nextShader := w.nextShader + 1
          shaders := Function.update w.shaders w.nextShader
            (some { obj := { id := 0, type := type, name := name }, useCount := 1 }) })) := by
    simp [Shader.getSourceFromAsset, lmLog, ha]
  rw [hsrc]
  simp [Shader.load, loom_asset_subscribe, lmLog, lmAssert, Outcome.andThen, setShaderId, glCall]

/-- When the asset store has no text for the name of a Shader, `reload()` reaches
`strlen` with a null source. -/
theorem Shader.reload_absent_asset (w : World) (this : ShaderPtr) (c : ShaderCell)
    (hc : w.shaders this = some c) (ha : w.assets c.obj.name = none) :
    ∃ w2, Shader.reload this w = .fatal .nullDereference w2 := by
  unfold Shader.reload
  simp only [hc]
  have hsrc : Shader.getSourceFromAsset c.obj
      (setShaderId this 0 (glCall (.glDeleteShader c.obj.id) w)) =
      (none, lmLog .warn "Unable to lock the asset for shader %s"
        (setShaderId this 0 (glCall (.glDeleteShader c.obj.id) w))) := by
    simp [Shader.getSourceFromAsset, setShaderId, glCall, hc, ha]
  rw [hsrc]
  simp [Shader.load, lmLog, lmAssert, Outcome.andThen, setShaderId, glCall, hc]


/-- C19, the code at the failing input: the asset store has no text for
`"missing.vert"`, so `getSourceFromAsset` returns null, and the constructor (directly or
through `loadFromAssets`) passes it to `load`, which stops at `strlen` on the null
source; likewise `reload()` on the example vertex shader once its asset can no longer be
locked. -/
theorem C19_absent_asset_reaches_load_with_null_source :
    exampleAssets "missing.vert" = none ∧
    (Shader.getSourceFromAsset ⟨0, .GL_VERTEX_SHADER, "missing.vert"⟩
      (World.init (exampleDriver true) exampleAssets)).1 = none ∧
    (Shader.make "missing.vert" .GL_VERTEX_SHADER
      (World.init (exampleDriver true) exampleAssets)).fault = some .nullDereference ∧
    (Shader.make "missing.vert" .GL_VERTEX_SHADER
      (World.init (exampleDriver true) exampleAssets)).world.gl =
        [.glCreateShader .GL_VERTEX_SHADER 1] ∧
    (ShaderProgram.loadFromAssets 0 "missing.vert" "a.frag" (exampleFresh true)).fault
      = some .nullDereference ∧
    (Shader.reload 0 (World.removeAsset "a.vert" (exampleLinked true))).fault
      = some .nullDereference := by
  decide

/-! ## Kinds of the shaders a program holds -/

/-- C16 (amended): `loadFromAssets(v, f)` on a freshly constructed program, with the asset
store holding a text for both names, runs the vertex half, the fragment half and the
link, and returns.  The program then holds two live shaders.  The one in the vertex member
has kind vertex whenever the lookup of `v` found no live shader, and the one in the
fragment member has kind fragment whenever the lookup of `f` (in the state the vertex half
left) found no live shader, because the shader is then constructed with that kind; a
shader that a lookup did find is held as it is, with the members it had before. -/
theorem C16_kind_of_resolved_shader (w : World) (this : ProgramPtr) (v f : String)
    (p : ShaderProgram) (sv sf : String)
    (hp : w.programs this = some p) (h0 : p.programId = 0)
    (hv0 : p.vertexShader = none) (hf0 : p.fragmentShader = none)
    (hav : w.assets v = some sv) (haf : w.assets f = some sf) (hwf : World.heapOk w) :
    ∃ w1 w2 w3 q sV sF cV cF,
      ShaderProgram.resolveShader this .GL_VERTEX_SHADER v w = .ok () w1 ∧
      ShaderProgram.resolveShader this .GL_FRAGMENT_SHADER f w1 = .ok () w2 ∧
      ShaderProgram.link this w2 = .ok () w3 ∧
      ShaderProgram.loadFromAssets this v f w = .ok () w3 ∧
      w3.programs this = some q ∧
      q.vertexShader = some sV ∧ q.fragmentShader = some sF ∧
      w3.shaders sV = some cV ∧ w3.shaders sF = some cF ∧
      ((Shader.getShader v w).1 = none → cV.obj.type = .GL_VERTEX_SHADER) ∧
      ((Shader.getShader f w1).1 = none → cF.obj.type = .GL_FRAGMENT_SHADER) ∧
      (∀ c0, (Shader.getShader v w).1 = some sV → w.shaders sV = some c0 → cV.obj = c0.obj) ∧
      (∀ c0, (Shader.getShader f w1).1 = some sF → w1.shaders sF = some c0 →
        cF.obj = c0.obj) := by
  obtain ⟨w1, s, c1, d1, hr1, hp1, -, hc1, hwf1, hk1, -, -, -, hcase1⟩ :=
    ShaderProgram.resolveShader_spec w this .GL_VERTEX_SHADER v p sv hp hv0 hav hwf
  have haf1 : w1.assets f = some sf := by rw [hk1.2.1]; exact haf
  obtain ⟨w2, s2, c2, d2, hr2, hp2, -, hc2, -, hk2, -, -, -, hcase2⟩ :=
    ShaderProgram.resolveShader_spec w1 this .GL_FRAGMENT_SHADER f
      (ShaderProgram.setMember .GL_VERTEX_SHADER (some s) p) sf hp1 hf0 haf1 hwf1
  obtain ⟨c1b, hc1b, hobj1⟩ := hk2.2.2.2.1 s c1 hc1
  obtain ⟨w3, q, d3, hlink, hframe, -, hq, hqv, hqf, -, -, -⟩ :=
    ShaderProgram.link_keeps w2 this
      (ShaderProgram.setMember .GL_FRAGMENT_SHADER (some s2)
        (ShaderProgram.setMember .GL_VERTEX_SHADER (some s) p)) c2.obj c1b.obj hp2 h0
      (by simp [ShaderProgram.setMember, deref, hc2])
      (by simp [ShaderProgram.setMember, deref, hc1b])
  have hrun : ShaderProgram.loadFromAssets this v f w = .ok () w3 := by
    simp [ShaderProgram.loadFromAssets, hr1, hr2, Outcome.andThen, hlink]
  have hsh3 : w3.shaders = w2.shaders := hframe.2.1
  refine ⟨w1, w2, w3, q, s, s2, c1b, c2, hr1, hr2, hlink, hrun, hq, ?_, ?_, ?_, ?_, ?_, ?_, ?_, ?_⟩
  · rw [hqv]; simp [ShaderProgram.setMember]
  · rw [hqf]; simp [ShaderProgram.setMember]
  · rw [hsh3]; exact hc1b
  · rw [hsh3]; exact hc2
  · intro hnone
    rcases hcase1 with ⟨hfound, -⟩ | ⟨-, -, hty, -⟩
    · rw [hnone] at hfound
      exact absurd hfound (by simp)
    · rw [hobj1]; exact hty
  · intro hnone
    rcases hcase2 with ⟨hfound, -⟩ | ⟨-, -, hty, -⟩
    · rw [hnone] at hfound
      exact absurd hfound (by simp)
    · exact hty
  · intro c0 _ hc0
    obtain ⟨c1x, hc1x, hobjx⟩ := hk1.2.2.2.1 s c0 hc0
    rw [hc1] at hc1x
    injection hc1x with hc1x
    rw [hobj1, hc1x, hobjx]
  · intro c0 _ hc0
    obtain ⟨c2x, hc2x, hobjx⟩ := hk2.2.2.2.1 s2 c0 hc0
    rw [hc2] at hc2x
    injection hc2x with hc2x
    rw [hc2x, hobjx]

theorem C16_kind_of_resolved_shader_witness :
    (exampleFresh true).programs 0 = some exampleFreshProgram ∧
    exampleFreshProgram.programId = 0 ∧
    exampleFreshProgram.vertexShader = none ∧ exampleFreshProgram.fragmentShader = none ∧
    (exampleFresh true).assets "a.vert" = some "attribute vec4 a_position;" ∧
    (exampleFresh true).assets "a.frag" = some "varying vec4 v_color0;" ∧
    World.heapOk (exampleFresh true) ∧
    ∃ w1 w2 w3 q sV sF cV cF,
      ShaderProgram.resolveShader 0 .GL_VERTEX_SHADER "a.vert" (exampleFresh true) = .ok () w1 ∧
      ShaderProgram.resolveShader 0 .GL_FRAGMENT_SHADER "a.frag" w1 = .ok () w2 ∧
      ShaderProgram.link 0 w2 = .ok () w3 ∧
      ShaderProgram.loadFromAssets 0 "a.vert" "a.frag" (exampleFresh true) = .ok () w3 ∧
      w3.programs 0 = some q ∧
      q.vertexShader = some sV ∧ q.fragmentShader = some sF ∧
      w3.shaders sV = some cV ∧ w3.shaders sF = some cF ∧
      ((Shader.getShader "a.vert" (exampleFresh true)).1 = none →
        cV.obj.type = .GL_VERTEX_SHADER) ∧
      ((Shader.getShader "a.frag" w1).1 = none → cF.obj.type = .GL_FRAGMENT_SHADER) ∧
      (∀ c0, (Shader.getShader "a.vert" (exampleFresh true)).1 = some sV →
        (exampleFresh true).shaders sV = some c0 → cV.obj = c0.obj) ∧
      (∀ c0, (Shader.getShader "a.frag" w1).1 = some sF → w1.shaders sF = some c0 →
        cF.obj = c0.obj) :=
  ⟨by decide, by decide, by decide, by decide, by decide, by decide, fun _ _ => rfl,
   C16_kind_of_resolved_shader (exampleFresh true) 0 "a.vert" "a.frag" exampleFreshProgram
     "attribute vec4 a_position;" "varying vec4 v_color0;"
     (by decide) (by decide) (by decide) (by decide) (by decide) (by decide)
     (fun _ _ => rfl)⟩

/-- C16 as stated fails, because the registry is keyed by the name alone.  With `v = f`:
`loadFromAssets("a.vert", "a.vert")` on a fresh program returns, and the shader the program
holds as its fragment shader is the vertex shader constructed a moment before, of kind
vertex.  With a prior registry state: once a program has loaded `"a.vert"` and `"a.frag"`,
a second program calling `loadFromAssets("a.frag", "a.vert")` returns holding the
fragment-kind shader as its vertex shader and the vertex-kind shader as its fragment
shader. -/
theorem C16_same_name_gives_one_shader_to_both_slots :
    (ShaderProgram.loadFromAssets 0 "a.vert" "a.vert" (exampleFresh true)).returned = true ∧
    ((ShaderProgram.loadFromAssets 0 "a.vert" "a.vert" (exampleFresh true)).world.programs 0).map
      (fun q => (q.vertexShader, q.fragmentShader)) = some (some 0, some 0) ∧
    ((ShaderProgram.loadFromAssets 0 "a.vert" "a.vert" (exampleFresh true)).world.shaders 0).map
      (fun c => c.obj.type) = some .GL_VERTEX_SHADER ∧
    (ShaderProgram.loadFromAssets 1 "a.frag" "a.vert"
      (ShaderProgram.construct 1 exampleUninit (exampleLinked true))).returned = true ∧
    ((ShaderProgram.loadFromAssets 1 "a.frag" "a.vert"
      (ShaderProgram.construct 1 exampleUninit (exampleLinked true))).world.programs 1).map
      (fun q => (q.vertexShader, q.fragmentShader)) = some (some 1, some 0) ∧
    ((ShaderProgram.loadFromAssets 1 "a.frag" "a.vert"
      (ShaderProgram.construct 1 exampleUninit (exampleLinked true))).world.shaders 1).map
      (fun c => c.obj.type) = some .GL_FRAGMENT_SHADER ∧
    ((ShaderProgram.loadFromAssets 1 "a.frag" "a.vert"
      (ShaderProgram.construct 1 exampleUninit (exampleLinked true))).world.shaders 0).map
      (fun c => c.obj.type) = some .GL_VERTEX_SHADER := by
  decide

/-! ## Binding a program whose handle is 0 -/

theorem ShaderProgram.activateCalls_use (p : ShaderProgram) :
    (ShaderProgram.activateCalls p).filter GLCall.isUseProgram = [.glUseProgram p.programId] := by
  unfold ShaderProgram.activateCalls
  split_ifs <;> simp [GLCall.isUseProgram]

/-- `bind()` on a program that holds no fragment shader stops on the null `lmSptr` it
dereferences in the staleness check, before any driver call. -/
theorem ShaderProgram.bind_never_loaded (w : World) (this : ProgramPtr) (p : ShaderProgram)
    (hp : w.programs this = some p) (hf : p.fragmentShader = none) :
    ∃ w2, ShaderProgram.bind this w = .fatal .nullDereference w2 ∧ w2.gl = w.gl := by
  unfold ShaderProgram.bind
  simp only [hp]
  have hst : ∀ w0 : World, ShaderProgram.stale p w0 = none := by
    intro w0
    simp [ShaderProgram.stale, hf, deref]
  simp only [hst]
  refine ⟨_, rfl, ?_⟩
  split_ifs <;> simp [lmLog]

/-- C11 (amended): `bind()` on a program whose linked-program handle is 0 and which holds
both of its shaders (a `load` or `loadFromAssets` has run and the link failed) returns,
and makes exactly one `glUseProgram` call, with the handle the program holds when `bind()`
is done.  If the last-known shader handles are the current ones nothing is re-linked and
that handle is 0.  Otherwise `bind()` re-links exactly once, and the handle is 0 if the
driver reports that link as failed and the newly created program object if it reports it
as successful. -/
theorem C11_bind_of_unlinked_program (w : World) (this : ProgramPtr) (p : ShaderProgram)
    (fs vs : Shader) (hp : w.programs this = some p) (h0 : p.programId = 0)
    (hfs : deref p.fragmentShader w = some fs) (hvs : deref p.vertexShader w = some vs) :
    ∃ w2 q delta, ShaderProgram.bind this w = .ok () w2 ∧ w2.programs this = some q ∧
      w2.gl = w.gl ++ delta ∧
      delta.filter GLCall.isUseProgram = [.glUseProgram q.programId] ∧
      (p.fragmentShaderId = fs.id ∧ p.vertexShaderId = vs.id →
        q = p ∧ delta = ShaderProgram.activateCalls p) ∧
      (p.fragmentShaderId ≠ fs.id ∨ p.vertexShaderId ≠ vs.id →
        (delta.filter GLCall.isLinkProgram).length = 1 ∧
        (w.driver.linkStatus
            (w.gl ++ ShaderProgram.unlinkCalls p ++ ShaderProgram.linkCalls
              (w.driver.createProgram (w.gl ++ ShaderProgram.unlinkCalls p)) fs vs)
            (w.driver.createProgram (w.gl ++ ShaderProgram.unlinkCalls p)) = false →
          q.programId = 0) ∧
        (w.driver.linkStatus
            (w.gl ++ ShaderProgram.unlinkCalls p ++ ShaderProgram.linkCalls
              (w.driver.createProgram (w.gl ++ ShaderProgram.unlinkCalls p)) fs vs)
            (w.driver.createProgram (w.gl ++ ShaderProgram.unlinkCalls p)) = true →
          q.programId = w.driver.createProgram (w.gl ++ ShaderProgram.unlinkCalls p))) := by
  by_cases hstale : p.fragmentShaderId = fs.id ∧ p.vertexShaderId = vs.id
  · obtain ⟨w2, hb, hgl, hpr, -⟩ :=
      ShaderProgram.bind_fresh_spec w this p fs vs hp hfs hvs hstale.1 hstale.2
    refine ⟨w2, p, ShaderProgram.activateCalls p, hb, by rw [hpr]; exact hp, hgl,
      ShaderProgram.activateCalls_use p, fun _ => ⟨rfl, rfl⟩, ?_⟩
    intro h
    rcases h with h | h
    · exact absurd hstale.1 h
    · exact absurd hstale.2 h
  · have hst : p.fragmentShaderId ≠ fs.id ∨ p.vertexShaderId ≠ vs.id := by
      by_cases hf : p.fragmentShaderId = fs.id
      · right
        intro hv
        exact hstale ⟨hf, hv⟩
      · left; exact hf
    obtain ⟨w0, hgl0, hp0, -, hsh0, hd0, -, -, -, -, hbind⟩ :=
      ShaderProgram.bind_stale_eq w this p fs vs hp hfs hvs hst
    have hpp : ({ p with programId := 0 } : ShaderProgram) = p := by
      cases p
      simp at h0
      simp [h0]
    rw [hpp] at hp0
    have hfs0 : deref p.fragmentShader w0 = some fs := by
      rw [deref_of_shaders_eq _ w w0 hsh0]; exact hfs
    have hvs0 : deref p.vertexShader w0 = some vs := by
      rw [deref_of_shaders_eq _ w w0 hsh0]; exact hvs
    obtain ⟨wl, hlink, -, -, hfail, hgood⟩ :=
      ShaderProgram.link_spec w0 this p fs vs hp0 h0 hfs0 hvs0
    rw [hd0, hgl0] at hfail hgood
    cases hls : w.driver.linkStatus
        (w.gl ++ ShaderProgram.unlinkCalls p ++ ShaderProgram.linkCalls
          (w.driver.createProgram (w.gl ++ ShaderProgram.unlinkCalls p)) fs vs)
        (w.driver.createProgram (w.gl ++ ShaderProgram.unlinkCalls p))
    · obtain ⟨hq, hglq⟩ := hfail hls
      have hb : ShaderProgram.bind this w = .ok () (ShaderProgram.activate p wl) := by
        rw [hbind, hlink]
        simp [Outcome.andThen, hq]
      have hgl : (ShaderProgram.activate p wl).gl = w.gl ++
          (ShaderProgram.unlinkCalls p ++
            (ShaderProgram.linkCalls (w.driver.createProgram (w.gl ++ ShaderProgram.unlinkCalls p))
              fs vs ++
            ShaderProgram.validateQueries w.driver
              (w.gl ++ ShaderProgram.unlinkCalls p ++ ShaderProgram.linkCalls
                (w.driver.createProgram (w.gl ++ ShaderProgram.unlinkCalls p)) fs vs)
              (w.driver.createProgram (w.gl ++ ShaderProgram.unlinkCalls p)) ++
            [.glDeleteProgram (w.driver.createProgram (w.gl ++ ShaderProgram.unlinkCalls p))]) ++
            ShaderProgram.activateCalls p) := by
        rw [ShaderProgram.activate_gl, hglq]
        simp [ShaderProgram.linkTrace, List.append_assoc]
      refine ⟨_, p, _, hb, ?_, hgl, ?_, ?_, ?_⟩
      · rw [(ShaderProgram.activate_frame p wl).2]; exact hq
      · simp [List.filter_append, ShaderProgram.activateCalls_use,
          (ShaderProgram.program_validateQueries_no_link _ _ _).2,
          ShaderProgram.unlinkCalls, ShaderProgram.linkCalls, GLCall.isUseProgram]
      · intro h
        exact absurd h hstale
      · intro _
        refine ⟨?_, fun _ => h0, fun h => by simp at h⟩
        simp [List.filter_append, ShaderProgram.activateCalls_no_link,
          (ShaderProgram.program_validateQueries_no_link _ _ _).1,
          ShaderProgram.unlinkCalls, ShaderProgram.linkCalls, GLCall.isLinkProgram]
    · obtain ⟨hq, hglq⟩ := hgood hls
      obtain ⟨q, hq2, hqid⟩ : ∃ q, wl.programs this = some q ∧
          q.programId = w.driver.createProgram (w.gl ++ ShaderProgram.unlinkCalls p) :=
        ⟨_, hq, rfl⟩
      have hb : ShaderProgram.bind this w = .ok () (ShaderProgram.activate q wl) := by
        rw [hbind, hlink]
        simp only [Outcome.andThen, hq2]
      have hgl := ShaderProgram.activate_gl q wl
      rw [hglq] at hgl
      simp only [ShaderProgram.linkTrace, List.append_assoc] at hgl
      refine ⟨_, q, _, hb, ?_, hgl, ?_, ?_, ?_⟩
      · rw [(ShaderProgram.activate_frame _ wl).2]; exact hq2
      · simp [List.filter_append, ShaderProgram.activateCalls_use,
          (ShaderProgram.program_validateQueries_no_link _ _ _).2,
          ShaderProgram.unlinkCalls, ShaderProgram.linkCalls, ShaderProgram.attribCalls,
          GLCall.isUseProgram]
      · intro h
        exact absurd h hstale
      · intro _
        refine ⟨?_, fun h => by simp at h, fun _ => hqid⟩
        simp [List.filter_append, ShaderProgram.activateCalls_no_link,
          (ShaderProgram.program_validateQueries_no_link _ _ _).1,
          ShaderProgram.unlinkCalls, ShaderProgram.linkCalls, ShaderProgram.attribCalls,
          GLCall.isLinkProgram]

theorem C11_bind_of_unlinked_program_witness :
    exampleRepaired.programs 0 = some exampleProgram ∧ exampleProgram.programId = 0 ∧
    deref exampleProgram.fragmentShader exampleRepaired = some exampleRepairedFragment ∧
    deref exampleProgram.vertexShader exampleRepaired = some exampleVertex ∧
    ∃ w2 q delta, ShaderProgram.bind 0 exampleRepaired = .ok () w2 ∧
      w2.programs 0 = some q ∧
      w2.gl = exampleRepaired.gl ++ delta ∧
      delta.filter GLCall.isUseProgram = [.glUseProgram q.programId] ∧
      (exampleProgram.fragmentShaderId = exampleRepairedFragment.id ∧
        exampleProgram.vertexShaderId = exampleVertex.id →
        q = exampleProgram ∧ delta = ShaderProgram.activateCalls exampleProgram) ∧
      (exampleProgram.fragmentShaderId ≠ exampleRepairedFragment.id ∨
        exampleProgram.vertexShaderId ≠ exampleVertex.id →
        (delta.filter GLCall.isLinkProgram).length = 1 ∧
        (exampleRepaired.driver.linkStatus
            (exampleRepaired.gl ++ ShaderProgram.unlinkCalls exampleProgram ++
              ShaderProgram.linkCalls
                (exampleRepaired.driver.createProgram
                  (exampleRepaired.gl ++ ShaderProgram.unlinkCalls exampleProgram))
                exampleRepairedFragment exampleVertex)
            (exampleRepaired.driver.createProgram
              (exampleRepaired.gl ++ ShaderProgram.unlinkCalls exampleProgram)) = false →
          q.programId = 0) ∧
        (exampleRepaired.driver.linkStatus
            (exampleRepaired.gl ++ ShaderProgram.unlinkCalls exampleProgram ++
              ShaderProgram.linkCalls
                (exampleRepaired.driver.createProgram
                  (exampleRepaired.gl ++ ShaderProgram.unlinkCalls exampleProgram))
                exampleRepairedFragment exampleVertex)
            (exampleRepaired.driver.createProgram
              (exampleRepaired.gl ++ ShaderProgram.unlinkCalls exampleProgram)) = true →
          q.programId = exampleRepaired.driver.createProgram
            (exampleRepaired.gl ++ ShaderProgram.unlinkCalls exampleProgram))) :=
  ⟨by decide, by decide, by decide, by decide,
   C11_bind_of_unlinked_program exampleRepaired 0 exampleProgram exampleRepairedFragment
     exampleVertex (by decide) (by decide) (by decide) (by decide)⟩

/-- C11 as stated fails for a program whose link failed.  Under `strictDriver` the
program loaded while the fragment asset did not compile has handle 0, and still has it
after the asset has been repaired and the fragment shader reloaded.  The next `bind()`
finds the last-known shader handles stale, re-links, this time with success, and the
handle it passes to `glUseProgram` is that of the new program object, 28, not 0. -/
theorem C11_bind_of_failed_program_activates_relinked_handle :
    (exampleBrokenFragment.programs 0).map (fun q => q.programId) = some 0 ∧
    (exampleRepaired.programs 0).map (fun q => q.programId) = some 0 ∧
    (ShaderProgram.bind 0 exampleRepaired).returned = true ∧
    ((ShaderProgram.bind 0 exampleRepaired).world.gl.drop exampleRepaired.gl.length).filter
      GLCall.isUseProgram = [.glUseProgram 28] ∧
    ((ShaderProgram.bind 0 exampleRepaired).world.programs 0).map (fun q => q.programId)
      = some 28 := by
  decide

/-! ## The handle of a shader after `load` and `reload` -/

/-- `Shader::reload()` with the asset present: the old object is deleted, the handle is
reset, and the re-fetched text is loaded as by `Shader::load`. -/
theorem Shader.reload_spec (w : World) (this : ShaderPtr) (c : ShaderCell) (text : String)
    (hc : w.shaders this = some c) (ha : w.assets c.obj.name = some text) :
    ∃ w2, Shader.reload this w = .ok () w2 ∧
      (∀ o, o ≠ this → w2.shaders o = w.shaders o) ∧
      w2.driver = w.driver ∧ w2.programs = w.programs ∧ w2.liveShaders = w.liveShaders ∧
      w2.lastBoundShader = w.lastBoundShader ∧ w2.nextShader = w.nextShader ∧
      w2.assets = w.assets ∧ w2.subscriptions = w.subscriptions ∧
      (Shader.loadStatus w.driver (w.gl ++ [.glDeleteShader c.obj.id]) c.obj.type text = false →
        w2.shaders this = some { c with obj := { c.obj with id := 0 } } ∧
        w2.gl = Shader.loadTrace w.driver (w.gl ++ [.glDeleteShader c.obj.id]) c.obj.type text ++
          [.glDeleteShader
            (w.driver.createShader (w.gl ++ [.glDeleteShader c.obj.id]) c.obj.type)]) ∧
      (Shader.loadStatus w.driver (w.gl ++ [.glDeleteShader c.obj.id]) c.obj.type text = true →
        w2.shaders this = some { c with obj := { c.obj with
          id := w.driver.createShader (w.gl ++ [.glDeleteShader c.obj.id]) c.obj.type } } ∧
        w2.gl = Shader.loadTrace w.driver (w.gl ++ [.glDeleteShader c.obj.id]) c.obj.type text) := by
  have hc1 : (setShaderId this 0 (glCall (.glDeleteShader c.obj.id) w)).shaders this =
      some { c with obj := { c.obj with id := 0 } } := by
    simp [setShaderId, glCall, hc]
  have hsrc : Shader.getSourceFromAsset c.obj
      (setShaderId this 0 (glCall (.glDeleteShader c.obj.id) w)) =
      (some text, setShaderId this 0 (glCall (.glDeleteShader c.obj.id) w)) := by
    simp [Shader.getSourceFromAsset, setShaderId, glCall, hc, ha]
  obtain ⟨w2, hload, hfr, hoth, hf, hg⟩ :=
    Shader.load_spec (setShaderId this 0 (glCall (.glDeleteShader c.obj.id) w)) this
      { c with obj := { c.obj with id := 0 } } text hc1 rfl
  have hd1 : (setShaderId this 0 (glCall (.glDeleteShader c.obj.id) w)).driver = w.driver := by
    simp [setShaderId, glCall, hc]
  have hg1 : (setShaderId this 0 (glCall (.glDeleteShader c.obj.id) w)).gl =
      w.gl ++ [.glDeleteShader c.obj.id] := by
    simp [setShaderId, glCall, hc]
  rw [hd1, hg1] at hf hg hload
  simp only at hf hg hload
  refine ⟨w2, ?_, ?_, ?_, ?_, ?_, ?_, ?_, ?_, ?_, ?_, ?_⟩
  · unfold Shader.reload
    simp only [hc, hsrc, hload, Outcome.andThen]
  · intro o ho
    rw [hoth o ho]
    simp [setShaderId, glCall, hc, Function.update, ho]
  · rw [hfr.1, hd1]
  · rw [hfr.2.1]; simp [setShaderId, glCall, hc]
  · rw [hfr.2.2.1]; simp [setShaderId, glCall, hc]
  · rw [hfr.2.2.2.1]; simp [setShaderId, glCall, hc]
  · rw [hfr.2.2.2.2.1]; simp [setShaderId, glCall, hc]
  · rw [hfr.2.2.2.2.2.1]; simp [setShaderId, glCall, hc]
  · rw [hfr.2.2.2.2.2.2]; simp [setShaderId, glCall, hc]
  · exact hf
  · exact hg

theorem Shader.liveCompiled_loadTrace (d : Driver) (tr : List GLCall) (type : ShaderType)
    (text : String) (h : Shader.loadStatus d tr type text = true) :
    Shader.liveCompiled d (Shader.loadTrace d tr type text) (d.createShader tr type) := by
  refine ⟨tr, type, text, _, rfl, h, ?_⟩
  intro c hcm hdel
  have hnone := Shader.shader_validateQueries_deleted d
    (tr ++ Shader.loadCalls type (d.createShader tr type) text) (d.createShader tr type)
  have hmem : d.createShader tr type ∈ (Shader.validateQueries d
      (tr ++ Shader.loadCalls type (d.createShader tr type) text)
      (d.createShader tr type)).filterMap GLCall.deletedShader :=
    List.mem_filterMap.mpr ⟨c, hcm, hdel⟩
  rw [hnone] at hmem
  exact absurd hmem (List.not_mem_nil _)

/-- The handle a `Shader::load` that returns leaves in the shader is 0 or that of a live
compiled object. -/
theorem Shader.load_handle (w : World) (this : ShaderPtr) (c : ShaderCell) (text : String)
    (hc : w.shaders this = some c) (h0 : c.obj.id = 0) :
    ∃ w2 c2, Shader.load this (some text) w =
        .ok (Shader.loadStatus w.driver w.gl c.obj.type text) w2 ∧
      w2.shaders this = some c2 ∧
      (c2.obj.id = 0 ∨ Shader.liveCompiled w2.driver w2.gl c2.obj.id) := by
  obtain ⟨w2, hload, hfr, -, hf, hg⟩ := Shader.load_spec w this c text hc h0
  cases hst : Shader.loadStatus w.driver w.gl c.obj.type text
  · obtain ⟨hs, -⟩ := hf hst
    rw [hst] at hload
    exact ⟨w2, c, hload, hs, Or.inl h0⟩
  · obtain ⟨hs, hgl⟩ := hg hst
    rw [hst] at hload
    refine ⟨w2, _, hload, hs, Or.inr ?_⟩
    rw [hfr.1, hgl]
    exact Shader.liveCompiled_loadTrace w.driver w.gl c.obj.type text hst

/-- C12 (amended): `reload()` of a shader whose asset is present returns; its first driver
call is `glDeleteShader` on the pre-reload handle; afterwards the handle is 0 if the
driver reports the compilation of the re-fetched text as failed (no rollback) and is
otherwise the name the driver gave the newly created object.  After the reload, and after
every `load` on an uncompiled shader, the handle is 0 or that of a live compiled object:
one created and successfully compiled by that call and not deleted since. -/
theorem C12_handle_after_load_and_reload (w : World) (this : ShaderPtr) (c : ShaderCell)
    (text : String) (hc : w.shaders this = some c) (ha : w.assets c.obj.name = some text) :
    ∃ w2 c2, Shader.reload this w = .ok () w2 ∧ w2.shaders this = some c2 ∧
      c2.obj.type = c.obj.type ∧ c2.obj.name = c.obj.name ∧
      (w2.gl.drop w.gl.length).head? = some (.glDeleteShader c.obj.id) ∧
      (Shader.loadStatus w.driver (w.gl ++ [.glDeleteShader c.obj.id]) c.obj.type text = false →
        c2.obj.id = 0) ∧
      (Shader.loadStatus w.driver (w.gl ++ [.glDeleteShader c.obj.id]) c.obj.type text = true →
        c2.obj.id = w.driver.createShader (w.gl ++ [.glDeleteShader c.obj.id]) c.obj.type) ∧
      (c2.obj.id = 0 ∨ Shader.liveCompiled w2.driver w2.gl c2.obj.id) ∧
      (c.obj.id = 0 → ∀ source : String, ∃ w3 c3,
        Shader.load this (some source) w =
          .ok (Shader.loadStatus w.driver w.gl c.obj.type source) w3 ∧
        w3.shaders this = some c3 ∧
        (c3.obj.id = 0 ∨ Shader.liveCompiled w3.driver w3.gl c3.obj.id)) := by
  obtain ⟨w2, hre, -, hd, -, -, -, -, -, -, hf, hg⟩ := Shader.reload_spec w this c text hc ha
  have hload : c.obj.id = 0 → ∀ source : String, ∃ w3 c3,
      Shader.load this (some source) w =
        .ok (Shader.loadStatus w.driver w.gl c.obj.type source) w3 ∧
      w3.shaders this = some c3 ∧
      (c3.obj.id = 0 ∨ Shader.liveCompiled w3.driver w3.gl c3.obj.id) :=
    fun h0 source => Shader.load_handle w this c source hc h0
  cases hst : Shader.loadStatus w.driver (w.gl ++ [.glDeleteShader c.obj.id]) c.obj.type text
  · obtain ⟨hs, hgl⟩ := hf hst
    refine ⟨w2, _, hre, hs, rfl, rfl, ?_, fun _ => rfl, fun h => by simp at h, Or.inl rfl, hload⟩
    rw [hgl]
    simp [Shader.loadTrace, List.append_assoc]
  · obtain ⟨hs, hgl⟩ := hg hst
    refine ⟨w2, _, hre, hs, rfl, rfl, ?_, fun h => by simp at h, fun _ => rfl, Or.inr ?_, hload⟩
    · rw [hgl]
      simp [Shader.loadTrace, List.append_assoc]
    · rw [hd, hgl]
      exact Shader.liveCompiled_loadTrace w.driver _ c.obj.type text hst

theorem C12_handle_after_load_and_reload_witness :
    (World.changeAsset "a.frag" "varying vec4 v_color0;" exampleBrokenFragment).shaders 1 =
      some ⟨⟨0, .GL_FRAGMENT_SHADER, "a.frag"⟩, 1⟩ ∧
    (World.changeAsset "a.frag" "varying vec4 v_color0;" exampleBrokenFragment).assets "a.frag" =
      some "varying vec4 v_color0;" ∧
    ∃ w2 c2,
      Shader.reload 1 (World.changeAsset "a.frag" "varying vec4 v_color0;" exampleBrokenFragment)
        = .ok () w2 ∧
      w2.shaders 1 = some c2 ∧
      c2.obj.type = .GL_FRAGMENT_SHADER ∧ c2.obj.name = "a.frag" ∧
      (w2.gl.drop exampleBrokenFragment.gl.length).head? = some (.glDeleteShader 0) ∧
      (Shader.loadStatus strictDriver (exampleBrokenFragment.gl ++ [.glDeleteShader 0])
          .GL_FRAGMENT_SHADER "varying vec4 v_color0;" = false → c2.obj.id = 0) ∧
      (Shader.loadStatus strictDriver (exampleBrokenFragment.gl ++ [.glDeleteShader 0])
          .GL_FRAGMENT_SHADER "varying vec4 v_color0;" = true →
        c2.obj.id = strictDriver.createShader (exampleBrokenFragment.gl ++ [.glDeleteShader 0])
          .GL_FRAGMENT_SHADER) ∧
      (c2.obj.id = 0 ∨ Shader.liveCompiled w2.driver w2.gl c2.obj.id) ∧
      ((0 : GLuint) = 0 → ∀ source : String, ∃ w3 c3,
        Shader.load 1 (some source)
            (World.changeAsset "a.frag" "varying vec4 v_color0;" exampleBrokenFragment) =
          .ok (Shader.loadStatus strictDriver exampleBrokenFragment.gl .GL_FRAGMENT_SHADER
            source) w3 ∧
        w3.shaders 1 = some c3 ∧
        (c3.obj.id = 0 ∨ Shader.liveCompiled w3.driver w3.gl c3.obj.id)) :=
  ⟨by decide, by decide,
   C12_handle_after_load_and_reload
     (World.changeAsset "a.frag" "varying vec4 v_color0;" exampleBrokenFragment) 1
     ⟨⟨0, .GL_FRAGMENT_SHADER, "a.frag"⟩, 1⟩ "varying vec4 v_color0;" (by decide) (by decide)⟩

/-- C12 as stated fails: the handle after `reload()` can be the pre-reload handle.  Under
`recyclingDriver`, which hands the name of a deleted object out again, the shader
`"a.frag"` has handle 1 before the reload and, the recompilation having succeeded, handle
1 after it.  And the fragment shader of `exampleBrokenFragment`, whose text does not
compile, has handle 0 before the reload and handle 0 after it. -/
theorem C12_reload_can_end_on_the_old_handle :
    (exampleRecycled.shaders 0).map (fun c => c.obj.id) = some 1 ∧
    (Shader.reload 0 exampleRecycled).returned = true ∧
    ((Shader.reload 0 exampleRecycled).world.shaders 0).map (fun c => c.obj.id) = some 1 ∧
    (Shader.reload 0 exampleRecycled).world.gl.drop exampleRecycled.gl.length =
      [.glDeleteShader 1, .glCreateShader .GL_FRAGMENT_SHADER 1,
       .glShaderSource 1 "varying vec4 v_color1;", .glCompileShader 1,
       .glGetShaderiv 1 .GL_COMPILE_STATUS, .glGetShaderiv 1 .GL_INFO_LOG_LENGTH] ∧
    (exampleBrokenFragment.shaders 1).map (fun c => c.obj.id) = some 0 ∧
    (Shader.reload 1 exampleBrokenFragment).returned = true ∧
    ((Shader.reload 1 exampleBrokenFragment).world.shaders 1).map (fun c => c.obj.id)
      = some 0 := by
  decide

/-! ## Teardown of a program -/

theorem release_gl (sp : lmSptr) (w : World) :
    (release sp w).gl = w.gl ++ releaseCalls sp w.shaders := by
  cases sp with
  | none => simp [release, releaseCalls]
  | some p =>
    simp only [release, releaseCalls]
    cases hc : w.shaders p with
    | none => simp
    | some c =>
      simp only
      by_cases hu : c.useCount ≤ 1
      · by_cases hid : c.obj.id = 0
        · by_cases hn : c.obj.name.length > 0
          · simp [hu, hid, hn, Shader.destroy, Shader.removeShader, lmLog, glCall,
              loom_asset_unsubscribe]
            split_ifs <;> rfl
          · simp [hu, hid, hn, Shader.destroy, Shader.removeShader, lmLog, glCall,
              loom_asset_unsubscribe]
        · by_cases hn : c.obj.name.length > 0
          · simp [hu, hid, hn, Shader.destroy, Shader.removeShader, lmLog, glCall,
              loom_asset_unsubscribe]
            split_ifs <;> rfl
          · simp [hu, hid, hn, Shader.destroy, Shader.removeShader, lmLog, glCall,
              loom_asset_unsubscribe]
      · simp [hu]

theorem release_shaders (sp : lmSptr) (w : World) :
    (release sp w).shaders = releaseHeap sp w.shaders := by
  cases sp with
  | none => simp [release, releaseHeap]
  | some p =>
    simp only [release, releaseHeap]
    cases hc : w.shaders p with
    | none => simp
    | some c =>
      simp only
      by_cases hu : c.useCount ≤ 1
      · by_cases hid : c.obj.id = 0
        · by_cases hn : c.obj.name.length > 0
          · simp [hu, hid, hn, Shader.destroy, Shader.removeShader, lmLog, glCall,
              loom_asset_unsubscribe]
            split_ifs <;> rfl
          · simp [hu, hid, hn, Shader.destroy, Shader.removeShader, lmLog, glCall,
              loom_asset_unsubscribe]
        · by_cases hn : c.obj.name.length > 0
          · simp [hu, hid, hn, Shader.destroy, Shader.removeShader, lmLog, glCall,
              loom_asset_unsubscribe]
            split_ifs <;> rfl
          · simp [hu, hid, hn, Shader.destroy, Shader.removeShader, lmLog, glCall,
              loom_asset_unsubscribe]
      · simp [hu]

theorem release_programs (sp : lmSptr) (w : World) :
    (release sp w).programs = w.programs := by
  cases sp with
  | none => simp [release]
  | some p =>
    simp only [release]
    cases hc : w.shaders p with
    | none => simp
    | some c =>
      simp only
      by_cases hu : c.useCount ≤ 1
      · by_cases hid : c.obj.id = 0
        · by_cases hn : c.obj.name.length > 0
          · simp [hu, hid, hn, Shader.destroy, Shader.removeShader, lmLog, glCall,
              loom_asset_unsubscribe]
            split_ifs <;> rfl
          · simp [hu, hid, hn, Shader.destroy, Shader.removeShader, lmLog, glCall,
              loom_asset_unsubscribe]
        · by_cases hn : c.obj.name.length > 0
          · simp [hu, hid, hn, Shader.destroy, Shader.removeShader, lmLog, glCall,
              loom_asset_unsubscribe]
            split_ifs <;> rfl
          · simp [hu, hid, hn, Shader.destroy, Shader.removeShader, lmLog, glCall,
              loom_asset_unsubscribe]
      · simp [hu]

theorem releaseCalls_all (sp : lmSptr) (heap : ShaderPtr → Option ShaderCell) :
    (releaseCalls sp heap).all GLCall.isDeleteShader = true ∧
    (releaseCalls sp heap).filter GLCall.isDetachShader = [] ∧
    (releaseCalls sp heap).filterMap GLCall.deletedProgram = [] ∧
    ∀ h, (releaseCalls sp heap).filterMap (GLCall.detachedFrom h) = [] := by
  cases sp with
  | none => simp [releaseCalls]
  | some p =>
    simp only [releaseCalls]
    cases heap p with
    | none => simp
    | some c =>
      simp only
      split_ifs <;>
        simp [GLCall.isDeleteShader, GLCall.isDetachShader, GLCall.deletedProgram,
          GLCall.detachedFrom]

theorem ShaderProgram.destroyMembers_spec (w : World) (this : ProgramPtr) (p : ShaderProgram)
    (order : Bool) (hp : w.programs this = some p) :
    (ShaderProgram.destroyMembers this order w).programs this = none ∧
    (ShaderProgram.destroyMembers this order w).gl =
      (if order then release p.vertexShader (release p.fragmentShader w)
        else release p.fragmentShader (release p.vertexShader w)).gl ∧
    (ShaderProgram.destroyMembers this order w).shaders =
      (if order then release p.vertexShader (release p.fragmentShader w)
        else release p.fragmentShader (release p.vertexShader w)).shaders := by
  simp [ShaderProgram.destroyMembers, hp]

/-- A successful `link()` leaves the program with a handle to which exactly the two
handles it stored as last-known have been attached. -/
theorem ShaderProgram.link_attachedAtLastLink (w : World) (this : ProgramPtr)
    (p : ShaderProgram) (fs vs : Shader) (hp : w.programs this = some p)
    (h0 : p.programId = 0)
    (hfs : deref p.fragmentShader w = some fs) (hvs : deref p.vertexShader w = some vs)
    (hok : w.driver.linkStatus
      (w.gl ++ ShaderProgram.linkCalls (w.driver.createProgram w.gl) fs vs)
      (w.driver.createProgram w.gl) = true) :
    ∃ w2 q, ShaderProgram.link this w = .ok () w2 ∧ w2.programs this = some q ∧
      q.programId = w.driver.createProgram w.gl ∧
      ShaderProgram.attachedAtLastLink q.programId w2.gl =
        [q.fragmentShaderId, q.vertexShaderId] := by
  obtain ⟨w2, hlink, -, -, -, hgood⟩ := ShaderProgram.link_spec w this p fs vs hp h0 hfs hvs
  obtain ⟨hq, hgl⟩ := hgood hok
  refine ⟨w2, _, hlink, hq, rfl, ?_⟩
  rw [hgl]
  simp only [ShaderProgram.attachedAtLastLink, ShaderProgram.linkTrace,
    ShaderProgram.linkCalls, ShaderProgram.attribCalls, ShaderProgram.validateQueries,
    List.foldl_append, List.foldl_cons, List.foldl_nil, beq_self_eq_true, if_true]
  split_ifs <;> simp

/-- C14 (amended): teardown of a program returns and leaves no program object.  With
handle 0 the destructor body makes no driver call: nothing is detached, no program is
deleted, the two members give up their owner shares, and the only driver calls are the
`glDeleteShader` calls of shaders that lose their last owner (none at all when the program
holds no shader).  With a nonzero handle whose last-known shader handles are the current
ones and are those attached at the last link, the two handles detached are exactly those
attached at the last link, both owner shares are given up, and the program object is
deleted exactly once. -/
theorem C14_teardown_of_program (w : World) (this : ProgramPtr) (p : ShaderProgram)
    (fs vs : Shader) (vertexDeclaredFirst : Bool)
    (hp : w.programs this = some p)
    (hlinked : p.programId ≠ 0 →
      deref p.fragmentShader w = some fs ∧ deref p.vertexShader w = some vs ∧
      p.fragmentShaderId = fs.id ∧ p.vertexShaderId = vs.id ∧
      ShaderProgram.attachedAtLastLink p.programId w.gl =
        [p.fragmentShaderId, p.vertexShaderId]) :
    ∃ w2 delta, ShaderProgram.destroy this vertexDeclaredFirst w = .ok () w2 ∧
      w2.programs this = none ∧ w2.gl = w.gl ++ delta ∧
      (p.programId = 0 →
        delta.all GLCall.isDeleteShader = true ∧
        (p.vertexShader = none → p.fragmentShader = none → delta = []) ∧
        w2.shaders =
          (if vertexDeclaredFirst then release p.vertexShader (release p.fragmentShader w)
            else release p.fragmentShader (release p.vertexShader w)).shaders) ∧
      (p.programId ≠ 0 →
        delta.filter GLCall.isDetachShader =
          [.glDetachShader p.programId p.vertexShaderId,
           .glDetachShader p.programId p.fragmentShaderId] ∧
        (delta.filterMap (GLCall.detachedFrom p.programId)).Perm
          (ShaderProgram.attachedAtLastLink p.programId w.gl) ∧
        delta.filterMap GLCall.deletedProgram = [p.programId] ∧
        w2.shaders = (release p.fragmentShader (release p.vertexShader w)).shaders) := by
  by_cases h0 : p.programId = 0
  · obtain ⟨hpr, hgl, hsh⟩ := ShaderProgram.destroyMembers_spec w this p vertexDeclaredFirst hp
    have hrun : ShaderProgram.destroy this vertexDeclaredFirst w =
        .ok () (ShaderProgram.destroyMembers this vertexDeclaredFirst w) := by
      simp [ShaderProgram.destroy, hp, h0]
    cases vertexDeclaredFirst
    · simp only [Bool.false_eq_true, if_false] at hgl hsh
      rw [release_gl, release_gl, release_shaders, List.append_assoc] at hgl
      refine ⟨_, _, hrun, hpr, hgl, fun _ => ⟨?_, ?_, hsh⟩, fun h => absurd h0 h⟩
      · simp [List.all_append, (releaseCalls_all _ _).1]
      · intro hv hf
        simp [hv, hf, releaseCalls]
    · simp only [if_true] at hgl hsh
      rw [release_gl, release_gl, release_shaders, List.append_assoc] at hgl
      refine ⟨_, _, hrun, hpr, hgl, fun _ => ⟨?_, ?_, hsh⟩, fun h => absurd h0 h⟩
      · simp [List.all_append, (releaseCalls_all _ _).1]
      · intro hv hf
        simp [hv, hf, releaseCalls]
  · obtain ⟨hfs, hvs, hfid, hvid, hatt⟩ := hlinked h0
    obtain ⟨w3, hw3⟩ : ∃ w3, w3 = release p.vertexShader
        (setProgram this (ShaderProgram.setMember .GL_VERTEX_SHADER none p)
          (glCall (.glDetachShader p.programId fs.id)
            (glCall (.glDetachShader p.programId vs.id) w))) := ⟨_, rfl⟩
    obtain ⟨w4, hw4⟩ : ∃ w4, w4 = release p.fragmentShader
        (setProgram this (ShaderProgram.setMember .GL_FRAGMENT_SHADER none
          (ShaderProgram.setMember .GL_VERTEX_SHADER none p)) w3) := ⟨_, rfl⟩
    have hp3 : w3.programs this =
        some (ShaderProgram.setMember .GL_VERTEX_SHADER none p) := by
      rw [hw3, release_programs]
      simp [setProgram]
    have hp4 : w4.programs this = some (ShaderProgram.setMember .GL_FRAGMENT_SHADER none
        (ShaderProgram.setMember .GL_VERTEX_SHADER none p)) := by
      rw [hw4, release_programs]
      simp [setProgram]
    have hrun : ShaderProgram.destroy this vertexDeclaredFirst w =
        .ok () (ShaderProgram.destroyMembers this vertexDeclaredFirst
          (glCall (.glDeleteProgram p.programId) w4)) := by
      unfold ShaderProgram.destroy
      simp only [hp, hvs, deref_glCall, hfs]
      have hb : (p.programId == 0) = false := by simp [h0]
      simp only [hb]
      have h1 : ShaderProgram.assignShader this .GL_VERTEX_SHADER none
          (glCall (.glDetachShader p.programId fs.id)
            (glCall (.glDetachShader p.programId vs.id) w)) = .ok () w3 := by
        simp [ShaderProgram.assignShader, programs_glCall, hp, hw3, ShaderProgram.member]
      have h2 : ShaderProgram.assignShader this .GL_FRAGMENT_SHADER none w3 = .ok () w4 := by
        simp [ShaderProgram.assignShader, hp3, hw4, ShaderProgram.member,
          ShaderProgram.setMember]
      simp [h1, h2, Outcome.andThen]
    have hp5 : (glCall (.glDeleteProgram p.programId) w4).programs this =
        some (ShaderProgram.setMember .GL_FRAGMENT_SHADER none
          (ShaderProgram.setMember .GL_VERTEX_SHADER none p)) := by
      rw [programs_glCall]; exact hp4
    obtain ⟨hpr, hgl, hsh⟩ := ShaderProgram.destroyMembers_spec _ this _ vertexDeclaredFirst hp5
    have hnone : ∀ wx : World,
        (if vertexDeclaredFirst then
          release (ShaderProgram.setMember .GL_FRAGMENT_SHADER none
              (ShaderProgram.setMember .GL_VERTEX_SHADER none p)).vertexShader
            (release (ShaderProgram.setMember .GL_FRAGMENT_SHADER none
              (ShaderProgram.setMember .GL_VERTEX_SHADER none p)).fragmentShader wx)
        else
          release (ShaderProgram.setMember .GL_FRAGMENT_SHADER none
              (ShaderProgram.setMember .GL_VERTEX_SHADER none p)).fragmentShader
            (release (ShaderProgram.setMember .GL_FRAGMENT_SHADER none
              (ShaderProgram.setMember .GL_VERTEX_SHADER none p)).vertexShader wx)) = wx := by
      intro wx
      simp [ShaderProgram.setMember, release]
    rw [hnone] at hgl hsh
    have hsh3 : w3.shaders = (release p.vertexShader w).shaders := by
      rw [hw3, release_shaders, release_shaders]
      simp [setProgram, glCall]
    have hsh4 : w4.shaders = (release p.fragmentShader (release p.vertexShader w)).shaders := by
      rw [hw4, release_shaders, release_shaders]
      simp only [setProgram]
      rw [hsh3]
    have hgl3 : w3.gl = w.gl ++ ([.glDetachShader p.programId vs.id,
        .glDetachShader p.programId fs.id] ++ releaseCalls p.vertexShader w.shaders) := by
      rw [hw3, release_gl]
      simp [setProgram, glCall]
    have hgl4 : w4.gl = w.gl ++ ([.glDetachShader p.programId vs.id,
        .glDetachShader p.programId fs.id] ++ releaseCalls p.vertexShader w.shaders ++
        releaseCalls p.fragmentShader (release p.vertexShader w).shaders) := by
      rw [hw4, release_gl]
      simp only [setProgram]
      rw [hgl3, hsh3]
      simp [List.append_assoc]
    have hgl5 : (ShaderProgram.destroyMembers this vertexDeclaredFirst
        (glCall (.glDeleteProgram p.programId) w4)).gl = w.gl ++
        ([.glDetachShader p.programId vs.id, .glDetachShader p.programId fs.id] ++
          releaseCalls p.vertexShader w.shaders ++
          releaseCalls p.fragmentShader (release p.vertexShader w).shaders ++
          [.glDeleteProgram p.programId]) := by
      rw [hgl, gl_glCall, hgl4]
      simp [List.append_assoc]
    have hdet : ([GLCall.glDetachShader p.programId vs.id,
          GLCall.glDetachShader p.programId fs.id] ++
          releaseCalls p.vertexShader w.shaders ++
          releaseCalls p.fragmentShader (release p.vertexShader w).shaders ++
          [GLCall.glDeleteProgram p.programId]).filterMap (GLCall.detachedFrom p.programId) =
        [p.vertexShaderId, p.fragmentShaderId] := by
      simp [List.filterMap_append, (releaseCalls_all _ _).2.2.2, GLCall.detachedFrom, hfid, hvid]
    refine ⟨_, _, hrun, hpr, hgl5, fun h => absurd h h0, fun _ => ⟨?_, ?_, ?_, ?_⟩⟩
    · simp [List.filter_append, (releaseCalls_all _ _).2.1, GLCall.isDetachShader, hfid, hvid]
    · rw [hdet, hatt]
      exact List.Perm.swap _ _ _
    · simp [List.filterMap_append, (releaseCalls_all _ _).2.2.1, GLCall.deletedProgram]
    · rw [hsh]
      simp only [glCall]
      exact hsh4

theorem C14_teardown_of_program_witness :
    (exampleLinked true).programs 0 = some exampleLinkedProgram ∧
    (exampleLinkedProgram.programId ≠ 0 →
      deref exampleLinkedProgram.fragmentShader (exampleLinked true) = some exampleFragment ∧
      deref exampleLinkedProgram.vertexShader (exampleLinked true) = some exampleVertex ∧
      exampleLinkedProgram.fragmentShaderId = exampleFragment.id ∧
      exampleLinkedProgram.vertexShaderId = exampleVertex.id ∧
      ShaderProgram.attachedAtLastLink exampleLinkedProgram.programId (exampleLinked true).gl =
        [exampleLinkedProgram.fragmentShaderId, exampleLinkedProgram.vertexShaderId]) ∧
    ∃ w2 delta, ShaderProgram.destroy 0 true (exampleLinked true) = .ok () w2 ∧
      w2.programs 0 = none ∧ w2.gl = (exampleLinked true).gl ++ delta ∧
      (exampleLinkedProgram.programId = 0 →
        delta.all GLCall.isDeleteShader = true ∧
        (exampleLinkedProgram.vertexShader = none → exampleLinkedProgram.fragmentShader = none → delta = []) ∧
        w2.shaders =
          (if true then release exampleLinkedProgram.vertexShader (release exampleLinkedProgram.fragmentShader (exampleLinked true))
            else release exampleLinkedProgram.fragmentShader (release exampleLinkedProgram.vertexShader (exampleLinked true))).shaders) ∧
      (exampleLinkedProgram.programId ≠ 0 →
        delta.filter GLCall.isDetachShader =
          [.glDetachShader exampleLinkedProgram.programId exampleLinkedProgram.vertexShaderId,
           .glDetachShader exampleLinkedProgram.programId exampleLinkedProgram.fragmentShaderId] ∧
        (delta.filterMap (GLCall.detachedFrom exampleLinkedProgram.programId)).Perm
          (ShaderProgram.attachedAtLastLink exampleLinkedProgram.programId (exampleLinked true).gl) ∧
        delta.filterMap GLCall.deletedProgram = [exampleLinkedProgram.programId] ∧
        w2.shaders = (release exampleLinkedProgram.fragmentShader (release exampleLinkedProgram.vertexShader (exampleLinked true))).shaders) :=
  ⟨by decide, fun _ => by decide,
   C14_teardown_of_program (exampleLinked true) 0 exampleLinkedProgram exampleFragment
     exampleVertex true (by decide) (fun _ => by decide)⟩

/-- C14 as stated fails for a program with handle 0 that holds shaders.  The example
program whose link failed has handle 0 and is the only owner of its two compiled shaders:
its teardown returns and makes two driver calls, the `glDeleteShader` of either shader,
in the order in which the members are destroyed. -/
theorem C14_teardown_with_handle_zero_deletes_shaders :
    ((exampleLinked false).programs 0).map (fun q => q.programId) = some 0 ∧
    (ShaderProgram.destroy 0 true (exampleLinked false)).returned = true ∧
    (ShaderProgram.destroy 0 true (exampleLinked false)).world.gl.drop
      (exampleLinked false).gl.length = [.glDeleteShader 6, .glDeleteShader 1] ∧
    (ShaderProgram.destroy 0 false (exampleLinked false)).returned = true ∧
    (ShaderProgram.destroy 0 false (exampleLinked false)).world.gl.drop
      (exampleLinked false).gl.length = [.glDeleteShader 1, .glDeleteShader 6] := by
  decide

/-- Teardown after a hot reload that no `bind()` has followed: the linked example program
had the shader handles 6 and 1 attached at its link, and its fragment shader has since
been reloaded to handle 21.  The destructor detaches the current handles 1 and 21, where
`bind()` in the same state detaches the last-known handles 6 and 1. -/
theorem ShaderProgram.teardown_after_reload_detaches_current_handles :
    ShaderProgram.attachedAtLastLink 11 exampleReloadedGood.gl = [6, 1] ∧
    ((ShaderProgram.destroy 0 true exampleReloadedGood).world.gl.drop
      exampleReloadedGood.gl.length).filter GLCall.isDetachShader =
        [.glDetachShader 11 1, .glDetachShader 11 21] ∧
    ((ShaderProgram.bind 0 exampleReloadedGood).world.gl.drop
      exampleReloadedGood.gl.length).filter GLCall.isDetachShader =
        [.glDetachShader 11 6, .glDetachShader 11 1] := by
  decide

/-! ## Tile keys -/

theorem bitOf_succ (n k : Nat) : bitOf n (k + 1) = bitOf (n / 2) k := by
  simp [bitOf, pow_succ, Nat.div_div_eq_div_mul, Nat.mul_comm]

theorem bitOf_zero_left (k : Nat) : bitOf 0 k = 0 := by
  simp [bitOf]

theorem bitOf_lt_two (n k : Nat) : bitOf n k < 2 := by
  unfold bitOf
  omega

theorem convertToBinaryLoop_spec : ∀ (fuel m n k : Nat) (buf : List Char),
    n < 2 ^ m → m ≤ fuel → m ≤ k → k ≤ buf.length →
    ∃ (nb : Nat) (out : List Char),
      convertToBinaryLoop fuel (n : Int) (k : Int) buf = some ((nb : Int), out) ∧
      out.length = buf.length ∧ nb ≤ k ∧
      (∀ j, j < nb → out[j]? = buf[j]? ∧ bitOf n (k - 1 - j) = 0) ∧
      (∀ j, nb ≤ j → j < k → out[j]? = some (if bitOf n (k - 1 - j) = 1 then '1' else '0')) ∧
      (∀ j, k ≤ j → out[j]? = buf[j]?) := by
  intro fuel
  induction fuel with
  | zero =>
    intro m n k buf hn hm hk hlen
    have hm0 : m = 0 := by omega
    subst hm0
    have hn0 : n = 0 := by simpa using hn
    subst hn0
    refine ⟨k, buf, by simp [convertToBinaryLoop], rfl, le_refl _, ?_, ?_, ?_⟩
    · intro j _
      exact ⟨rfl, bitOf_zero_left _⟩
    · intro j h1 h2
      omega
    · intro j _
      rfl
  | succ fuel ih =>
    intro m n k buf hn hm hk hlen
    by_cases hpos : n = 0
    · subst hpos
      refine ⟨k, buf, by simp [convertToBinaryLoop], rfl, le_refl _, ?_, ?_, ?_⟩
      · intro j _
        exact ⟨rfl, bitOf_zero_left _⟩
      · intro j h1 h2
        omega
      · intro j _
        rfl
    · have hm1 : 1 ≤ m := by
        rcases Nat.eq_zero_or_pos m with h | h
        · subst h
          simp at hn
          exact absurd hn hpos
        · exact h
      have hk1 : 1 ≤ k := le_trans hm1 hk
      have hhalf : n / 2 < 2 ^ (m - 1) := by
        have : 2 ^ m = 2 ^ (m - 1) * 2 := by
          rw [← pow_succ]
          congr 1
          omega
        rw [this] at hn
        exact Nat.div_lt_of_lt_mul (by rw [Nat.mul_comm]; exact hn)
      have hw : writeAt buf ((k : Int) - 1) (if Int.tmod (n : Int) 2 == 0 then '0' else '1') =
          some (buf.set (k - 1) (if n % 2 = 0 then '0' else '1')) := by
        have h1 : (0 : Int) ≤ (k : Int) - 1 ∧ (k : Int) - 1 < (buf.length : Int) := by
          constructor <;> omega
        have h2 : ((k : Int) - 1).toNat = k - 1 := by omega
        have h3 : Int.tmod (n : Int) 2 = ((n % 2 : Nat) : Int) := rfl
        simp only [writeAt, h1, and_self, if_true, h2, h3]
        congr 2
        by_cases h : n % 2 = 0
        · simp [h]
        · simp [h]
          omega
      have hd : Int.tdiv (n : Int) 2 = ((n / 2 : Nat) : Int) := rfl
      have hk' : (k : Int) - 1 = ((k - 1 : Nat) : Int) := by omega
      obtain ⟨nb, out, hrun, hlen', hnb, hlow, hmid, hhigh⟩ :=
        ih (m - 1) (n / 2) (k - 1) (buf.set (k - 1) (if n % 2 = 0 then '0' else '1'))
          hhalf (by omega) (by omega) (by simp; omega)
      have hgt : (n : Int) > 0 := by omega
      refine ⟨nb, out, ?_, ?_, by omega, ?_, ?_, ?_⟩
      · simp only [convertToBinaryLoop, hgt, if_true, hw, Option.bind_some, hd]
        rw [hk']
        exact hrun
      · simpa using hlen'
      · intro j hj
        obtain ⟨h1, h2⟩ := hlow j hj
        constructor
        · rw [h1, List.getElem?_set]
          have : k - 1 ≠ j := by omega
          simp [this]
        · have : k - 1 - j = (k - 1 - 1 - j) + 1 := by omega
          rw [this, bitOf_succ]
          exact h2
      · intro j h1 h2
        by_cases hj : j < k - 1
        · rw [hmid j h1 hj]
          have : k - 1 - j = (k - 1 - 1 - j) + 1 := by omega
          rw [this, bitOf_succ]
        · have hj' : j = k - 1 := by omega
          rw [hhigh j (by omega), List.getElem?_set]
          have hlt : k - 1 < buf.length := by omega
          have hb : bitOf n (k - 1 - j) = n % 2 := by
            rw [hj']
            simp [bitOf]
          simp only [hj', if_true, hlt]
          rw [hj'] at hb
          rw [hb]
          congr 1
          have := Nat.mod_two_eq_zero_or_one n
          rcases this with h | h <;> simp [h]
      · intro j hj
        rw [hhigh j (by omega), List.getElem?_set]
        have : k - 1 ≠ j := by omega
        simp [this]


theorem findIdx_terminated (l : List Char) (h : ∀ c ∈ l, c ≠ NUL) :
    (l ++ [NUL]).findIdx (fun c => c == NUL) = l.length := by
  induction l with
  | nil => simp [List.findIdx_cons]
  | cons a t ih =>
    have ha : a ≠ NUL := h a (List.mem_cons_self _ _)
    have ht : ∀ c ∈ t, c ≠ NUL := fun c hc => h c (List.mem_cons_of_mem _ hc)
    have hb : (a == NUL) = false := by simp [ha]
    simp [List.findIdx_cons, hb, ih ht]

theorem strlen_terminated (l : List Char) (h : ∀ c ∈ l, c ≠ NUL) :
    strlen (l ++ [NUL]) = some l.length := by
  simp [strlen, findIdx_terminated l h]

theorem cString_terminated (l : List Char) (h : ∀ c ∈ l, c ≠ NUL) :
    cString (l ++ [NUL]) = l := by
  induction l with
  | nil => simp [cString, List.takeWhile]
  | cons a t ih =>
    have ha : a ≠ NUL := h a (List.mem_cons_self _ _)
    have ht : ∀ c ∈ t, c ≠ NUL := fun c hc => h c (List.mem_cons_of_mem _ hc)
    have := ih ht
    simp only [cString] at this
    have hb : (a != NUL) = true := by simp [ha]
    simp [cString, List.takeWhile, hb, this]

theorem binary32_length (n : Nat) : (binary32 n).length = 32 := by
  simp [binary32]

theorem binary32_getElem? (n j : Nat) (hj : j < 32) :
    (binary32 n)[j]? = some (if bitOf n (31 - j) = 1 then '1' else '0') := by
  simp [binary32, List.getElem?_map, List.getElem?_range hj]

theorem binary32_ne_NUL (n : Nat) : ∀ c ∈ binary32 n, c ≠ NUL := by
  intro c hc
  simp only [binary32, List.mem_map] at hc
  obtain ⟨j, -, rfl⟩ := hc
  split_ifs <;> decide

/-- `convertToBinary(n)` for `0 ≤ n ≤ 2147483647`: the buffer then holds the 32-digit
zero-padded binary representation of `n` and the terminator. -/
theorem convertToBinary_spec (fuel n : Nat) (buf : List Char) (hfuel : 31 ≤ fuel)
    (hn : n ≤ 2147483647) (hlen : buf.length = 33) :
    convertToBinary fuel (n : Int) buf = some (binary32 n ++ [NUL]) := by
  have hw : writeAt buf 32 NUL = some (buf.set 32 NUL) := by
    simp [writeAt, hlen]
  obtain ⟨nb, out, hrun, hlen', hnb, hlow, hmid, hhigh⟩ :=
    convertToBinaryLoop_spec fuel 31 n 32 (buf.set 32 NUL) (by omega) hfuel (by omega)
      (by simp [hlen])
  have hneg : ¬ ((n : Int) < 0) := by omega
  have hout32 : out[32]? = some NUL := by
    rw [hhigh 32 (le_refl _), List.getElem?_set]
    simp [hlen]
  have hlen2 : out.length = 33 := by simpa [hlen] using hlen'
  unfold convertToBinary
  simp only [hneg, if_false, hw, Option.some_bind, decide_False]
  have hrun2 : convertToBinaryLoop fuel (n : Int) 32 (buf.set 32 NUL) = some ((nb : Int), out) := by
    exact_mod_cast hrun
  rw [hrun2]
  simp only [Option.some_bind]
  have hR : ∀ j, j < 32 →
      (binary32 n ++ [NUL])[j]? = some (if bitOf n (31 - j) = 1 then '1' else '0') := by
    intro j hj
    rw [List.getElem?_append_left (by simp [binary32_length, hj]), binary32_getElem? n j hj]
  have hR32 : (binary32 n ++ [NUL])[32]? = some NUL := by
    rw [List.getElem?_append_right (by simp [binary32_length])]
    simp [binary32_length]
  have hRlen : (binary32 n ++ [NUL]).length = 33 := by simp [binary32_length]
  by_cases hnb0 : nb = 0
  · subst hnb0
    simp only [Nat.cast_zero, gt_iff_lt, lt_self_iff_false, if_false]
    congr 1
    apply List.ext_getElem?
    intro j
    by_cases hj : j < 32
    · rw [hmid j (Nat.zero_le _) hj, hR j hj]
    · by_cases hj2 : j = 32
      · subst hj2
        rw [hout32, hR32]
      · rw [List.getElem?_eq_none (by omega), List.getElem?_eq_none (by omega)]
  · have hpos : (nb : Int) > 0 := by omega
    have hm : memset out '0' (nb : Int) =
        some (List.replicate nb '0' ++ out.drop nb) := by
      simp [memset, hlen2]
      omega
    simp only [hpos, if_true, hm, Bool.false_eq_true, if_false]
    congr 1
    apply List.ext_getElem?
    intro j
    by_cases hj : j < 32
    · rw [hR j hj]
      by_cases hjn : j < nb
      · rw [List.getElem?_append_left (by simp [hjn]), List.getElem?_replicate]
        have := (hlow j hjn).2
        have e : 32 - 1 - j = 31 - j := by omega
        rw [e] at this
        simp [hjn, this]
      · rw [List.getElem?_append_right (by simp; omega)]
        simp only [List.length_replicate, List.getElem?_drop]
        have e1 : nb + (j - nb) = j := by omega
        rw [e1, hmid j (by omega) hj]
    · by_cases hj2 : j = 32
      · subst hj2
        rw [List.getElem?_append_right (by simp; omega), hR32]
        simp only [List.length_replicate, List.getElem?_drop]
        have e1 : nb + (32 - nb) = 32 := by omega
        rw [e1, hout32]
      · rw [List.getElem?_eq_none (by simp [hlen2]; omega),
          List.getElem?_eq_none (by omega)]

theorem neg_lt_tmod (a b : Int) (hb : 0 < b) : -b < Int.tmod a b := by
  have h1 := Int.tmod_lt_of_pos (-a) hb
  have h2 := Int.tdiv_add_tmod a b
  have h3 := Int.tdiv_add_tmod (-a) b
  have h4 : (-a).tdiv b = -(a.tdiv b) := Int.neg_tdiv _ _
  rw [h4] at h3
  have h5 : (-a).tmod b = -(a.tmod b) := by
    have : b * -(a.tdiv b) = -(b * a.tdiv b) := by ring
    rw [this] at h3
    omega
  omega

theorem wrapColumn_nonneg (fuel : Nat) (t z : Int) (h : 0 ≤ t) :
    wrapColumn fuel t z = some t := by
  have hn : ¬ t < 0 := not_lt.mpr h
  cases fuel <;> simp [wrapColumn, hn]

theorem wrapColumn_neg (fuel : Nat) (t z : Int) (h : t < 0) :
    wrapColumn (fuel + 1) t z = wrapColumn fuel (t + z) z := by
  simp [wrapColumn, h]

/-- The wrap loop is done after at most one iteration and yields the non-negative
remainder. -/
theorem wrapColumn_spec (fuel : Nat) (col : Int) (zoom : Nat) (hfuel : 1 ≤ fuel) :
    wrapColumn fuel (Int.tmod col (2 ^ zoom)) (2 ^ zoom) = some (col % 2 ^ zoom) := by
  have hpos : (0 : Int) < 2 ^ zoom := by positivity
  have hlt := Int.tmod_lt_of_pos col hpos
  have hgt := neg_lt_tmod col (2 ^ zoom) hpos
  have hmod : (Int.tmod col (2 ^ zoom)) % 2 ^ zoom = col % 2 ^ zoom := by
    rw [Int.tmod_def, Int.sub_eq_add_neg, ← Int.mul_neg, Int.mul_comm, Int.add_mul_emod_self]
  obtain ⟨f, rfl⟩ : ∃ f, fuel = f + 1 := ⟨fuel - 1, by omega⟩
  by_cases hneg : Int.tmod col (2 ^ zoom) < 0
  · have hval : Int.tmod col (2 ^ zoom) + 2 ^ zoom = col % 2 ^ zoom := by
      rw [← hmod]
      have := Int.emod_eq_of_lt (a := Int.tmod col (2 ^ zoom) + 2 ^ zoom) (b := 2 ^ zoom)
        (by omega) (by omega)
      rw [← this]
      simp
    rw [wrapColumn_neg _ _ _ hneg, wrapColumn_nonneg _ _ _ (by omega), hval]
  · have hval : Int.tmod col (2 ^ zoom) = col % 2 ^ zoom := by
      rw [← hmod]
      exact (Int.emod_eq_of_lt (by omega) hlt).symm
    rw [wrapColumn_nonneg _ _ _ (by omega), hval]

theorem readAt_binary32 (n zoom i : Nat) (hz : zoom ≤ 32) (hi : i < zoom) :
    readAt (binary32 n ++ [NUL]) ((i : Int) + (((binary32 n).length : Int) - zoom)) =
      some (if bitOf n (zoom - 1 - i) = 1 then '1' else '0') := by
  have h1 : (0 : Int) ≤ (i : Int) + (((binary32 n).length : Int) - zoom) := by
    rw [binary32_length]; omega
  have h2 : ((i : Int) + (((binary32 n).length : Int) - zoom)).toNat = i + 32 - zoom := by
    rw [binary32_length]; omega
  simp only [readAt, h1, if_true, h2]
  rw [List.getElem?_append_left (by rw [binary32_length]; omega),
    binary32_getElem? n _ (by omega)]
  have e : 31 - (i + 32 - zoom) = zoom - 1 - i := by omega
  rw [e]

theorem zoomDigit_cases (c r : Nat) (hc : c < 2) (hr : r < 2) :
    (if (if r = 1 then '1' else '0') == '1' then
        (if (if c = 1 then '1' else '0') == '1' then '3' else '2')
      else (if c = 1 then '1' else '0')) = zoomDigit c r := by
  interval_cases c <;> interval_cases r <;> decide

theorem zoomStringLoop_spec (n m zoom : Nat) (hz : zoom ≤ 32) :
    ∀ count i, i + count = zoom →
      zoomStringLoop (binary32 m ++ [NUL]) (binary32 n ++ [NUL])
        (((binary32 m).length : Int) - zoom) (((binary32 n).length : Int) - zoom) count i =
      some ((List.range' i count).map fun t =>
        zoomDigit (bitOf n (zoom - 1 - t)) (bitOf m (zoom - 1 - t))) := by
  intro count
  induction count with
  | zero => intro i _; simp [zoomStringLoop]
  | succ count ih =>
    intro i hi
    have hlt : i < zoom := by omega
    simp only [zoomStringLoop, readAt_binary32 n zoom i hz hlt, readAt_binary32 m zoom i hz hlt,
      Option.some_bind, ih (i + 1) (by omega), Option.map_some', List.range'_succ, List.map_cons]
    rw [zoomDigit_cases _ _ (bitOf_lt_two _ _) (bitOf_lt_two _ _)]

theorem zoomDigit_mem (c r : Nat) (hc : c < 2) (hr : r < 2) :
    zoomDigit c r ∈ ['0', '1', '2', '3'] := by
  interval_cases c <;> interval_cases r <;> decide

/-- C15: for `0 ≤ zoom ≤ 24`, integer-valued `col` and `row` with `0 ≤ row < 2^zoom`, and
whatever the two static buffers hold, `getMSProviderZoomString(col, row, zoom)` returns a
string of exactly `zoom` characters, each one of `'0'`, `'1'`, `'2'`, `'3'`, whose `i`-th
character is the digit `c + 2 * r`, where `c` and `r` are bit `zoom - 1 - i` of `col mod
2^zoom` (taken in the non-negative range) and of `row`; and `convertToBinary(n)` leaves the
32-digit zero-padded binary representation of `n` in the buffer for every `0 ≤ n ≤
2147483647`.  Both loops with a condition are done within 31 iterations. -/
theorem C15_zoom_string_digits (fuel zoom : Nat) (col row : Int) (rowBuf colBuf : List Char)
    (hfuel : 31 ≤ fuel) (hz : zoom ≤ 24) (hr0 : 0 ≤ row) (hr : row < 2 ^ zoom)
    (hlr : rowBuf.length = 33) (hlc : colBuf.length = 33) :
    ∃ s, getMSProviderZoomString fuel col row zoom rowBuf colBuf = some s ∧
      s.length = zoom ∧
      (∀ ch ∈ s, ch ∈ ['0', '1', '2', '3']) ∧
      (∀ i, i < zoom → s[i]? = some (zoomDigit
        (bitOf (col % 2 ^ zoom).toNat (zoom - 1 - i)) (bitOf row.toNat (zoom - 1 - i)))) ∧
      (∀ (n : Int) (buf : List Char), 0 ≤ n → n ≤ 2147483647 → buf.length = 33 →
        convertToBinary fuel n buf = some (binary32 n.toNat ++ [NUL])) := by
  have hconv : ∀ (n : Int) (buf : List Char), 0 ≤ n → n ≤ 2147483647 → buf.length = 33 →
      convertToBinary fuel n buf = some (binary32 n.toNat ++ [NUL]) := by
    intro n buf h0 h1 hl
    have := convertToBinary_spec fuel n.toNat buf hfuel (by omega) hl
    rwa [Int.toNat_of_nonneg h0] at this
  have hpos : (0 : Int) < 2 ^ zoom := by positivity
  have hc0 : 0 ≤ col % 2 ^ zoom := Int.emod_nonneg _ (ne_of_gt hpos)
  have hc1 : col % 2 ^ zoom < 2 ^ zoom := Int.emod_lt_of_pos _ hpos
  have hpow : (2 : Int) ^ zoom ≤ 2 ^ 24 := by
    exact_mod_cast Nat.pow_le_pow_right (by norm_num) hz
  have hpow2 : (2 : Int) ^ 24 = 16777216 := by norm_num
  have hrow := hconv row rowBuf hr0 (by omega) hlr
  have hcol := hconv (col % 2 ^ zoom) colBuf hc0 (by omega) hlc
  have hloop := zoomStringLoop_spec (col % 2 ^ zoom).toNat row.toNat zoom (by omega) zoom 0
    (by omega)
  have hne : ∀ ch ∈ (List.range' 0 zoom).map (fun t =>
      zoomDigit (bitOf (col % 2 ^ zoom).toNat (zoom - 1 - t)) (bitOf row.toNat (zoom - 1 - t))),
      ch ∈ ['0', '1', '2', '3'] := by
    intro ch hch
    simp only [List.mem_map] at hch
    obtain ⟨t, -, rfl⟩ := hch
    exact zoomDigit_mem _ _ (bitOf_lt_two _ _) (bitOf_lt_two _ _)
  have hnn : ∀ ch ∈ (List.range' 0 zoom).map (fun t =>
      zoomDigit (bitOf (col % 2 ^ zoom).toNat (zoom - 1 - t)) (bitOf row.toNat (zoom - 1 - t))),
      ch ≠ NUL := by
    intro ch hch hnul
    have := hne ch hch
    rw [hnul] at this
    revert this
    decide
  refine ⟨_, ?_, ?_, hne, ?_, hconv⟩
  · unfold getMSProviderZoomString
    simp only [wrapColumn_spec fuel col zoom (by omega), Option.some_bind, hrow, hcol,
      strlen_terminated _ (binary32_ne_NUL _), hloop, Option.map_some',
      cString_terminated _ hnn]
  · simp
  · intro i hi
    simp [List.getElem?_map, List.getElem?_range' , hi]

theorem C15_zoom_string_digits_witness :
    31 ≤ 32 ∧ 3 ≤ 24 ∧ (0 : Int) ≤ 6 ∧ (6 : Int) < 2 ^ 3 ∧
    exampleBuffer.length = 33 ∧ exampleBuffer.length = 33 ∧
    ∃ s, getMSProviderZoomString 32 (-3) 6 3 exampleBuffer exampleBuffer = some s ∧
      s.length = 3 ∧
      (∀ ch ∈ s, ch ∈ ['0', '1', '2', '3']) ∧
      (∀ i, i < 3 → s[i]? = some (zoomDigit
        (bitOf ((-3 : Int) % 2 ^ 3).toNat (3 - 1 - i)) (bitOf (6 : Int).toNat (3 - 1 - i)))) ∧
      (∀ (n : Int) (buf : List Char), 0 ≤ n → n ≤ 2147483647 → buf.length = 33 →
        convertToBinary 32 n buf = some (binary32 n.toNat ++ [NUL])) :=
  ⟨by decide, by decide, by decide, by decide, by decide, by decide,
   C15_zoom_string_digits 32 3 (-3) 6 exampleBuffer exampleBuffer
     (by decide) (by decide) (by decide) (by decide) (by decide) (by decide)⟩

/-! ## WAV loader -/

theorem byteAt_lt (mem : Nat → Nat) (o : Nat) : byteAt mem o < 256 :=
  Nat.mod_lt _ (by norm_num)

theorem u32le_lt (mem : Nat → Nat) (o : Nat) : u32le mem o < 2 ^ 32 := by
  have h0 := byteAt_lt mem o
  have h1 := byteAt_lt mem (o + 1)
  have h2 := byteAt_lt mem (o + 2)
  have h3 := byteAt_lt mem (o + 3)
  unfold u32le
  omega

theorem chunkSpan_eq (mem : Nat → Nat) (o : Nat) :
    chunkSpan (u32le mem o) = 8 + u32le mem o := by
  have := u32le_lt mem o
  unfold chunkSpan
  omega

/-- The cursor advances by at least 8 bytes per iteration. -/
theorem chunkOffset_step (mem : Nat → Nat) (k : Nat) :
    chunkOffset mem k + 8 ≤ chunkOffset mem (k + 1) := by
  simp [chunkOffset]

theorem chunkOffset_mono (mem : Nat → Nat) (k j : Nat) (h : k ≤ j) :
    chunkOffset mem k ≤ chunkOffset mem j := by
  induction j with
  | zero =>
    have : k = 0 := by omega
    rw [this]
  | succ j ih =>
    by_cases hk : k = j + 1
    · rw [hk]
    · have := ih (by omega)
      have := chunkOffset_step mem j
      omega

/-- The chunk walk from the `k`-th chunk on ends within `fuel` iterations when `fuel`
covers the bytes left in the buffer; when it ends by returning, it returns `false` exactly
when it has met a `fmt ` chunk with a compression type other than 1. -/
theorem walkChunks_spec (bytes : List Nat) (inDataLen : Int) (riffSize : Nat) :
    ∀ (fuel k : Nat) (run : WavRun),
      (inDataLen - (chunkOffset (bufferOf bytes) k : Int)).toNat ≤ fuel →
      ∃ r, walkChunks bytes inDataLen riffSize fuel (chunkOffset (bufferOf bytes) k) run =
          some r ∧
        ∀ b out, r = .returned b out →
          (b = false ↔ ∃ j, k ≤ j ∧ (chunkOffset (bufferOf bytes) j : Int) < inDataLen ∧
            chunkOffset (bufferOf bytes) j < riffSize ∧
            tagAt (bufferOf bytes) (chunkOffset (bufferOf bytes) j) 'f' 'm' 't' ' ' = true ∧
            u16le (bufferOf bytes) (chunkOffset (bufferOf bytes) j + 8) ≠ 1) := by
  intro fuel
  induction fuel with
  | zero =>
    intro k run hfuel
    have hcond : ¬ ((chunkOffset (bufferOf bytes) k : Int) < inDataLen ∧
        chunkOffset (bufferOf bytes) k < riffSize) := by
      intro h
      omega
    refine ⟨.returned true run, by simp [walkChunks, hcond], ?_⟩
    intro b out hb
    injection hb with hb1 _
    subst hb1
    constructor
    · intro h
      exact absurd h (by simp)
    · rintro ⟨j, hkj, h1, h2, -, -⟩
      exfalso
      have := chunkOffset_mono (bufferOf bytes) k j hkj
      apply hcond
      constructor <;> omega
  | succ fuel ih =>
    intro k run hfuel
    by_cases hcond : (chunkOffset (bufferOf bytes) k : Int) < inDataLen ∧
        chunkOffset (bufferOf bytes) k < riffSize
    · have hnext : chunkOffset (bufferOf bytes) k +
            chunkSpan (u32le (bufferOf bytes) (chunkOffset (bufferOf bytes) k + 4)) =
          chunkOffset (bufferOf bytes) (k + 1) := by
        rw [chunkSpan_eq]
        simp [chunkOffset]
        omega
      have hstep := chunkOffset_step (bufferOf bytes) k
      have hfuel2 : (inDataLen - (chunkOffset (bufferOf bytes) (k + 1) : Int)).toNat ≤ fuel := by
        omega
      have hrest : ∀ run2, ¬ (tagAt (bufferOf bytes) (chunkOffset (bufferOf bytes) k)
              'f' 'm' 't' ' ' = true ∧
            u16le (bufferOf bytes) (chunkOffset (bufferOf bytes) k + 8) ≠ 1) →
          ∃ r, walkChunks bytes inDataLen riffSize fuel (chunkOffset (bufferOf bytes) (k + 1))
              run2 = some r ∧
            ∀ b out, r = .returned b out →
              (b = false ↔ ∃ j, k ≤ j ∧ (chunkOffset (bufferOf bytes) j : Int) < inDataLen ∧
                chunkOffset (bufferOf bytes) j < riffSize ∧
                tagAt (bufferOf bytes) (chunkOffset (bufferOf bytes) j) 'f' 'm' 't' ' ' = true ∧
                u16le (bufferOf bytes) (chunkOffset (bufferOf bytes) j + 8) ≠ 1) := by
        intro run2 hgood
        obtain ⟨r, hrun, hiff⟩ := ih (k + 1) run2 hfuel2
        refine ⟨r, hrun, fun b out hb => (hiff b out hb).trans ⟨?_, ?_⟩⟩
        · rintro ⟨j, hj, h⟩
          exact ⟨j, by omega, h⟩
        · rintro ⟨j, hj, h1, h2, h3, h4⟩
          by_cases hjk : j = k
          · subst hjk
            exact absurd ⟨h3, h4⟩ hgood
          · exact ⟨j, by omega, h1, h2, h3, h4⟩
      have hout : (∃ run2, walkChunks bytes inDataLen riffSize (fuel + 1)
            (chunkOffset (bufferOf bytes) k) run = some (.outOfBounds run2)) →
          ∃ r, walkChunks bytes inDataLen riffSize (fuel + 1) (chunkOffset (bufferOf bytes) k)
              run = some r ∧
            ∀ b out, r = .returned b out →
              (b = false ↔ ∃ j, k ≤ j ∧ (chunkOffset (bufferOf bytes) j : Int) < inDataLen ∧
                chunkOffset (bufferOf bytes) j < riffSize ∧
                tagAt (bufferOf bytes) (chunkOffset (bufferOf bytes) j) 'f' 'm' 't' ' ' = true ∧
                u16le (bufferOf bytes) (chunkOffset (bufferOf bytes) j + 8) ≠ 1) := by
        rintro ⟨run2, h2⟩
        exact ⟨_, h2, fun b out hb => WavResult.noConfusion hb⟩
      by_cases hhead : inBounds bytes (chunkOffset (bufferOf bytes) k) 8 = true
      · by_cases hfmt : tagAt (bufferOf bytes) (chunkOffset (bufferOf bytes) k) 'f' 'm' 't' ' '
            = true
        · by_cases hbody : inBounds bytes (chunkOffset (bufferOf bytes) k + 8) 16 = true
          · by_cases hpcm : u16le (bufferOf bytes) (chunkOffset (bufferOf bytes) k + 8) = 1
            · obtain ⟨r, hrun, hiff⟩ := hrest _ (fun h => h.2 hpcm)
              refine ⟨r, ?_, hiff⟩
              simp only [walkChunks, hcond, and_self, if_true, hhead, hbody, Bool.not_true,
                hfmt, hpcm, bne_self_eq_false, Bool.false_eq_true, if_false, hnext]
              exact hrun
            · have hbad : ∃ out, walkChunks bytes inDataLen riffSize (fuel + 1)
                  (chunkOffset (bufferOf bytes) k) run = some (.returned false out) := by
                have hne : (u16le (bufferOf bytes) (chunkOffset (bufferOf bytes) k + 8) != 1)
                    = true := by simp [hpcm]
                simp only [walkChunks, hcond, and_self, if_true, hhead, hbody, Bool.not_true,
                  Bool.false_eq_true, if_false, hfmt, hne]
                exact ⟨_, rfl⟩
              obtain ⟨out, hout2⟩ := hbad
              refine ⟨_, hout2, ?_⟩
              intro b out2 hb
              injection hb with hb1 _
              subst hb1
              constructor
              · intro _
                exact ⟨k, le_refl _, hcond.1, hcond.2, hfmt, hpcm⟩
              · intro _
                rfl
          · have hb2 : inBounds bytes (chunkOffset (bufferOf bytes) k + 8) 16 = false := by
              simpa using hbody
            apply hout
            simp only [walkChunks, hcond, and_self, if_true, hhead, hb2, Bool.not_true,
              Bool.not_false, Bool.false_eq_true, if_false, hfmt]
            exact ⟨_, rfl⟩
        · by_cases hdata : tagAt (bufferOf bytes) (chunkOffset (bufferOf bytes) k)
              'd' 'a' 't' 'a' = true
          · cases hod : run.outData with
            | none =>
              obtain ⟨r, hrun, hiff⟩ := hrest _ (fun h => hfmt h.1)
              refine ⟨r, ?_, hiff⟩
              simp only [walkChunks, hcond, and_self, if_true, hhead, Bool.not_true, hfmt,
                Bool.false_eq_true, if_false, hdata, hod, hnext]
              exact hrun
            | some o =>
              by_cases hcopy : inBounds bytes (chunkOffset (bufferOf bytes) k + 8)
                  (u32le (bufferOf bytes) (chunkOffset (bufferOf bytes) k + 4)) = true
              · obtain ⟨r, hrun, hiff⟩ := hrest _ (fun h => hfmt h.1)
                refine ⟨r, ?_, hiff⟩
                simp only [walkChunks, hcond, and_self, if_true, hhead, Bool.not_true, hfmt,
                  Bool.false_eq_true, if_false, hdata, hod, hcopy, hnext]
                exact hrun
              · have hc2 : inBounds bytes (chunkOffset (bufferOf bytes) k + 8)
                    (u32le (bufferOf bytes) (chunkOffset (bufferOf bytes) k + 4)) = false := by
                  simpa using hcopy
                apply hout
                simp only [walkChunks, hcond, and_self, if_true, hhead, Bool.not_true, hfmt,
                  Bool.false_eq_true, if_false, hdata, hod, hc2, Bool.not_false]
                exact ⟨_, rfl⟩
          · obtain ⟨r, hrun, hiff⟩ := hrest _ (fun h => hfmt h.1)
            refine ⟨r, ?_, hiff⟩
            simp only [walkChunks, hcond, and_self, if_true, hhead, Bool.not_true, hfmt,
              Bool.false_eq_true, if_false, hdata, hnext]
            exact hrun
      · have hh2 : inBounds bytes (chunkOffset (bufferOf bytes) k) 8 = false := by
          simpa using hhead
        apply hout
        simp only [walkChunks, hcond, and_self, if_true, hh2, Bool.not_false]
        exact ⟨_, rfl⟩
    · refine ⟨.returned true run, by simp [walkChunks, hcond], ?_⟩
      intro b out hb
      injection hb with hb1 _
      subst hb1
      constructor
      · intro h
        exact absurd h (by simp)
      · rintro ⟨j, hkj, h1, h2, -, -⟩
        exfalso
        have := chunkOffset_mono (bufferOf bytes) k j hkj
        apply hcond
        constructor <;> omega

theorem toInt32_small (n : Nat) (h : n < 2 ^ 31) : toInt32 n = (n : Int) := by
  have h1 : n % 2 ^ 32 = n := Nat.mod_eq_of_lt (by omega)
  unfold toInt32
  rw [if_pos (by rw [h1]; exact h), h1]

/-- A run of `load_wav` ends (the chunk walk is done within `fuel` iterations as soon as
`fuel` covers `inDataLen`, because the cursor advances by at least 8 bytes per iteration).
When it ends by returning, that is when no read has left the buffer, the value is `false`
if and only if the input pointer is null, or bytes 0..3 are not `RIFF`, or bytes 8..11 are
not `WAVE`, or `inDataLen` is less than 8 plus the little-endian RIFF `chunkDataSize`
taken as an `int32_t` (the plain sum when `chunkDataSize < 2^31 - 8`), or a chunk met by
the walk is a `fmt ` chunk with a compression type other than 1. -/
theorem load_wav_returned_false_iff (fuel : Nat) (inData : Option (List Nat))
    (inDataLen : Int) (outData : Option (List Nat)) (outInfo : Option wav_info)
    (hfuel : inDataLen.toNat ≤ fuel) :
    ∃ r, load_wav fuel inData inDataLen outData outInfo = some r ∧
      (∀ b run, r = .returned b run →
        (b = false ↔ wavRejected inData inDataLen) ∧
        (b = true ↔ ¬ wavRejected inData inDataLen)) ∧
      (∀ bytes, inData = some bytes → u32le (bufferOf bytes) 4 < 2 ^ 31 - 8 →
        toInt32 (8 + u32le (bufferOf bytes) 4) = 8 + (u32le (bufferOf bytes) 4 : Int)) ∧
      (∀ mem k, chunkOffset mem k + 8 ≤ chunkOffset mem (k + 1)) := by
  have harith : ∀ bytes, inData = some bytes → u32le (bufferOf bytes) 4 < 2 ^ 31 - 8 →
      toInt32 (8 + u32le (bufferOf bytes) 4) = 8 + (u32le (bufferOf bytes) 4 : Int) := by
    intro bytes _ h
    rw [toInt32_small _ (by omega)]
    push_cast
    rfl
  have hbool : ∀ (b : Bool) (P : Prop), (b = false ↔ P) → (b = true ↔ ¬ P) := by
    intro b P h
    cases b
    · simp [h.mp rfl]
    · constructor
      · intro _ hP
        exact absurd (h.mpr hP) (by simp)
      · intro _
        rfl
  suffices hmain : ∃ r, load_wav fuel inData inDataLen outData outInfo = some r ∧
      ∀ b run, r = .returned b run → (b = false ↔ wavRejected inData inDataLen) by
    obtain ⟨r, hrun, hiff⟩ := hmain
    exact ⟨r, hrun, fun b run hb => ⟨hiff b run hb, hbool b _ (hiff b run hb)⟩, harith,
      fun mem k => chunkOffset_step mem k⟩
  have hfalse : wavRejected inData inDataLen →
      (∃ run, load_wav fuel inData inDataLen outData outInfo = some (.returned false run)) →
      ∃ r, load_wav fuel inData inDataLen outData outInfo = some r ∧
        ∀ b run, r = .returned b run → (b = false ↔ wavRejected inData inDataLen) := by
    rintro hrej ⟨run, hrun⟩
    refine ⟨_, hrun, ?_⟩
    intro b out hb
    injection hb with hb1 _
    subst hb1
    exact ⟨fun _ => hrej, fun _ => rfl⟩
  cases inData with
  | none => exact hfalse (by simp [wavRejected]) ⟨_, rfl⟩
  | some bytes =>
    by_cases hhead : inBounds bytes 0 12 = true
    · by_cases hriff : tagAt (bufferOf bytes) 0 'R' 'I' 'F' 'F' = true
      · by_cases hwave : tagAt (bufferOf bytes) 8 'W' 'A' 'V' 'E' = true
        · by_cases hsize : inDataLen < toInt32 (8 + u32le (bufferOf bytes) 4)
          · apply hfalse (by simp [wavRejected, hsize])
            simp only [load_wav, hhead, hriff, hwave, Bool.not_true, Bool.false_eq_true,
              if_false, chunkSpan_eq, hsize, if_true]
            exact ⟨_, rfl⟩
          · obtain ⟨r, hrun, hiff⟩ := walkChunks_spec bytes inDataLen (u32le (bufferOf bytes) 4)
              fuel 0 ⟨outInfo, outData, [(0, 12)], [], []⟩ (by simp only [chunkOffset]; omega)
            refine ⟨r, ?_, ?_⟩
            · simp only [load_wav, hhead, hriff, hwave, Bool.not_true, Bool.false_eq_true,
                if_false, chunkSpan_eq, hsize]
              exact hrun
            · intro b out hb
              rw [hiff b out hb]
              simp only [wavRejected, hriff, hwave, hsize, Bool.true_eq_false, false_or,
                zero_le, true_and]
        · have hw : tagAt (bufferOf bytes) 8 'W' 'A' 'V' 'E' = false := by simpa using hwave
          apply hfalse (by simp [wavRejected, hw])
          simp only [load_wav, hhead, hriff, hw, Bool.not_true, Bool.not_false,
            Bool.false_eq_true, if_false, if_true]
          exact ⟨_, rfl⟩
      · have hr : tagAt (bufferOf bytes) 0 'R' 'I' 'F' 'F' = false := by simpa using hriff
        apply hfalse (by simp [wavRejected, hr])
        simp only [load_wav, hhead, hr, Bool.not_true, Bool.not_false, Bool.false_eq_true,
          if_false, if_true]
        exact ⟨_, rfl⟩
    · have hh : inBounds bytes 0 12 = false := by simpa using hhead
      have hrun : ∃ run, load_wav fuel (some bytes) inDataLen outData outInfo =
          some (.outOfBounds run) := by
        simp only [load_wav, hh, Bool.not_false, if_true]
        exact ⟨_, rfl⟩
      obtain ⟨run, hrun⟩ := hrun
      exact ⟨_, hrun, fun b out hb => WavResult.noConfusion hb⟩

/-- On a whole PCM file no read leaves the buffer and `load_wav` returns `true`, with the
format written to `outInfo` and the samples to `outData`. -/
theorem load_wav_examplePcm :
    load_wav 48 (some examplePcm) 48 (some []) (some ⟨0, 0, 0, 0⟩) =
      some (.returned true
        ⟨some ⟨2, 44100, 16, 4⟩, some [1, 2, 3, 4],
          [(0, 12), (12, 8), (20, 16), (36, 8), (44, 4)], [4], []⟩) := by
  decide

/-- C18, the code at the failing inputs.  Both 24-byte buffers pass every check of
`load_wav` (`RIFF`, `WAVE`, and `inDataLen = 24 ≥ 8 + 16`).  On the first, whose `data`
chunk declares 100 bytes of samples, the `memcpy` is called for the 100 bytes at offsets
20..119, to copy 100 bytes to `outData`, more than the 24 bytes the buffer holds.  On the
second, the 16-byte `fmt ` body is read at offsets 20..35.  The chunk headers read are
within the buffer; the run ends in the read that leaves it. -/
theorem C18_reads_past_the_end_of_the_buffer :
    exampleShortData.length = 24 ∧
    tagAt (bufferOf exampleShortData) 0 'R' 'I' 'F' 'F' = true ∧
    tagAt (bufferOf exampleShortData) 8 'W' 'A' 'V' 'E' = true ∧
    (24 : Int) ≥ 8 + (u32le (bufferOf exampleShortData) 4 : Int) ∧
    (load_wav 24 (some exampleShortData) 24 (some []) none).map (fun r => r.run.reads)
      = some [(0, 12), (12, 8), (20, 100)] ∧
    (load_wav 24 (some exampleShortData) 24 (some []) none).map (fun r => r.run.copied)
      = some [100] ∧
    (load_wav 24 (some exampleShortData) 24 (some []) none).map (fun r => r.value)
      = some none ∧
    inBounds exampleShortData 20 100 = false ∧
    exampleShortFmt.length = 24 ∧
    tagAt (bufferOf exampleShortFmt) 0 'R' 'I' 'F' 'F' = true ∧
    tagAt (bufferOf exampleShortFmt) 8 'W' 'A' 'V' 'E' = true ∧
    (24 : Int) ≥ 8 + (u32le (bufferOf exampleShortFmt) 4 : Int) ∧
    (load_wav 24 (some exampleShortFmt) 24 none none).map (fun r => r.run.reads)
      = some [(0, 12), (12, 8), (20, 16)] ∧
    (load_wav 24 (some exampleShortFmt) 24 none none).map (fun r => r.value)
      = some none ∧
    inBounds exampleShortFmt 20 16 = false := by
  decide

/-! ## Registry invariant -/

theorem World.sameNames_refl (w : World) : World.sameNames w w :=
  ⟨rfl, rfl, rfl, fun _ => rfl⟩

theorem World.sameNames_trans (w1 w2 w3 : World) (h12 : World.sameNames w1 w2)
    (h23 : World.sameNames w2 w3) : World.sameNames w1 w3 :=
  ⟨h23.1.trans h12.1, h23.2.1.trans h12.2.1, h23.2.2.1.trans h12.2.2.1,
    fun s => (h23.2.2.2 s).trans (h12.2.2.2 s)⟩

theorem World.alive_of_sameNames (w w2 : World) (h : World.sameNames w w2) (s : ShaderPtr)
    (c2 : ShaderCell) (hc : w2.shaders s = some c2) :
    ∃ c, w.shaders s = some c ∧ c.obj.name = c2.obj.name := by
  have := h.2.2.2 s
  rw [hc] at this
  cases hw : w.shaders s with
  | none => rw [hw] at this; simp at this
  | some c =>
    rw [hw] at this
    simp at this
    exact ⟨c, rfl, this.symm⟩

theorem World.dead_of_sameNames (w w2 : World) (h : World.sameNames w w2) (s : ShaderPtr)
    (hc : w.shaders s = none) : w2.shaders s = none := by
  have := h.2.2.2 s
  rw [hc] at this
  cases hw : w2.shaders s with
  | none => rfl
  | some c => rw [hw] at this; simp at this

theorem World.registryOk_of_sameNames (w w2 : World) (h : World.sameNames w w2)
    (hok : World.registryOk w) : World.registryOk w2 := by
  obtain ⟨hheap, hreg, hrem⟩ := hok
  refine ⟨?_, ?_, ?_⟩
  · intro q hq
    rw [h.2.1] at hq
    exact World.dead_of_sameNames w w2 h q (hheap q hq)
  · intro s c2 hc hn
    obtain ⟨c, hcw, hname⟩ := World.alive_of_sameNames w w2 h s c2 hc
    rw [← hname] at hn ⊢
    rw [h.1]
    exact hreg s c hcw hn
  · intro r hr
    rw [h.2.2.1] at hr
    obtain ⟨h1, h2, h3⟩ := hrem r hr
    exact ⟨h1, by rw [h.2.1]; exact h2, World.dead_of_sameNames w w2 h _ h3⟩

theorem sameNames_glCall (c : GLCall) (w : World) : World.sameNames w (glCall c w) :=
  ⟨rfl, rfl, rfl, fun _ => rfl⟩

theorem sameNames_lmLog (l : LogLevel) (f : String) (w : World) :
    World.sameNames w (lmLog l f w) :=
  ⟨rfl, rfl, rfl, fun _ => rfl⟩

theorem sameNames_setProgram (this : ProgramPtr) (p : ShaderProgram) (w : World) :
    World.sameNames w (setProgram this p w) :=
  ⟨rfl, rfl, rfl, fun _ => rfl⟩

theorem sameNames_subscribe (n : String) (this : ShaderPtr) (w : World) :
    World.sameNames w (loom_asset_subscribe n this w) :=
  ⟨rfl, rfl, rfl, fun _ => rfl⟩

theorem sameNames_setShaderId (this : ShaderPtr) (id : GLuint) (w : World) :
    World.sameNames w (setShaderId this id w) := by
  cases hc : w.shaders this with
  | none =>
    simp only [setShaderId, hc]
    exact World.sameNames_refl w
  | some c =>
    simp only [setShaderId, hc]
    refine ⟨rfl, rfl, rfl, fun s => ?_⟩
    by_cases hs : s = this
    · subst hs
      simp [hc]
    · simp [Function.update, hs]

theorem sameNames_retain (sp : lmSptr) (w : World) : World.sameNames w (retain sp w) := by
  cases sp with
  | none => exact World.sameNames_refl w
  | some p =>
    cases hc : w.shaders p with
    | none =>
      simp only [retain, hc]
      exact World.sameNames_refl w
    | some c =>
      simp only [retain, hc]
      refine ⟨rfl, rfl, rfl, fun s => ?_⟩
      by_cases hs : s = p
      · subst hs
        simp [hc]
      · simp [Function.update, hs]

theorem Shader.shader_validate_sameNames (s : Shader) (w : World) :
    World.sameNames w (Shader.validate s w).2 := by
  unfold Shader.validate
  simp only
  split_ifs <;> exact ⟨rfl, rfl, rfl, fun _ => rfl⟩

theorem ShaderProgram.program_validate_sameNames (p : ShaderProgram) (w : World) :
    World.sameNames w (ShaderProgram.validate p w).2 := by
  unfold ShaderProgram.validate
  simp only
  split_ifs <;> exact ⟨rfl, rfl, rfl, fun _ => rfl⟩

theorem ShaderProgram.activate_sameNames (p : ShaderProgram) (w : World) :
    World.sameNames w (ShaderProgram.activate p w) := by
  unfold ShaderProgram.activate
  simp only
  split_ifs <;> exact ⟨rfl, rfl, rfl, fun _ => rfl⟩

theorem Shader.load_sameNames (this : ShaderPtr) (src : Option String) (w : World) :
    World.sameNames w (Shader.load this src w).world := by
  cases hc : w.shaders this with
  | none =>
    simp only [Shader.load, hc, Outcome.world]
    exact World.sameNames_refl w
  | some c =>
    simp only [Shader.load, hc, lmAssert]
    by_cases h0 : (c.obj.id == 0) = true
    · simp only [h0, if_true]
      have h1 : World.sameNames w (setShaderId this (w.driver.createShader w.gl c.obj.type)
          (glCall (.glCreateShader c.obj.type (w.driver.createShader w.gl c.obj.type)) w)) :=
        World.sameNames_trans _ _ _ (sameNames_glCall _ _) (sameNames_setShaderId _ _ _)
      cases src with
      | none => exact h1
      | some text =>
        simp only
        have h2 := World.sameNames_trans _ _ _ h1
          (World.sameNames_trans _ _ _ (sameNames_glCall
            (.glShaderSource (w.driver.createShader w.gl c.obj.type) text) _)
            (sameNames_glCall (.glCompileShader (w.driver.createShader w.gl c.obj.type)) _))
        have hv := Shader.shader_validate_sameNames
          { c.obj with id := w.driver.createShader w.gl c.obj.type }
          (glCall (.glCompileShader (w.driver.createShader w.gl c.obj.type))
            (glCall (.glShaderSource (w.driver.createShader w.gl c.obj.type) text)
              (setShaderId this (w.driver.createShader w.gl c.obj.type)
                (glCall (.glCreateShader c.obj.type (w.driver.createShader w.gl c.obj.type)) w))))
        rcases hval : Shader.validate
          { c.obj with id := w.driver.createShader w.gl c.obj.type }
          (glCall (.glCompileShader (w.driver.createShader w.gl c.obj.type))
            (glCall (.glShaderSource (w.driver.createShader w.gl c.obj.type) text)
              (setShaderId this (w.driver.createShader w.gl c.obj.type)
                (glCall (.glCreateShader c.obj.type (w.driver.createShader w.gl c.obj.type)) w))))
          with ⟨b, w3⟩
        rw [hval] at hv
        have h3 := World.sameNames_trans _ _ _ h2 hv
        cases b
        · exact World.sameNames_trans _ _ _ h3
            (World.sameNames_trans _ _ _ (sameNames_glCall _ _) (sameNames_setShaderId _ _ _))
        · exact h3
    · simp only [h0, Bool.false_eq_true, if_false]
      exact World.sameNames_refl w

theorem Outcome.world_of_ok {α : Type} (r : Outcome α) (a : α) (w : World) (h : r = .ok a w) :
    r.world = w := by
  rw [h]; rfl

theorem ShaderProgram.link_sameNames (this : ProgramPtr) (w : World) :
    World.sameNames w (ShaderProgram.link this w).world := by
  cases hp : w.programs this with
  | none =>
    simp only [ShaderProgram.link, hp, Outcome.world]
    exact World.sameNames_refl w
  | some p =>
    simp only [ShaderProgram.link, hp, lmAssert]
    by_cases h0 : (p.programId == 0) = true
    · simp only [h0, if_true]
      have h1 : World.sameNames w (setProgram this
          { p with programId := w.driver.createProgram w.gl }
          (glCall (.glCreateProgram (w.driver.createProgram w.gl)) w)) :=
        World.sameNames_trans _ _ _ (sameNames_glCall _ _) (sameNames_setProgram _ _ _)
      simp only [deref_setProgram, deref_glCall]
      cases hfs : deref p.fragmentShader w with
      | none => exact h1
      | some fs =>
        simp only
        cases hvs : deref p.vertexShader w with
        | none => exact World.sameNames_trans _ _ _ h1 (sameNames_glCall _ _)
        | some vs =>
          simp only
          have h2 := World.sameNames_trans _ _ _ h1
            (World.sameNames_trans _ _ _ (sameNames_glCall
              (.glAttachShader (w.driver.createProgram w.gl) fs.id) _)
              (World.sameNames_trans _ _ _ (sameNames_glCall
                (.glAttachShader (w.driver.createProgram w.gl) vs.id) _)
                (sameNames_glCall (.glLinkProgram (w.driver.createProgram w.gl)) _)))
          have hv := ShaderProgram.program_validate_sameNames
            { p with programId := w.driver.createProgram w.gl }
            (glCall (.glLinkProgram (w.driver.createProgram w.gl))
              (glCall (.glAttachShader (w.driver.createProgram w.gl) vs.id)
                (glCall (.glAttachShader (w.driver.createProgram w.gl) fs.id)
                  (setProgram this { p with programId := w.driver.createProgram w.gl }
                    (glCall (.glCreateProgram (w.driver.createProgram w.gl)) w)))))
          rcases hval : ShaderProgram.validate
            { p with programId := w.driver.createProgram w.gl }
            (glCall (.glLinkProgram (w.driver.createProgram w.gl))
              (glCall (.glAttachShader (w.driver.createProgram w.gl) vs.id)
                (glCall (.glAttachShader (w.driver.createProgram w.gl) fs.id)
                  (setProgram this { p with programId := w.driver.createProgram w.gl }
                    (glCall (.glCreateProgram (w.driver.createProgram w.gl)) w)))))
            with ⟨b, w4⟩
          rw [hval] at hv
          have h3 := World.sameNames_trans _ _ _ h2 hv
          cases b
          · exact World.sameNames_trans _ _ _ h3
              (World.sameNames_trans _ _ _ (sameNames_glCall _ _) (sameNames_setProgram _ _ _))
          · exact World.sameNames_trans _ _ _ h3
              (World.sameNames_trans _ _ _ (sameNames_glCall _ _)
                (World.sameNames_trans _ _ _ (sameNames_glCall _ _)
                  (World.sameNames_trans _ _ _ (sameNames_glCall _ _)
                    (sameNames_setProgram _ _ _))))
    · simp only [h0, Bool.false_eq_true, if_false]
      exact World.sameNames_refl w

theorem ShaderProgram.bind_sameNames (this : ProgramPtr) (w : World) :
    World.sameNames w (ShaderProgram.bind this w).world := by
  cases hp : w.programs this with
  | none =>
    simp only [ShaderProgram.bind, hp, Outcome.world]
    exact World.sameNames_refl w
  | some p =>
    simp only [ShaderProgram.bind, hp]
    have h1 : World.sameNames w
        { (if p.programId == 0 then lmLog .error "Binding an uninitalized shader!" w else w) with
          lastBoundShader := some this } := by
      split_ifs <;> exact ⟨rfl, rfl, rfl, fun _ => rfl⟩
    rcases hst : ShaderProgram.stale p
        { (if p.programId == 0 then lmLog .error "Binding an uninitalized shader!" w else w) with
          lastBoundShader := some this } with _ | b
    · exact h1
    · cases b
      · exact World.sameNames_trans _ _ _ h1 (ShaderProgram.activate_sameNames _ _)
      · simp only
        have h2 := World.sameNames_trans _ _ _ h1
          (World.sameNames_trans _ _ _ (sameNames_glCall
            (.glDetachShader p.programId p.fragmentShaderId) _)
            (World.sameNames_trans _ _ _ (sameNames_glCall
              (.glDetachShader p.programId p.vertexShaderId) _)
              (World.sameNames_trans _ _ _ (sameNames_glCall (.glDeleteProgram p.programId) _)
                (sameNames_setProgram this { p with programId := 0 } _))))
        have hl := ShaderProgram.link_sameNames this
          (setProgram this { p with programId := 0 }
            (glCall (.glDeleteProgram p.programId)
              (glCall (.glDetachShader p.programId p.vertexShaderId)
                (glCall (.glDetachShader p.programId p.fragmentShaderId)
                  { (if p.programId == 0 then
                      lmLog .error "Binding an uninitalized shader!" w else w) with
                    lastBoundShader := some this }))))
        have h3 := World.sameNames_trans _ _ _ h2 hl
        rcases hlink : ShaderProgram.link this
          (setProgram this { p with programId := 0 }
            (glCall (.glDeleteProgram p.programId)
              (glCall (.glDetachShader p.programId p.vertexShaderId)
                (glCall (.glDetachShader p.programId p.fragmentShaderId)
                  { (if p.programId == 0 then
                      lmLog .error "Binding an uninitalized shader!" w else w) with
                    lastBoundShader := some this })))) with ⟨u, w4⟩ | ⟨f, w4⟩
        · rw [hlink] at h3
          simp only [Outcome.andThen]
          cases hq : w4.programs this with
          | none => exact h3
          | some q => exact World.sameNames_trans _ _ _ h3 (ShaderProgram.activate_sameNames _ _)
        · rw [hlink] at h3
          exact h3

theorem Shader.reload_sameNames (this : ShaderPtr) (w : World) :
    World.sameNames w (Shader.reload this w).world := by
  cases hc : w.shaders this with
  | none =>
    simp only [Shader.reload, hc, Outcome.world]
    exact World.sameNames_refl w
  | some c =>
    simp only [Shader.reload, hc]
    have h1 : World.sameNames w (setShaderId this 0 (glCall (.glDeleteShader c.obj.id) w)) :=
      World.sameNames_trans _ _ _ (sameNames_glCall _ _) (sameNames_setShaderId _ _ _)
    have h2 : World.sameNames (setShaderId this 0 (glCall (.glDeleteShader c.obj.id) w))
        (Shader.getSourceFromAsset c.obj
          (setShaderId this 0 (glCall (.glDeleteShader c.obj.id) w))).2 := by
      unfold Shader.getSourceFromAsset
      split
      · exact sameNames_lmLog _ _ _
      · exact World.sameNames_refl _
    rcases hsrc : Shader.getSourceFromAsset c.obj
        (setShaderId this 0 (glCall (.glDeleteShader c.obj.id) w)) with ⟨src, w2⟩
    rw [hsrc] at h2
    simp only
    have h3 := World.sameNames_trans _ _ _ (World.sameNames_trans _ _ _ h1 h2)
      (Shader.load_sameNames this src w2)
    rcases hload : Shader.load this src w2 with ⟨b, w3⟩ | ⟨f, w3⟩
    · rw [hload] at h3
      exact h3
    · rw [hload] at h3
      exact h3

theorem UniformCall.run_sameNames (this : ProgramPtr) (c : UniformCall) (w : World) :
    World.sameNames w (UniformCall.run this c w).world := by
  cases c <;>
    simp only [UniformCall.run, ShaderProgram.setUniform1f, ShaderProgram.setUniform1fv,
      ShaderProgram.setUniform2f, ShaderProgram.setUniform2fv, ShaderProgram.setUniform3f,
      ShaderProgram.setUniform3fv, ShaderProgram.setUniform1i, ShaderProgram.setUniform1iv,
      ShaderProgram.setUniform2i, ShaderProgram.setUniform2iv, ShaderProgram.setUniform3i,
      ShaderProgram.setUniform3iv, ShaderProgram.setUniformMatrix3f,
      ShaderProgram.setUniformMatrix3fv, ShaderProgram.setUniformMatrix4f,
      ShaderProgram.setUniformMatrix4fv, lmAssert] <;>
    first
      | exact sameNames_glCall _ _
      | (split_ifs <;> exact World.sameNames_refl w)

theorem Shader.destroy_fields (this : ShaderPtr) (s : Shader) (w : World) :
    (Shader.destroy this s w).shaders = Function.update w.shaders this none ∧
    (Shader.destroy this s w).nextShader = w.nextShader ∧
    (∀ k, k ≠ s.name →
      lmMap.index (Shader.destroy this s w).liveShaders k = lmMap.index w.liveShaders k ∧
      lmMap.entries (Shader.destroy this s w).liveShaders k = lmMap.entries w.liveShaders k) ∧
    (Shader.destroy this s w).removals =
      (if s.name.length > 0 then
        w.removals ++ [⟨this, s.name, lmMap.index w.liveShaders s.name⟩]
      else w.removals) := by
  by_cases hn : s.name.length > 0
  · by_cases hc : lmMap.count w.liveShaders s.name = 0
    · by_cases hid : s.id = 0 <;>
        simp [Shader.destroy, Shader.removeShader, noteRemoval, loom_asset_unsubscribe, lmLog,
          glCall, hn, hc, hid]
    · by_cases hid : s.id = 0 <;>
        simp [Shader.destroy, Shader.removeShader, noteRemoval, loom_asset_unsubscribe, lmLog,
          glCall, hn, hc, hid] <;>
        intro k hk <;>
        exact ⟨by rw [lmMap.index_erase]; simp [Ne.symm hk],
          lmMap.entries_erase_ne _ _ _ (Ne.symm hk)⟩
  · by_cases hid : s.id = 0 <;>
      simp [Shader.destroy, lmLog, glCall, hn, hid]

/-- A shader that is alive after an owner share has been given up was alive before, with
the same members. -/
theorem release_alive (sp : lmSptr) (w : World) (s : ShaderPtr) (c2 : ShaderCell)
    (h : (release sp w).shaders s = some c2) :
    ∃ c, w.shaders s = some c ∧ c.obj = c2.obj := by
  rw [release_shaders] at h
  cases sp with
  | none => exact ⟨c2, h, rfl⟩
  | some p =>
    simp only [releaseHeap] at h
    cases hc : w.shaders p with
    | none =>
      simp only [hc] at h
      exact ⟨c2, h, rfl⟩
    | some c =>
      simp only [hc] at h
      by_cases hs : s = p
      · subst hs
        split_ifs at h with hu
        · simp [Function.update] at h
        · simp [Function.update] at h
          exact ⟨c, hc, by rw [← h]⟩
      · split_ifs at h with hu
        · simp only [Function.update, hs, dite_false] at h
          exact ⟨c2, h, rfl⟩
        · simp only [Function.update, hs, dite_false] at h
          exact ⟨c2, h, rfl⟩

/-- Giving up an owner share keeps the registry invariant: a shader that loses its last
owner erases its own entry, and every other live shader keeps its entry. -/
theorem release_registryOk (sp : lmSptr) (w : World) (hok : World.registryOk w) :
    World.registryOk (release sp w) := by
  cases sp with
  | none => simpa [release] using hok
  | some p =>
    cases hc : w.shaders p with
    | none => simpa [release, hc] using hok
    | some c =>
      by_cases hu : c.useCount ≤ 1
      · have hrel : release (some p) w = Shader.destroy p c.obj w := by
          simp [release, hc, hu]
        rw [hrel]
        obtain ⟨hsh, hnext, hreg2, hrem2⟩ := Shader.destroy_fields p c.obj w
        obtain ⟨hheap, hreg, hrem⟩ := hok
        refine ⟨?_, ?_, ?_⟩
        · intro q hq
          rw [hnext] at hq
          rw [hsh]
          by_cases hqp : q = p
          · rw [hqp]
            exact Function.update_same _ _ _
          · simp [Function.update, hqp, hheap q hq]
        · intro s c2 hc2 hn
          rw [hsh] at hc2
          have hsp : s ≠ p := by
            intro h
            rw [h] at hc2
            simp [Function.update] at hc2
          simp only [Function.update, hsp, dite_false] at hc2
          obtain ⟨hi, he⟩ := hreg s c2 hc2 hn
          have hne : c2.obj.name ≠ c.obj.name := by
            intro heq
            have hn2 : c.obj.name.length > 0 := by rw [← heq]; exact hn
            have := (hreg p c hc hn2).1
            rw [← heq, hi] at this
            exact hsp (by simpa using this)
          obtain ⟨hi2, he2⟩ := hreg2 c2.obj.name hne
          exact ⟨hi2.trans hi, he2.trans he⟩
        · intro r hr
          rw [hrem2] at hr
          have hold : ∀ r ∈ w.removals, r.entry = some r.shader ∧
              r.shader < (Shader.destroy p c.obj w).nextShader ∧
              (Shader.destroy p c.obj w).shaders r.shader = none := by
            intro r hr
            obtain ⟨h1, h2, h3⟩ := hrem r hr
            refine ⟨h1, by rw [hnext]; exact h2, ?_⟩
            rw [hsh]
            by_cases hrp : r.shader = p
            · rw [hrp]
              exact Function.update_same _ _ _
            · simp [Function.update, hrp, h3]
          by_cases hn : c.obj.name.length > 0
          · simp only [hn, if_true, List.mem_append, List.mem_singleton] at hr
            rcases hr with hr | hr
            · exact hold r hr
            · subst hr
              refine ⟨(hreg p c hc hn).1, ?_, ?_⟩
              · rw [hnext]
                exact World.alive_lt_of_heapOk w hheap p c hc
              · rw [hsh]
                simp
          · simp only [hn, if_false] at hr
            exact hold r hr
      · have hrel : release (some p) w =
            { w with
              shaders :=
                Function.update w.shaders p (some { c with useCount := c.useCount - 1 }) } := by
          simp [release, hc, hu]
        rw [hrel]
        apply World.registryOk_of_sameNames w _ _ hok
        refine ⟨rfl, rfl, rfl, fun s => ?_⟩
        by_cases hs : s = p
        · subst hs
          simp [hc]
        · simp [Function.update, hs]

theorem Shader.getShader_registryOk (n : String) (w : World) (hok : World.registryOk w) :
    World.registryOk (Shader.getShader n w).2 ∧
    (Shader.getShader n w).2.programs = w.programs ∧
    ((Shader.getShader n w).1 = none → n.length > 0 →
      World.unnamed n (Shader.getShader n w).2) := by
  unfold Shader.getShader
  by_cases hcount : lmMap.count w.liveShaders n = 0
  · simp only [hcount, bne_self_eq_false, Bool.false_eq_true, if_false]
    refine ⟨hok, trivial, fun _ hn s c hc hname => ?_⟩
    have hn2 : c.obj.name.length > 0 := by rw [hname]; exact hn
    have hi := (hok.2.1 s c hc hn2).1
    rw [hname] at hi
    exact lmMap.count_ne_zero_of_index _ _ _ hi hcount
  · have hb : (lmMap.count w.liveShaders n != 0) = true := by simpa using hcount
    simp only [hb, if_true]
    by_cases he : expired (lmMap.index w.liveShaders n) w = true
    · simp only [he, if_true]
      have hun : World.unnamed n w ∨ n.length = 0 := by
        by_cases hn : n.length > 0
        · left
          intro s c hc hname
          have hn2 : c.obj.name.length > 0 := by rw [hname]; exact hn
          have hi := (hok.2.1 s c hc hn2).1
          rw [hname] at hi
          rw [hi] at he
          simp [expired, hc] at he
        · right
          omega
      obtain ⟨hheap, hreg, hrem⟩ := hok
      refine ⟨⟨hheap, ?_, hrem⟩, trivial, ?_⟩
      · intro s c hc hnm
        have hne : c.obj.name ≠ n := by
          rcases hun with h | h
          · exact h s c hc
          · intro heq
            rw [heq] at hnm
            omega
        obtain ⟨hi, hen⟩ := hreg s c hc hnm
        refine ⟨?_, ?_⟩
        · show lmMap.index (lmMap.erase w.liveShaders n) c.obj.name = some s
          rw [lmMap.index_erase]
          simp [Ne.symm hne, hi]
        · show lmMap.entries (lmMap.erase w.liveShaders n) c.obj.name = 1
          rw [lmMap.entries_erase_ne _ _ _ (Ne.symm hne)]
          exact hen
      · intro _ hn
        rcases hun with h | h
        · exact h
        · omega
    · simp only [he, Bool.false_eq_true, if_false]
      refine ⟨World.registryOk_of_sameNames w _ (sameNames_retain _ _) hok, ?_, ?_⟩
      · cases hidx : lmMap.index w.liveShaders n with
        | none => simp [retain]
        | some p =>
          cases hc : w.shaders p with
          | none => simp [retain, hc]
          | some c => simp [retain, hc]
      · intro hnone
        rw [hnone] at he
        simp [expired] at he

theorem ShaderProgram.assignShader_registryOk (this : ProgramPtr) (slot : ShaderType)
    (sp : lmSptr) (w w2 : World) (hok : World.registryOk w)
    (h : ShaderProgram.assignShader this slot sp w = .ok () w2) :
    World.registryOk w2 ∧
    (∃ p, w.programs this = some p ∧
      w2.programs this = some (ShaderProgram.setMember slot sp p)) ∧
    (∀ n, World.unnamed n w → World.unnamed n w2) := by
  unfold ShaderProgram.assignShader at h
  cases hp : w.programs this with
  | none => simp [hp] at h
  | some p =>
    simp only [hp] at h
    injection h with _ hw
    subst hw
    refine ⟨release_registryOk _ _
      (World.registryOk_of_sameNames w _ (sameNames_setProgram _ _ _) hok), ⟨p, rfl, ?_⟩, ?_⟩
    · rw [release_programs]
      simp [setProgram]
    · intro n hun s c2 hc2
      obtain ⟨c, hc, hobj⟩ := release_alive _ _ s c2 hc2
      rw [← hobj]
      exact hun s c hc

theorem programs_setShaderId (this : ShaderPtr) (id : GLuint) (w : World) :
    (setShaderId this id w).programs = w.programs := by
  unfold setShaderId
  split <;> rfl

theorem Shader.load_programs (this : ShaderPtr) (src : Option String) (w : World) :
    (Shader.load this src w).world.programs = w.programs := by
  cases hc : w.shaders this with
  | none => simp [Shader.load, hc, Outcome.world]
  | some c =>
    simp only [Shader.load, hc, lmAssert]
    split_ifs
    · cases src with
      | none => simp [Outcome.world, programs_setShaderId]
      | some text =>
        simp only
        have hv := Shader.shader_validate_programs
          { c.obj with id := w.driver.createShader w.gl c.obj.type }
          (glCall (.glCompileShader (w.driver.createShader w.gl c.obj.type))
            (glCall (.glShaderSource (w.driver.createShader w.gl c.obj.type) text)
              (setShaderId this (w.driver.createShader w.gl c.obj.type)
                (glCall (.glCreateShader c.obj.type (w.driver.createShader w.gl c.obj.type)) w))))
        rcases hval : Shader.validate
          { c.obj with id := w.driver.createShader w.gl c.obj.type }
          (glCall (.glCompileShader (w.driver.createShader w.gl c.obj.type))
            (glCall (.glShaderSource (w.driver.createShader w.gl c.obj.type) text)
              (setShaderId this (w.driver.createShader w.gl c.obj.type)
                (glCall (.glCreateShader c.obj.type (w.driver.createShader w.gl c.obj.type)) w))))
          with ⟨b, w3⟩
        rw [hval] at hv
        simp only [programs_glCall, programs_setShaderId] at hv
        cases b <;> simp [Outcome.world, programs_setShaderId, hv]
    · rfl

theorem Shader.make_ok (name : String) (type : ShaderType) (w w2 : World) (s : ShaderPtr)
    (h : Shader.make name type w = .ok s w2) :
    s = w.nextShader ∧ w2.nextShader = w.nextShader + 1 ∧
    w2.liveShaders = w.liveShaders ∧ w2.removals = w.removals ∧
    w2.programs = w.programs ∧
    (∀ o, o ≠ s → (w2.shaders o).map (fun c => c.obj.name) =
      (w.shaders o).map (fun c => c.obj.name)) ∧
    (w2.shaders s).map (fun c => c.obj.name) = some name := by
  obtain ⟨w0, hw0⟩ : ∃ w0 : World, w0 = lmLog .debug "Creating shader %s" { w with
      nextShader := w.nextShader + 1
      shaders := Function.update w.shaders w.nextShader
        (some { obj := { id := 0, type := type, name := name }, useCount := 1 }) } := ⟨_, rfl⟩
  have hfacts : ∀ w3 : World, World.sameNames w0 w3 → w3.programs = w.programs →
      w3.nextShader = w.nextShader + 1 ∧
      w3.liveShaders = w.liveShaders ∧ w3.removals = w.removals ∧
      w3.programs = w.programs ∧
      (∀ o, o ≠ w.nextShader → (w3.shaders o).map (fun c => c.obj.name) =
        (w.shaders o).map (fun c => c.obj.name)) ∧
      (w3.shaders w.nextShader).map (fun c => c.obj.name) = some name := by
    intro w3 hs hp
    refine ⟨?_, ?_, ?_, hp, ?_, ?_⟩
    · rw [hs.2.1, hw0]; rfl
    · rw [hs.1, hw0]; rfl
    · rw [hs.2.2.1, hw0]; rfl
    · intro o ho
      rw [hs.2.2.2 o, hw0]
      simp [lmLog, Function.update, ho]
    · rw [hs.2.2.2 w.nextShader, hw0]
      simp [lmLog]
  unfold Shader.make at h
  simp only [← hw0] at h
  by_cases hn : name.length > 0
  · simp only [hn, if_true] at h
    have hsrc : World.sameNames w0 (Shader.getSourceFromAsset
        { id := 0, type := type, name := name } w0).2 ∧
        (Shader.getSourceFromAsset { id := 0, type := type, name := name } w0).2.programs =
          w0.programs := by
      unfold Shader.getSourceFromAsset
      split
      · exact ⟨sameNames_lmLog _ _ _, rfl⟩
      · exact ⟨World.sameNames_refl _, rfl⟩
    rcases hg : Shader.getSourceFromAsset { id := 0, type := type, name := name } w0
      with ⟨src, wa⟩
    rw [hg] at hsrc h
    simp only at hsrc h
    have hl := Shader.load_sameNames w.nextShader src (loom_asset_subscribe name w.nextShader wa)
    have hlp := Shader.load_programs w.nextShader src (loom_asset_subscribe name w.nextShader wa)
    rcases hload : Shader.load w.nextShader src (loom_asset_subscribe name w.nextShader wa)
      with ⟨b, wb⟩ | ⟨f, wb⟩
    · rw [hload] at h hl hlp
      simp only [Outcome.andThen] at h
      injection h with hs hw
      subst hs hw
      have hp0 : w0.programs = w.programs := by rw [hw0]; rfl
      exact ⟨rfl, hfacts wb
        (World.sameNames_trans _ _ _ hsrc.1
          (World.sameNames_trans _ _ _ (sameNames_subscribe _ _ _) hl))
        (by
          simp only [Outcome.world] at hlp
          rw [hlp]
          show wa.programs = w.programs
          rw [hsrc.2, hp0])⟩
    · rw [hload] at h
      simp [Outcome.andThen] at h
  · simp only [hn, if_false] at h
    injection h with hs hw
    subst hs hw
    exact ⟨rfl, hfacts w0 (World.sameNames_refl _) (by rw [hw0]; rfl)⟩

theorem Shader.addShader_ok (name : String) (sp : lmSptr) (w w2 : World)
    (h : Shader.addShader name sp w = .ok () w2) :
    w2 = { w with liveShaders := lmMap.assign w.liveShaders name sp } := by
  unfold Shader.addShader lmAssert at h
  split_ifs at h
  injection h with _ hw
  exact hw.symm

/-- Registering a freshly constructed shader under its name restores the registry
invariant. -/
theorem World.registryOk_of_new (wa wm : World) (path : String) (s : ShaderPtr)
    (hok : World.registryOk wa)
    (hun : path.length > 0 → World.unnamed path wa)
    (hs : s = wa.nextShader) (hnext : wm.nextShader = wa.nextShader + 1)
    (hlive : wm.liveShaders = wa.liveShaders) (hrem : wm.removals = wa.removals)
    (hoth : ∀ o, o ≠ s → (wm.shaders o).map (fun c => c.obj.name) =
      (wa.shaders o).map (fun c => c.obj.name))
    (hnew : (wm.shaders s).map (fun c => c.obj.name) = some path) :
    World.registryOk { wm with liveShaders := lmMap.assign wm.liveShaders path (some s) } := by
  obtain ⟨hheap, hreg, hrm⟩ := hok
  have hdead : ∀ o, o ≠ s → wa.shaders o = none → wm.shaders o = none := by
    intro o ho hn
    have := hoth o ho
    rw [hn] at this
    cases hw : wm.shaders o with
    | none => rfl
    | some c => rw [hw] at this; simp at this
  refine ⟨?_, ?_, ?_⟩
  · intro q hq
    have hq2 : wa.nextShader + 1 ≤ q := by
      have : wm.nextShader ≤ q := hq
      rw [hnext] at this
      exact this
    have hqs : q ≠ s := by
      rw [hs]
      exact Nat.ne_of_gt (Nat.lt_of_lt_of_le (Nat.lt_succ_self _) hq2)
    exact hdead q hqs (hheap q (Nat.le_of_succ_le hq2))
  · intro o c hc hn
    show lmMap.index (lmMap.assign wm.liveShaders path (some s)) c.obj.name = some o ∧
      lmMap.entries (lmMap.assign wm.liveShaders path (some s)) c.obj.name = 1
    have hc' : wm.shaders o = some c := hc
    by_cases hos : o = s
    · have hname : c.obj.name = path := by
        rw [hos] at hc'
        rw [hc'] at hnew
        simpa using hnew
      rw [hname, hos]
      exact ⟨lmMap.index_assign_self _ _ _, lmMap.entries_assign_self _ _ _⟩
    · have hmap := hoth o hos
      rw [hc'] at hmap
      cases hwa : wa.shaders o with
      | none => rw [hwa] at hmap; simp at hmap
      | some ca =>
        rw [hwa] at hmap
        have hnm : ca.obj.name = c.obj.name := by simpa using hmap.symm
        have hn2 : ca.obj.name.length > 0 := by rw [hnm]; exact hn
        obtain ⟨hi, he⟩ := hreg o ca hwa hn2
        have hne : path ≠ c.obj.name := by
          by_cases hp : path.length > 0
          · intro heq
            exact hun hp o ca hwa (hnm.trans heq.symm)
          · intro heq
            rw [← heq] at hn
            exact hp hn
        rw [lmMap.index_assign_ne _ _ _ _ hne, lmMap.entries_assign_ne _ _ _ _ hne, hlive,
          ← hnm]
        exact ⟨hi, he⟩
  · intro r hr
    have hr' : r ∈ wa.removals := by
      have : r ∈ wm.removals := hr
      rw [hrem] at this
      exact this
    obtain ⟨h1, h2, h3⟩ := hrm r hr'
    refine ⟨h1, ?_, ?_⟩
    · show r.shader < wm.nextShader
      rw [hnext]
      exact Nat.lt_succ_of_lt h2
    · show wm.shaders r.shader = none
      exact hdead _ (by rw [hs]; exact Nat.ne_of_lt h2) h3

theorem ShaderProgram.resolveShader_registryOk (this : ProgramPtr) (slot : ShaderType)
    (path : String) (w w2 : World) (hok : World.registryOk w)
    (h : ShaderProgram.resolveShader this slot path w = .ok () w2) :
    World.registryOk w2 := by
  unfold ShaderProgram.resolveShader at h
  obtain ⟨hok1, -, hun1⟩ := Shader.getShader_registryOk path w hok
  rcases hg : Shader.getShader path w with ⟨found, w1⟩
  rw [hg] at h hok1 hun1
  simp only at h hok1 hun1
  rcases ha : ShaderProgram.assignShader this slot found w1 with ⟨u, wa⟩ | ⟨f, wa⟩
  · rw [ha] at h
    simp only [Outcome.andThen] at h
    obtain ⟨hoka, ⟨p, -, hpa⟩, hunp⟩ := ShaderProgram.assignShader_registryOk _ _ _ _ _ hok1 ha
    cases found with
    | some s0 =>
      simp only [Option.isNone_some, Bool.false_eq_true, if_false] at h
      injection h with _ hw
      rw [← hw]
      exact hoka
    | none =>
      simp only [Option.isNone_none, if_true] at h
      rcases hm : Shader.make path slot wa with ⟨s, wm⟩ | ⟨f, wm⟩
      · rw [hm] at h
        simp only [Outcome.andThen] at h
        obtain ⟨hs, hnext, hlive, hrem, hprog, hoth, hnew⟩ := Shader.make_ok _ _ _ _ _ hm
        have hpm : wm.programs this = some (ShaderProgram.setMember slot none p) := by
          rw [hprog]; exact hpa
        have hmem : ShaderProgram.member slot (ShaderProgram.setMember slot none p) = none := by
          cases slot <;> rfl
        have hb : ShaderProgram.assignShader this slot (some s) wm =
            .ok () (setProgram this
              (ShaderProgram.setMember slot (some s) (ShaderProgram.setMember slot none p)) wm) := by
          simp [ShaderProgram.assignShader, hpm, hmem, release]
        rw [hb] at h
        simp only at h
        have := Shader.addShader_ok _ _ _ _ h
        rw [this]
        exact World.registryOk_of_new wa _ path s hoka
          (fun hp => hunp path (hun1 rfl hp)) hs hnext hlive hrem hoth hnew
      · rw [hm] at h
        simp [Outcome.andThen] at h
  · rw [ha] at h
    simp [Outcome.andThen] at h

theorem ShaderProgram.link_registryOk (this : ProgramPtr) (w w2 : World)
    (hok : World.registryOk w) (h : ShaderProgram.link this w = .ok () w2) :
    World.registryOk w2 := by
  have := ShaderProgram.link_sameNames this w
  rw [h] at this
  exact World.registryOk_of_sameNames w w2 this hok

theorem ShaderProgram.loadFromAssets_registryOk (this : ProgramPtr) (v f : String)
    (w w2 : World) (hok : World.registryOk w)
    (h : ShaderProgram.loadFromAssets this v f w = .ok () w2) : World.registryOk w2 := by
  unfold ShaderProgram.loadFromAssets at h
  rcases h1 : ShaderProgram.resolveShader this .GL_VERTEX_SHADER v w with ⟨u, w1⟩ | ⟨e, w1⟩
  · rw [h1] at h
    simp only [Outcome.andThen] at h
    have hok1 := ShaderProgram.resolveShader_registryOk _ _ _ _ _ hok h1
    rcases h2 : ShaderProgram.resolveShader this .GL_FRAGMENT_SHADER f w1 with ⟨u, wb⟩ | ⟨e, wb⟩
    · rw [h2] at h
      simp only at h
      have hok2 := ShaderProgram.resolveShader_registryOk _ _ _ _ _ hok1 h2
      exact ShaderProgram.link_registryOk this wb w2 hok2 h
    · rw [h2] at h
      simp at h
  · rw [h1] at h
    simp [Outcome.andThen] at h

/-- Constructing an anonymous shader keeps the registry invariant. -/
theorem Shader.make_anonymous_registryOk (type : ShaderType) (w w2 : World) (s : ShaderPtr)
    (hok : World.registryOk w) (h : Shader.make "" type w = .ok s w2) :
    World.registryOk w2 := by
  obtain ⟨hs, hnext, hlive, hrem, -, hoth, hnew⟩ := Shader.make_ok _ _ _ _ _ h
  obtain ⟨hheap, hreg, hrm⟩ := hok
  have hdead : ∀ o, o ≠ s → w.shaders o = none → w2.shaders o = none := by
    intro o ho hn
    have := hoth o ho
    rw [hn] at this
    cases hw : w2.shaders o with
    | none => rfl
    | some c => rw [hw] at this; simp at this
  refine ⟨?_, ?_, ?_⟩
  · intro q hq
    rw [hnext] at hq
    have hqs : q ≠ s := by
      rw [hs]
      exact Nat.ne_of_gt (Nat.lt_of_lt_of_le (Nat.lt_succ_self _) hq)
    exact hdead q hqs (hheap q (Nat.le_of_succ_le hq))
  · intro o c hc hn
    by_cases hos : o = s
    · rw [hos] at hc
      rw [hc] at hnew
      have hname : c.obj.name = "" := by simpa using hnew
      rw [hname] at hn
      simp at hn
    · have hmap := hoth o hos
      rw [hc] at hmap
      cases hwa : w.shaders o with
      | none => rw [hwa] at hmap; simp at hmap
      | some ca =>
        rw [hwa] at hmap
        have hnm : ca.obj.name = c.obj.name := by simpa using hmap.symm
        have hn2 : ca.obj.name.length > 0 := by rw [hnm]; exact hn
        rw [hlive, ← hnm]
        exact hreg o ca hwa hn2
  · intro r hr
    rw [hrem] at hr
    obtain ⟨h1, h2, h3⟩ := hrm r hr
    refine ⟨h1, ?_, ?_⟩
    · rw [hnext]
      exact Nat.lt_succ_of_lt h2
    · exact hdead _ (by rw [hs]; exact Nat.ne_of_lt h2) h3

theorem Shader.shader_load_registryOk (this : ShaderPtr) (src : Option String) (w w2 : World)
    (b : Bool) (hok : World.registryOk w) (h : Shader.load this src w = .ok b w2) :
    World.registryOk w2 := by
  have := Shader.load_sameNames this src w
  rw [h] at this
  exact World.registryOk_of_sameNames w w2 this hok

theorem ShaderProgram.load_registryOk (this : ProgramPtr) (vss fss : Option String)
    (w w2 : World) (hok : World.registryOk w)
    (h : ShaderProgram.load this vss fss w = .ok () w2) : World.registryOk w2 := by
  unfold ShaderProgram.load at h
  rcases h1 : Shader.make "" .GL_VERTEX_SHADER w with ⟨vs, w1⟩ | ⟨e, w1⟩
  · rw [h1] at h
    simp only [Outcome.andThen] at h
    have hok1 := Shader.make_anonymous_registryOk _ _ _ _ hok h1
    rcases h2 : ShaderProgram.assignShader this .GL_VERTEX_SHADER (some vs) w1
      with ⟨u, wb⟩ | ⟨e, wb⟩
    · rw [h2] at h
      simp only at h
      have hok2 := (ShaderProgram.assignShader_registryOk _ _ _ _ _ hok1 h2).1
      rcases h3 : Shader.load vs vss wb with ⟨b3, wc⟩ | ⟨e, wc⟩
      · rw [h3] at h
        simp only at h
        have hok3 := Shader.shader_load_registryOk _ _ _ _ _ hok2 h3
        rcases h4 : Shader.make "" .GL_FRAGMENT_SHADER wc with ⟨fs, wd⟩ | ⟨e, wd⟩
        · rw [h4] at h
          simp only at h
          have hok4 := Shader.make_anonymous_registryOk _ _ _ _ hok3 h4
          rcases h5 : ShaderProgram.assignShader this .GL_FRAGMENT_SHADER (some fs) wd
            with ⟨u, we⟩ | ⟨e, we⟩
          · rw [h5] at h
            simp only at h
            have hok5 := (ShaderProgram.assignShader_registryOk _ _ _ _ _ hok4 h5).1
            rcases h6 : Shader.load fs fss we with ⟨b6, wf⟩ | ⟨e, wf⟩
            · rw [h6] at h
              simp only at h
              have hok6 := Shader.shader_load_registryOk _ _ _ _ _ hok5 h6
              exact ShaderProgram.link_registryOk this wf w2 hok6 h
            · rw [h6] at h
              simp at h
          · rw [h5] at h
            simp at h
        · rw [h4] at h
          simp at h
      · rw [h3] at h
        simp at h
    · rw [h2] at h
      simp at h
  · rw [h1] at h
    simp [Outcome.andThen] at h

theorem ShaderProgram.destroyMembers_registryOk (this : ProgramPtr) (order : Bool) (w : World)
    (hok : World.registryOk w) :
    World.registryOk (ShaderProgram.destroyMembers this order w) := by
  unfold ShaderProgram.destroyMembers
  cases hp : w.programs this with
  | none => exact hok
  | some p =>
    simp only
    cases order
    · simp only [Bool.false_eq_true, if_false]
      exact World.registryOk_of_sameNames _ _ ⟨rfl, rfl, rfl, fun _ => rfl⟩
        (release_registryOk _ _ (release_registryOk _ _ hok))
    · simp only [if_true]
      exact World.registryOk_of_sameNames _ _ ⟨rfl, rfl, rfl, fun _ => rfl⟩
        (release_registryOk _ _ (release_registryOk _ _ hok))

theorem ShaderProgram.destroy_registryOk (this : ProgramPtr) (order : Bool) (w w2 : World)
    (hok : World.registryOk w) (h : ShaderProgram.destroy this order w = .ok () w2) :
    World.registryOk w2 := by
  unfold ShaderProgram.destroy at h
  cases hp : w.programs this with
  | none => simp [hp] at h
  | some p =>
    simp only [hp] at h
    by_cases h0 : (p.programId == 0) = true
    · simp only [h0, if_true] at h
      injection h with _ hw
      rw [← hw]
      exact ShaderProgram.destroyMembers_registryOk _ _ _ hok
    · simp only [h0, Bool.false_eq_true, if_false] at h
      cases hvs : deref p.vertexShader w with
      | none => simp [hvs] at h
      | some vs =>
        simp only [hvs, deref_glCall] at h
        cases hfs : deref p.fragmentShader w with
        | none => simp [hfs] at h
        | some fs =>
          simp only [hfs] at h
          have hok2 : World.registryOk (glCall (.glDetachShader p.programId fs.id)
              (glCall (.glDetachShader p.programId vs.id) w)) :=
            World.registryOk_of_sameNames _ _ (sameNames_glCall _ _)
              (World.registryOk_of_sameNames _ _ (sameNames_glCall _ _) hok)
          rcases h1 : ShaderProgram.assignShader this .GL_VERTEX_SHADER none
            (glCall (.glDetachShader p.programId fs.id)
              (glCall (.glDetachShader p.programId vs.id) w)) with ⟨u, w3⟩ | ⟨e, w3⟩
          · rw [h1] at h
            simp only [Outcome.andThen] at h
            have hok3 := (ShaderProgram.assignShader_registryOk _ _ _ _ _ hok2 h1).1
            rcases h2 : ShaderProgram.assignShader this .GL_FRAGMENT_SHADER none w3
              with ⟨u, w4⟩ | ⟨e, w4⟩
            · rw [h2] at h
              simp only at h
              have hok4 := (ShaderProgram.assignShader_registryOk _ _ _ _ _ hok3 h2).1
              injection h with _ hw
              rw [← hw]
              exact ShaderProgram.destroyMembers_registryOk _ _ _
                (World.registryOk_of_sameNames _ _ (sameNames_glCall _ _) hok4)
            · rw [h2] at h
              simp at h
          · rw [h1] at h
            simp [Outcome.andThen] at h

theorem World.registryOk_init (d : Driver) (assets : String → Option String) :
    World.registryOk (World.init d assets) := by
  refine ⟨fun _ _ => rfl, ?_, ?_⟩
  · intro s c hc
    simp [World.init] at hc
  · intro r hr
    simp [World.init] at hr

theorem Step.keeps_registryOk (w w2 : World) (hstep : Step w w2) (hok : World.registryOk w) :
    World.registryOk w2 := by
  cases hstep with
  | construct this uninit _ =>
    exact World.registryOk_of_sameNames _ _ (sameNames_setProgram _ _ _) hok
  | program _ this op h =>
    cases op with
    | link => exact ShaderProgram.link_registryOk this w w2 hok h
    | load vss fss => exact ShaderProgram.load_registryOk this vss fss w w2 hok h
    | loadFromAssets v f => exact ShaderProgram.loadFromAssets_registryOk this v f w w2 hok h
    | bind =>
      have := ShaderProgram.bind_sameNames this w
      simp only [ProgramOp.run] at h
      rw [h] at this
      exact World.registryOk_of_sameNames w w2 this hok
  | uniform _ this c h =>
    have := UniformCall.run_sameNames this c w
    rw [h] at this
    exact World.registryOk_of_sameNames w w2 this hok
  | reload _ s h =>
    have := Shader.reload_sameNames s w
    rw [h] at this
    exact World.registryOk_of_sameNames w w2 this hok
  | destroy _ this order h => exact ShaderProgram.destroy_registryOk this order w w2 hok h
  | changeAsset name text =>
    exact World.registryOk_of_sameNames _ _ ⟨rfl, rfl, rfl, fun _ => rfl⟩ hok
  | removeAsset name =>
    exact World.registryOk_of_sameNames _ _ ⟨rfl, rfl, rfl, fun _ => rfl⟩ hok

theorem Reachable.has_registryOk (w : World) (h : Reachable w) : World.registryOk w := by
  obtain ⟨d, assets, hrun⟩ := h
  induction hrun with
  | refl => exact World.registryOk_init d assets
  | tail _ hstep ih => exact Step.keeps_registryOk _ _ hstep ih

theorem Outcome.eq_ok_of_returned (r : Outcome Unit) (h : r.returned = true) :
    r = .ok () r.world := by
  cases r with
  | ok u w => rfl
  | fatal f w => simp [Outcome.returned] at h

theorem Reachable.start (d : Driver) (assets : String → Option String) :
    Reachable (World.init d assets) :=
  ⟨d, assets, Relation.ReflTransGen.refl⟩

theorem Reachable.step (w w2 : World) (h : Reachable w) (hstep : Step w w2) : Reachable w2 := by
  obtain ⟨d, assets, hrun⟩ := h
  exact ⟨d, assets, Relation.ReflTransGen.tail hrun hstep⟩

theorem Reachable.program (w : World) (this : ProgramPtr) (op : ProgramOp) (h : Reachable w)
    (hret : (ProgramOp.run this op w).returned = true) :
    Reachable (ProgramOp.run this op w).world :=
  Reachable.step w _ h (Step.program w _ this op (Outcome.eq_ok_of_returned _ hret))

theorem Reachable.teardown (w : World) (this : ProgramPtr) (order : Bool) (h : Reachable w)
    (hret : (ShaderProgram.destroy this order w).returned = true) :
    Reachable (ShaderProgram.destroy this order w).world :=
  Reachable.step w _ h (Step.destroy w _ this order (Outcome.eq_ok_of_returned _ hret))

theorem exampleSurvivor_reachable : Reachable exampleSurvivor :=
  Reachable.teardown _ 0 true
    (Reachable.program _ 1 (.loadFromAssets "a.vert" "a.vert")
      (Reachable.program _ 0 (.loadFromAssets "a.vert" "a.frag")
        (Reachable.step _ _
          (Reachable.step _ _ (Reachable.start (exampleDriver true) exampleAssets)
            (Step.construct _ 0 exampleUninit rfl))
          (Step.construct _ 1 exampleUninit rfl))
        (by decide))
      (by decide))
    (by decide)

/-- C13: in every state a run can be in between two operations (construction and teardown
of programs, `link`, `load`, `loadFromAssets`, `bind`, the uniform setters, `reload`, and
changes of the asset store, from start-up), each live shader with a non-empty name is
registered under its name exactly once, and the entry refers to that shader.  And every
`removeShader` call made so far found, under the name, the entry of the shader whose
destructor made the call, a shader that is expired, so that no call erased the entry of a
live shader. -/
theorem C13_live_named_shader_is_registered_once (w : World) (h : Reachable w) :
    (∀ s c, w.shaders s = some c → c.obj.name.length > 0 →
      lmMap.index w.liveShaders c.obj.name = some s ∧
      lmMap.entries w.liveShaders c.obj.name = 1 ∧
      World.liveEntries w c.obj.name = 1) ∧
    (∀ r ∈ w.removals, r.entry = some r.shader ∧ expired r.entry w = true) := by
  obtain ⟨-, hreg, hrem⟩ := Reachable.has_registryOk w h
  refine ⟨?_, ?_⟩
  · intro s c hc hn
    obtain ⟨hi, he⟩ := hreg s c hc hn
    exact ⟨hi, he, World.liveEntries_eq_one w _ s c he hi hc⟩
  · intro r hr
    obtain ⟨h1, -, h3⟩ := hrem r hr
    refine ⟨h1, ?_⟩
    rw [h1]
    simp [expired, h3]

theorem C13_live_named_shader_is_registered_once_witness :
    Reachable exampleSurvivor ∧
    (∀ s c, exampleSurvivor.shaders s = some c → c.obj.name.length > 0 →
      lmMap.index exampleSurvivor.liveShaders c.obj.name = some s ∧
      lmMap.entries exampleSurvivor.liveShaders c.obj.name = 1 ∧
      World.liveEntries exampleSurvivor c.obj.name = 1) ∧
    (∀ r ∈ exampleSurvivor.removals,
      r.entry = some r.shader ∧ expired r.entry exampleSurvivor = true) :=
  ⟨exampleSurvivor_reachable,
   C13_live_named_shader_is_registered_once exampleSurvivor exampleSurvivor_reachable⟩

/-! ## The entry of a name over a run of registry operations -/

theorem lmMap.count_erase_ne (m : lmMap) (k n : String) (h : n ≠ k) :
    lmMap.count (lmMap.erase m k) n = lmMap.count m n := by
  unfold lmMap.count lmMap.erase
  congr 1
  simp only [List.any_filter]
  congr 1
  induction m with
  | nil => rfl
  | cons e m ih =>
    simp only [List.any_cons, ih]
    congr 1
    by_cases he : e.1 = n
    · simp [he, h]
    · simp [he]

theorem lmMap.count_assign_ne (m : lmMap) (k n : String) (v : lmWptr) (h : n ≠ k) :
    lmMap.count (lmMap.assign m k v) n = lmMap.count m n := by
  have := lmMap.count_erase_ne m k n h
  unfold lmMap.count lmMap.assign at *
  simp only [List.any_cons]
  have hk : (k == n) = false := by simpa using fun e => h e.symm
  simp only [hk, Bool.false_or]
  exact this

theorem World.entryOf_of_same (n : String) (s : ShaderPtr) (w w2 : World)
    (hreg : w2.liveShaders = w.liveShaders) (hdead : w.shaders s = none → w2.shaders s = none)
    (h : World.entryOf n s w) : World.entryOf n s w2 := by
  refine ⟨fun halive => ?_, ?_⟩
  · rw [hreg]
    exact h.1 (fun hd => halive (hdead hd))
  · rw [hreg]
    exact h.2

theorem retain_alive_iff (sp : lmSptr) (w : World) (s : ShaderPtr) :
    (retain sp w).shaders s = none ↔ w.shaders s = none := by
  cases sp with
  | none => rfl
  | some p =>
    cases hc : w.shaders p with
    | none => simp only [retain, hc]
    | some c =>
      simp only [retain, hc]
      by_cases hs : s = p
      · subst hs
        simp [hc]
      · simp [Function.update, hs]

theorem retain_liveShaders (sp : lmSptr) (w : World) :
    (retain sp w).liveShaders = w.liveShaders := by
  cases sp with
  | none => rfl
  | some p =>
    cases hc : w.shaders p with
    | none => simp only [retain, hc]
    | some c => simp only [retain, hc]

theorem World.entryOf_getShader (n : String) (s : ShaderPtr) (w : World) (k : String)
    (h : World.entryOf n s w) : World.entryOf n s (Shader.getShader k w).2 := by
  unfold Shader.getShader
  by_cases hc : lmMap.count w.liveShaders k = 0
  · simp only [hc, bne_self_eq_false, Bool.false_eq_true, if_false]
    exact h
  · have hc2 : (lmMap.count w.liveShaders k != 0) = true := by simpa using hc
    simp only [hc2, if_true]
    by_cases hexp : expired (lmMap.index w.liveShaders k) w = true
    · simp only [hexp, if_true]
      by_cases hkn : k = n
      · subst hkn
        have hdead : w.shaders s = none := by
          by_contra halive
          have hi := h.1 halive
          rw [hi] at hexp
          simp only [expired, Option.isNone_iff_eq_none] at hexp
          exact halive hexp
        refine ⟨fun halive => absurd hdead halive, Or.inr ?_⟩
        exact lmMap.count_erase_self _ _
      · refine ⟨fun halive => ?_, ?_⟩
        · show lmMap.index (lmMap.erase w.liveShaders k) n = some s
          rw [lmMap.index_erase, if_neg hkn]
          exact h.1 halive
        · show lmMap.index (lmMap.erase w.liveShaders k) n = some s ∨
            lmMap.count (lmMap.erase w.liveShaders k) n = 0
          rw [lmMap.index_erase, if_neg hkn, lmMap.count_erase_ne _ _ _ (Ne.symm hkn)]
          exact h.2
    · simp only [hexp, Bool.false_eq_true, if_false]
      exact World.entryOf_of_same n s w _ (retain_liveShaders _ _)
        (fun hd => (retain_alive_iff _ _ _).2 hd) h

theorem World.entryOf_addShader (n : String) (s : ShaderPtr) (w w2 : World) (k : String)
    (sp : lmSptr) (hkn : k ≠ n) (hadd : Shader.addShader k sp w = .ok () w2)
    (h : World.entryOf n s w) : World.entryOf n s w2 := by
  unfold Shader.addShader lmAssert at hadd
  split_ifs at hadd
  injection hadd with _ hw
  subst hw
  refine ⟨fun halive => ?_, ?_⟩
  · show lmMap.index (lmMap.assign w.liveShaders k sp) n = some s
    rw [lmMap.index_assign_ne _ _ _ _ hkn]
    exact h.1 halive
  · show lmMap.index (lmMap.assign w.liveShaders k sp) n = some s ∨
      lmMap.count (lmMap.assign w.liveShaders k sp) n = 0
    rw [lmMap.index_assign_ne _ _ _ _ hkn,
      lmMap.count_assign_ne _ _ _ _ (Ne.symm hkn)]
    exact h.2

theorem Shader.destroy_liveShaders (this : ShaderPtr) (o : Shader) (w : World) :
    (Shader.destroy this o w).liveShaders =
      if o.name.length > 0 ∧ lmMap.count w.liveShaders o.name ≠ 0 then
        lmMap.erase w.liveShaders o.name
      else w.liveShaders := by
  by_cases hn : o.name.length > 0
  · by_cases hc : lmMap.count w.liveShaders o.name = 0
    · by_cases hid : o.id = 0 <;>
        simp [Shader.destroy, Shader.removeShader, noteRemoval, loom_asset_unsubscribe, lmLog,
          glCall, hn, hc, hid]
    · by_cases hid : o.id = 0 <;>
        simp [Shader.destroy, Shader.removeShader, noteRemoval, loom_asset_unsubscribe, lmLog,
          glCall, hn, hc, hid]
  · by_cases hid : o.id = 0 <;>
      simp [Shader.destroy, lmLog, glCall, hn, hid]

theorem World.entryOf_release (n : String) (s : ShaderPtr) (w : World) (sp : lmSptr)
    (hpre : ∀ p c, sp = some p → w.shaders p = some c → c.useCount ≤ 1 →
      c.obj.name.length > 0 →
      ∀ t, lmMap.index w.liveShaders c.obj.name = some t → t = p ∨ w.shaders t = none)
    (h : World.entryOf n s w) : World.entryOf n s (release sp w) := by
  cases sp with
  | none => exact h
  | some p =>
    cases hc : w.shaders p with
    | none =>
      simp only [release, hc]
      exact h
    | some c =>
      simp only [release, hc]
      by_cases hlast : c.useCount ≤ 1
      · simp only [hlast, if_true]
        have hsh := (Shader.destroy_fields p c.obj w).1
        have hlive := Shader.destroy_liveShaders p c.obj w
        have hdeadkeep : w.shaders s = none → (Shader.destroy p c.obj w).shaders s = none := by
          intro hd
          rw [hsh]
          by_cases hsp : s = p
          · subst hsp
            simp
          · simp [Function.update, hsp, hd]
        by_cases herase : c.obj.name.length > 0 ∧ lmMap.count w.liveShaders c.obj.name ≠ 0
        · rw [if_pos herase] at hlive
          by_cases hkn : c.obj.name = n
          · have hgone : (Shader.destroy p c.obj w).shaders s = none := by
              rcases h.2 with hi | h0
              · rcases hpre p c rfl hc hlast herase.1 s (by rw [hkn]; exact hi) with hsp | hd
                · rw [hsh, hsp]
                  simp
                · exact hdeadkeep hd
              · exact absurd (hkn ▸ h0) herase.2
            refine ⟨fun halive => absurd hgone halive, Or.inr ?_⟩
            rw [hlive, hkn]
            exact lmMap.count_erase_self _ _
          · refine ⟨fun halive => ?_, ?_⟩
            · rw [hlive, lmMap.index_erase, if_neg hkn]
              exact h.1 (fun hd => halive (hdeadkeep hd))
            · rw [hlive, lmMap.index_erase, if_neg hkn,
                lmMap.count_erase_ne _ _ _ (Ne.symm hkn)]
              exact h.2
        · rw [if_neg herase] at hlive
          exact World.entryOf_of_same n s w _ hlive hdeadkeep h
      · simp only [hlast, if_false]
        refine World.entryOf_of_same n s w _ rfl ?_ h
        intro hd
        by_cases hsp : s = p
        · subst hsp
          rw [hc] at hd
          exact absurd hd (by simp)
        · simp [Function.update, hsp, hd]

theorem RegistryStep.keeps_entryOf (n : String) (s : ShaderPtr) (w w2 : World)
    (hstep : RegistryStep n s w w2) (h : World.entryOf n s w) : World.entryOf n s w2 := by
  cases hstep with
  | add _ k sp hkn hadd => exact World.entryOf_addShader n s w w2 k sp hkn hadd h
  | get k => exact World.entryOf_getShader n s w k h
  | release sp hpre => exact World.entryOf_release n s w sp hpre h
  | other _ hreg hdead => exact World.entryOf_of_same n s w w2 hreg hdead h

theorem World.entryOf_run (n : String) (s : ShaderPtr) (w w2 : World)
    (hrun : Relation.ReflTransGen (RegistryStep n s) w w2) (h : World.entryOf n s w) :
    World.entryOf n s w2 := by
  induction hrun with
  | refl => exact h
  | tail _ hstep ih => exact RegistryStep.keeps_entryOf n s _ _ hstep ih

/-- In a state where every live named shader is registered under its name, with the entry
referring to it, every `release` meets the contract of `removeShader`. -/
theorem World.registered_release (w : World) (hreg : World.registered w) (sp : lmSptr) :
    ∀ p c, sp = some p → w.shaders p = some c → c.useCount ≤ 1 →
      c.obj.name.length > 0 →
      ∀ t, lmMap.index w.liveShaders c.obj.name = some t → t = p ∨ w.shaders t = none := by
  intro p c _ hc _ hname t ht
  have := (hreg p c hc hname).1
  rw [this] at ht
  exact Or.inl (Option.some.inj ht).symm

/-- Between two operations of a run every `release` meets the contract of
`removeShader`. -/
theorem Reachable.release_contract (w : World) (h : Reachable w) (sp : lmSptr) :
    ∀ p c, sp = some p → w.shaders p = some c → c.useCount ≤ 1 →
      c.obj.name.length > 0 →
      ∀ t, lmMap.index w.liveShaders c.obj.name = some t → t = p ∨ w.shaders t = none :=
  World.registered_release w (Reachable.has_registryOk w h).2.1 sp

/-- Between two operations of a run, looking up the name of a live named shader returns
that shader and leaves the registry as it is. -/
theorem Reachable.getShader_of_alive (w : World) (h : Reachable w) (s : ShaderPtr)
    (c : ShaderCell) (hc : w.shaders s = some c) (hn : c.obj.name.length > 0) :
    (Shader.getShader c.obj.name w).1 = some s ∧
    (Shader.getShader c.obj.name w).2.liveShaders = w.liveShaders := by
  have hindex := ((Reachable.has_registryOk w h).2.1 s c hc hn).1
  have hcount : lmMap.count w.liveShaders c.obj.name ≠ 0 :=
    lmMap.count_ne_zero_of_index _ _ _ hindex
  have hcount1 : lmMap.count w.liveShaders c.obj.name = 1 := by
    have := lmMap.count_le_one w.liveShaders c.obj.name
    omega
  constructor
  · simp [Shader.getShader, hcount1, hindex, expired, hc]
  · simp [Shader.getShader, hcount1, hindex, expired, hc, retain]

/-- C1: when `n` is not yet in the registry, `addShader n s` returns and leaves the shader
objects and the entries of all other names as they were; and after any run of registry
operations from there (other names added, any names looked up, owner shares given up,
anything else that leaves the registry alone): while `s` is alive `getShader n` returns
exactly `s`, leaves the registry as it is, and a second `addShader n` is refused; once `s`
is gone `getShader n` returns null and leaves no entry for `n`; and when the last owner of
`s` lets go (the destructor runs), `getShader n` returns null and no entry for `n`
remains. -/
theorem C1_registry_add_then_get (w : World) (n : String) (s : ShaderPtr)
    (h : lmMap.count w.liveShaders n = 0) :
    ∃ w1, Shader.addShader n (some s) w = .ok () w1 ∧
      w1.shaders = w.shaders ∧
      (∀ k, k ≠ n → lmMap.index w1.liveShaders k = lmMap.index w.liveShaders k ∧
        lmMap.count w1.liveShaders k = lmMap.count w.liveShaders k) ∧
      ∀ w2 : World, Relation.ReflTransGen (RegistryStep n s) w1 w2 →
        (∀ c, w2.shaders s = some c →
          (Shader.getShader n w2).1 = some s ∧
          (Shader.getShader n w2).2.liveShaders = w2.liveShaders ∧
          ∀ sp, (Shader.addShader n sp w2).returned = false) ∧
        (w2.shaders s = none →
          (Shader.getShader n w2).1 = none ∧
          lmMap.count (Shader.getShader n w2).2.liveShaders n = 0) ∧
        (∀ c, w2.shaders s = some c → c.useCount ≤ 1 →
          (Shader.getShader n (release (some s) w2)).1 = none ∧
          lmMap.count (Shader.getShader n (release (some s) w2)).2.liveShaders n = 0) := by
  refine ⟨{ w with liveShaders := lmMap.assign w.liveShaders n (some s) }, ?_, rfl, ?_, ?_⟩
  · simp [Shader.addShader, lmAssert, h]
  · intro k hk
    exact ⟨lmMap.index_assign_ne _ _ _ _ (Ne.symm hk), lmMap.count_assign_ne _ _ _ _ hk⟩
  · intro w2 hrun
    have hstart : World.entryOf n s { w with liveShaders := lmMap.assign w.liveShaders n (some s) } :=
      ⟨fun _ => lmMap.index_assign_self _ _ _, Or.inl (lmMap.index_assign_self _ _ _)⟩
    have hent := World.entryOf_run n s _ w2 hrun hstart
    refine ⟨?_, ?_, ?_⟩
    · intro c hc
      have hindex : lmMap.index w2.liveShaders n = some s := hent.1 (by simp [hc])
      have hcount : lmMap.count w2.liveShaders n ≠ 0 :=
        lmMap.count_ne_zero_of_index _ _ _ hindex
      have hcount1 : lmMap.count w2.liveShaders n = 1 := by
        have := lmMap.count_le_one w2.liveShaders n
        omega
      refine ⟨?_, ?_, ?_⟩
      · simp [Shader.getShader, hcount1, hindex, expired, hc]
      · simp [Shader.getShader, hcount1, hindex, expired, hc, retain]
      · intro sp
        simp [Shader.addShader, lmAssert, hcount1, Outcome.returned]
    · intro hc
      by_cases hcount : lmMap.count w2.liveShaders n = 0
      · simp [Shader.getShader, hcount]
      · have hindex : lmMap.index w2.liveShaders n = some s := by
          rcases hent.2 with hi | h0
          · exact hi
          · exact absurd h0 hcount
        simp [Shader.getShader, hcount, hindex, expired, hc, lmMap.count_erase_self]
    · intro c hc hle
      have hindex : lmMap.index w2.liveShaders n = some s := hent.1 (by simp [hc])
      have hrel : release (some s) w2 = Shader.destroy s c.obj w2 := by
        simp [release, hc, hle]
      rw [hrel]
      have hgone : (Shader.destroy s c.obj w2).shaders s = none := by
        simp [Shader.destroy]
      have hidx : lmMap.index (Shader.destroy s c.obj w2).liveShaders n = none ∨
          lmMap.index (Shader.destroy s c.obj w2).liveShaders n = some s := by
        simp only [Shader.destroy, Shader.removeShader, noteRemoval, lmLog, glCall,
          loom_asset_unsubscribe]
        split_ifs <;> simp [lmMap.index_erase, hindex] <;> exact em _
      have hexp : expired (lmMap.index (Shader.destroy s c.obj w2).liveShaders n)
          (Shader.destroy s c.obj w2) = true := by
        rcases hidx with hi | hi
        · simp [hi, expired]
        · simp [hi, expired, hgone]
      by_cases h1 : lmMap.count (Shader.destroy s c.obj w2).liveShaders n = 0
      · simp [Shader.getShader, h1]
      · simp [Shader.getShader, h1, hexp, lmMap.count_erase_self]

/-- C1 at a concrete input: the shader at address 0, just constructed with the name
`"a.vert"` and not yet registered. -/
theorem C1_registry_add_then_get_witness :
    lmMap.count (Shader.make "a.vert" .GL_VERTEX_SHADER
      (World.init (exampleDriver true) exampleAssets)).world.liveShaders "a.vert" = 0 ∧
    ∃ w1, Shader.addShader "a.vert" (some 0) (Shader.make "a.vert" .GL_VERTEX_SHADER
        (World.init (exampleDriver true) exampleAssets)).world = .ok () w1 ∧
      w1.shaders = (Shader.make "a.vert" .GL_VERTEX_SHADER
        (World.init (exampleDriver true) exampleAssets)).world.shaders ∧
      (∀ k, k ≠ "a.vert" →
        lmMap.index w1.liveShaders k = lmMap.index (Shader.make "a.vert" .GL_VERTEX_SHADER
          (World.init (exampleDriver true) exampleAssets)).world.liveShaders k ∧
        lmMap.count w1.liveShaders k = lmMap.count (Shader.make "a.vert" .GL_VERTEX_SHADER
          (World.init (exampleDriver true) exampleAssets)).world.liveShaders k) ∧
      ∀ w2 : World, Relation.ReflTransGen (RegistryStep "a.vert" 0) w1 w2 →
        (∀ c, w2.shaders 0 = some c →
          (Shader.getShader "a.vert" w2).1 = some 0 ∧
          (Shader.getShader "a.vert" w2).2.liveShaders = w2.liveShaders ∧
          ∀ sp, (Shader.addShader "a.vert" sp w2).returned = false) ∧
        (w2.shaders 0 = none →
          (Shader.getShader "a.vert" w2).1 = none ∧
          lmMap.count (Shader.getShader "a.vert" w2).2.liveShaders "a.vert" = 0) ∧
        (∀ c, w2.shaders 0 = some c → c.useCount ≤ 1 →
          (Shader.getShader "a.vert" (release (some 0) w2)).1 = none ∧
          lmMap.count (Shader.getShader "a.vert" (release (some 0) w2)).2.liveShaders "a.vert"
            = 0) :=
  ⟨by decide, C1_registry_add_then_get _ "a.vert" 0 (by decide)⟩

/-- A run of registry operations on the linked example program, where `"a.vert"` and
`"a.frag"` are registered: looking `"a.frag"` up, registering a third name, and giving the
owner share of the lookup back are steps, so `"a.vert"` is still found after them. -/
theorem registry_example_run :
    Relation.ReflTransGen (RegistryStep "a.vert" 0) (exampleLinked true)
      (release (some 1)
        (Outcome.world (Shader.addShader "b.vert" none
          (Shader.getShader "a.frag" (exampleLinked true)).2))) ∧
    (Shader.getShader "a.vert" (release (some 1)
        (Outcome.world (Shader.addShader "b.vert" none
          (Shader.getShader "a.frag" (exampleLinked true)).2)))).1 = some 0 ∧
    (Shader.getShader "a.frag" (exampleLinked true)).1 = some 1 := by
  refine ⟨?_, by decide, by decide⟩
  have h1 : RegistryStep "a.vert" 0 (exampleLinked true)
      (Shader.getShader "a.frag" (exampleLinked true)).2 := RegistryStep.get _ "a.frag"
  have h2 : RegistryStep "a.vert" 0 (Shader.getShader "a.frag" (exampleLinked true)).2
      (Outcome.world (Shader.addShader "b.vert" none
        (Shader.getShader "a.frag" (exampleLinked true)).2)) :=
    RegistryStep.add _ _ "b.vert" none (by decide) rfl
  refine Relation.ReflTransGen.tail (Relation.ReflTransGen.tail
    (Relation.ReflTransGen.single h1) h2) (RegistryStep.release _ (some 1) ?_)
  intro p c hp hc hlast
  injection hp with hp
  subst hp
  have : c.useCount = 2 := by
    have h2 : ((Outcome.world (Shader.addShader "b.vert" none
        (Shader.getShader "a.frag" (exampleLinked true)).2)).shaders 1).map
        (fun c => c.useCount) = some 2 := by decide
    rw [hc] at h2
    exact Option.some.inj h2
  omega

end GFX
